import Mathlib

/-!
# CompareFiles: pair enumerator and stream comparator

A shallow embedding of `cmpcomb_handler.c`, `cmpfiles_handler.c` and the argument loop of
`main.c`.

Conventions of the embedding.

* `size_t` values are natural numbers; the width of `size_t` is the parameter `w`, and an
  operation that can wrap is written with an explicit `% 2 ^ w`.
* A pointer that the code tests against `NULL` is an `Option`; `none` is `NULL`.
* A heap array is a `List`; `readAt` and `writeAt` are the array read and the array write.
  An access outside the array is undefined behaviour in C; the embedding makes the read return
  a default value and the write do nothing, and the theorems carry the hypothesis under which
  every access is inside its array (`FilesToCompare.WF` for the comparator,
  `CompareCombinations.Allocated` for the set).
* The byte size that is passed to `malloc` is a `size_t` product and wraps; the array in the
  new block has as many entries as fit into the bytes requested (`mallocArray`).
* A call that does not return, because it writes through a null pointer, has the result `none`
  of a function whose result is an `Option` of what it returns
  (`CmpComb_PrepareCombinations`).
* A function that mutates `*handler` returns the new value of the pointee next to its result.
* A C loop with a counter is `forRange`, a left fold of the loop body over the counter values.
* The `do ... while` loop of `CmpFiles_CompareFiles` has no bound in the source; it is run with
  fuel, `none` meaning that the fuel ran out before the loop condition became false.
* The functions that build a session return, next to their result, the list of the requests
  they make to the host (`Effect`), in order; a `goto` out of a loop is a flag of the loop
  state that makes the remaining turns do nothing.
-/

namespace CompareFiles

/-! ## Arrays and loops -/

/-- The read `p[i]` of a heap array; `d` stands for the value of an access that C leaves
undefined (absent array or index outside of it). -/
def readAt {α : Type} (p : Option (List α)) (i : Nat) (d : α) : α :=
  (p.getD []).getD i d

/-- The write `p[i] = v` into a heap array. -/
def writeAt {α : Type} (p : Option (List α)) (i : Nat) (v : α) : Option (List α) :=
  p.map (fun xs => xs.set i v)

/-- The loop `for (i = lo; i < hi; ++i) s = body i s`. -/
def forRange {σ : Type} (lo hi : Nat) (body : Nat → σ → σ) (s : σ) : σ :=
  (List.range' lo (hi - lo)).foldl (fun acc i => body i acc) s

/-! ## cmpcomb_handler.h -/

/-- The `enum MatchState`. -/
inductive MatchState where
  | UNKNOWN
  | NOT_MATCHED
  | MATCHED
deriving DecidableEq, Repr

/-- The `struct CompareCombinations`. -/
structure CompareCombinations where
  _compare_indexes : Option (List Nat)
  _compare_with_indexes : Option (List Nat)
  _match_states : Option (List MatchState)
  _among_of_combinations : Nat
  _among_of_elements : Nat
deriving DecidableEq, Repr

/-! ## cmpcomb_handler.c -/

/-- The `while (number_of_elements > 0)` loop of `CmpComb_NumberOfCombinations`: the first
argument is `number_of_elements`, the second `number_of_combinations`. -/
def CmpComb_NumberOfCombinations.loop (w : Nat) : Nat → Nat → Nat
  | 0, number_of_combinations => number_of_combinations
  | number_of_elements + 1, number_of_combinations =>
      CmpComb_NumberOfCombinations.loop w number_of_elements
        ((number_of_combinations + number_of_elements) % 2 ^ w)

/-- The function `size_t CmpComb_NumberOfCombinations(size_t number_of_elements)`. -/
def CmpComb_NumberOfCombinations (w : Nat) (number_of_elements : Nat) : Nat :=
  CmpComb_NumberOfCombinations.loop w number_of_elements 0

/-- The function `bool CmpComb_GetCombination(handler, from_position, compare_index, compare_with_index)`.
The two output slots are `Option Nat`: `none` is a `NULL` pointer, `some v` a slot holding `v`.
The result is the returned boolean, the set after the call and the two slots after the call. -/
def CmpComb_GetCombination (handler : Option CompareCombinations) (from_position : Nat)
    (compare_index compare_with_index : Option Nat) :
    Bool × Option CompareCombinations × Option Nat × Option Nat :=
  match handler with
  | none => (false, none, compare_index, compare_with_index)
  | some h =>
      if from_position ≥ h._among_of_combinations then
        (false, some h, compare_index, compare_with_index)
      else if compare_index = none ∨ compare_with_index = none then
        (false, some h, compare_index, compare_with_index)
      else
        (true, some h, some (readAt h._compare_indexes from_position 0),
          some (readAt h._compare_with_indexes from_position 0))

/-- The function `bool CmpComb_SetCombination(handler, from_position, compare_index, compare_with_index)`:
the returned boolean and the set after the call. -/
def CmpComb_SetCombination (handler : Option CompareCombinations) (from_position : Nat)
    (compare_index compare_with_index : Nat) : Bool × Option CompareCombinations :=
  match handler with
  | none => (false, none)
  | some h =>
      if from_position ≥ h._among_of_combinations then (false, some h)
      else
        (true, some { h with
          _compare_indexes := writeAt h._compare_indexes from_position compare_index
          _compare_with_indexes :=
            writeAt h._compare_with_indexes from_position compare_with_index })

/-- The state of the nested sweep of `CmpComb_PrepareCombinations`. -/
structure SweepState where
  handler : Option CompareCombinations
  in_position : Nat
  incrementer : Nat
deriving DecidableEq, Repr

/-- The body of the inner loop of `CmpComb_PrepareCombinations`. -/
def CmpComb_PrepareCombinations.inner (w : Nat) (compare_index compare_with_index : Nat)
    (s : SweepState) : SweepState :=
  { s with
    handler :=
      (CmpComb_SetCombination s.handler s.in_position compare_index compare_with_index).2
    in_position := (s.in_position + 1) % 2 ^ w }

/-- The body of the outer loop of `CmpComb_PrepareCombinations`. -/
def CmpComb_PrepareCombinations.outer (w : Nat) (among_of_elements : Nat) (compare_index : Nat)
    (s : SweepState) : SweepState :=
  let s1 := forRange s.incrementer among_of_elements
    (CmpComb_PrepareCombinations.inner w compare_index) s
  { s1 with incrementer := (s1.incrementer + 1) % 2 ^ w }

/-- The function `bool CmpComb_PrepareCombinations(handler)`: the returned boolean and the set after the
call. Past the guards the pair count is above 0, so the reset loop writes `_match_states[0]`;
the guards do not test `_match_states`, and when it is a null pointer the write goes through
the null pointer: the call does not return, which is the result `none`. -/
def CmpComb_PrepareCombinations (w : Nat) (handler : Option CompareCombinations) :
    Option (Bool × Option CompareCombinations) :=
  match handler with
  | none => some (false, none)
  | some h =>
      if h._among_of_combinations = 0 then some (false, some h)
      else if h._compare_indexes = none ∨ h._compare_with_indexes = none then
        some (false, some h)
      else
        let s := forRange 0 h._among_of_elements
          (CmpComb_PrepareCombinations.outer w h._among_of_elements)
          { handler := some h, in_position := 0, incrementer := 1 }
        match s.handler with
        | none => some (true, none)
        | some h1 =>
            if h1._match_states = none then none
            else
              some (true, some (forRange 0 h1._among_of_combinations
                (fun at_index g =>
                  { g with
                    _match_states := writeAt g._match_states at_index MatchState.UNKNOWN })
                h1))

/-- The platform and what the allocations of `CmpComb_Initialize` return: the values of
`sizeof(size_t)` and `sizeof(enum MatchState)`, whether the `malloc` of the struct succeeds and,
for each of the three arrays, `none` when its `malloc` returns `NULL` and otherwise the
uninitialised content of the new block, by index. -/
structure CombinationsHeap where
  handler_allocated : Bool
  compare_indexes : Option (Nat → Nat)
  compare_with_indexes : Option (Nat → Nat)
  match_states : Option (Nat → MatchState)
  sizeof_size_t : Nat
  sizeof_MatchState : Nat

/-- The call `malloc(sizeof(T) * among)`, with `size` for `sizeof(T)`: the product is a `size_t`
and wraps, the block has `size * among % 2 ^ w` bytes, and the array in it has as many elements
as fit into these bytes; or `NULL`. The content of the new block is uninitialised. -/
def mallocArray {α : Type} (w size : Nat) (content : Option (Nat → α)) (among : Nat) :
    Option (List α) :=
  content.map (fun g => (List.range (size * among % 2 ^ w / size)).map g)

/-- The struct of `CmpComb_Initialize` after its allocations: the two counts and the three
blocks that `malloc` has returned. -/
def CmpComb_Initialize.handler (w : Nat) (heap : CombinationsHeap) (number_of_elements : Nat) :
    CompareCombinations :=
  { _among_of_elements := number_of_elements
    _among_of_combinations := CmpComb_NumberOfCombinations w number_of_elements
    _compare_indexes := mallocArray w heap.sizeof_size_t heap.compare_indexes
      (CmpComb_NumberOfCombinations w number_of_elements)
    _compare_with_indexes := mallocArray w heap.sizeof_size_t heap.compare_with_indexes
      (CmpComb_NumberOfCombinations w number_of_elements)
    _match_states := mallocArray w heap.sizeof_MatchState heap.match_states
      (CmpComb_NumberOfCombinations w number_of_elements) }

/-- The function `struct CompareCombinations* CmpComb_Initialize(const size_t number_of_elements)`. The
boolean that `CmpComb_PrepareCombinations` returns is not looked at; the three arrays are
present at its call, so the call returns. -/
def CmpComb_Initialize (w : Nat) (heap : CombinationsHeap) (number_of_elements : Nat) :
    Option CompareCombinations :=
  if number_of_elements = 0 then none
  else if heap.handler_allocated = false then none
  else
    let handler := CmpComb_Initialize.handler w heap number_of_elements
    if handler._compare_indexes = none ∨ handler._compare_with_indexes = none
        ∨ handler._match_states = none then none
    else (CmpComb_PrepareCombinations w (some handler)).bind (fun r => r.2)

/-! ## stdio

The part of the C library that `CmpFiles_CompareFiles` uses, for a source that delivers a
finite byte sequence. -/

/-- The type `unsigned char`. -/
abbrev Byte := Fin 256

/-- An open stream (`FILE`): the bytes that the source has still to deliver, what follows them
(`faulty = true`: a read error; `faulty = false`: the end of the file), and the two sticky
indicators of the stream. -/
structure FILE where
  pending : List Byte
  faulty : Bool
  eof : Bool
  err : Bool
deriving DecidableEq, Repr

/-- The value of a stream read outside of the stream array. -/
def FILE.absent : FILE := { pending := [], faulty := false, eof := false, err := false }

/-- The call `feof(stream)`, as a truth value: the implementation returns the same nonzero
value for every stream whose end-of-file indicator is set, so that comparing two results of
`feof` compares the two indicators. -/
def feof (stream : FILE) : Bool := stream.eof

/-- The call `ferror(stream) != 0`. -/
def ferror (stream : FILE) : Bool := stream.err

/-- The call `fread(buffer, sizeof(unsigned char), nmemb, stream)`: the returned count, the
buffer after the call and the stream after the call. A stream whose end-of-file indicator is set
delivers nothing. Otherwise the call delivers `min nmemb (length pending)` bytes into the front
of the buffer, and delivering fewer than `nmemb` bytes sets the end-of-file indicator, or the
error indicator when the source is faulty. -/
def fread (buffer : List Byte) (nmemb : Nat) (stream : FILE) : Nat × List Byte × FILE :=
  if stream.eof then (0, buffer, stream)
  else
    let data := stream.pending.take nmemb
    (data.length, data ++ buffer.drop data.length,
      { stream with
        pending := stream.pending.drop nmemb
        eof := decide (data.length < nmemb) && !stream.faulty
        err := stream.err || (decide (data.length < nmemb) && stream.faulty) })

/-- The call `memcmp(a, b, n) != 0`. -/
def memcmpDiffers (a b : List Byte) (n : Nat) : Bool :=
  decide (a.take n ≠ b.take n)

/-! ## cmpfiles_handler.h -/

/-- The `struct FilesToCompare`, as `CmpFiles_Initialize` returns it: every member is
present. -/
structure FilesToCompare where
  _number_of_filestreams : Nat
  _compare_buffer_size : Nat
  _filepaths : List String
  _filestreams : List FILE
  _compare_buffers : List (List Byte)
  _buffers_byte_among : List Nat
  _combinations_handler : CompareCombinations
deriving DecidableEq, Repr

/-! ## cmpfiles_handler.c -/

/-- The assignment `handler->_combinations_handler->_match_states[at_index] = state`. -/
def FilesToCompare.setMatchState (handler : FilesToCompare) (at_index : Nat)
    (state : MatchState) : FilesToCompare :=
  { handler with
    _combinations_handler :=
      { handler._combinations_handler with
        _match_states := writeAt handler._combinations_handler._match_states at_index state } }

/-- The body of the read loop of `CmpFiles_CompareFiles`. -/
def CmpFiles_CompareFiles.read (at_index : Nat) (handler : FilesToCompare) : FilesToCompare :=
  let r := fread (handler._compare_buffers.getD at_index []) handler._compare_buffer_size
    (handler._filestreams.getD at_index FILE.absent)
  { handler with
    _buffers_byte_among := handler._buffers_byte_among.set at_index r.1
    _compare_buffers := handler._compare_buffers.set at_index r.2.1
    _filestreams := handler._filestreams.set at_index r.2.2 }

/-- The variables of one round of `CmpFiles_CompareFiles`. The two counters are bounded by the
number of pairs, which is a `size_t`, so they do not wrap. -/
structure RoundState where
  handler : FilesToCompare
  skipped_combinations : Nat
  finished_combinations : Nat
deriving DecidableEq, Repr

/-- The body of the pair loop of `CmpFiles_CompareFiles`. -/
def CmpFiles_CompareFiles.compare (at_index : Nat) (s : RoundState) : RoundState :=
  let handler := s.handler
  let compare_index := readAt handler._combinations_handler._compare_indexes at_index 0
  let compare_with_index := readAt handler._combinations_handler._compare_with_indexes at_index 0
  let stream := handler._filestreams.getD compare_index FILE.absent
  let stream_with := handler._filestreams.getD compare_with_index FILE.absent
  if readAt handler._combinations_handler._match_states at_index MatchState.UNKNOWN
      = MatchState.NOT_MATCHED then
    { s with skipped_combinations := s.skipped_combinations + 1 }
  else if ferror stream then
    { s with handler := handler.setMatchState at_index MatchState.NOT_MATCHED }
  else if ferror stream_with then
    { s with handler := handler.setMatchState at_index MatchState.NOT_MATCHED }
  else if feof stream ≠ feof stream_with then
    { s with handler := handler.setMatchState at_index MatchState.NOT_MATCHED }
  else if handler._buffers_byte_among.getD compare_index 0
      ≠ handler._buffers_byte_among.getD compare_with_index 0 then
    { s with handler := handler.setMatchState at_index MatchState.NOT_MATCHED }
  else
    let bytes_to_check := handler._buffers_byte_among.getD compare_index 0
    if bytes_to_check > 0 then
      let are_not_same := memcmpDiffers (handler._compare_buffers.getD compare_index [])
        (handler._compare_buffers.getD compare_with_index []) bytes_to_check
      if are_not_same then
        { s with handler := handler.setMatchState at_index MatchState.NOT_MATCHED }
      else s
    else if feof stream ∧ feof stream_with then
      { s with
        handler := handler.setMatchState at_index MatchState.MATCHED
        finished_combinations := s.finished_combinations + 1 }
    else
      { s with handler := handler.setMatchState at_index MatchState.NOT_MATCHED }

/-- One round, the body of the `do ... while` loop of `CmpFiles_CompareFiles`: every stream is
read, the two counters are reset, every pair is evaluated. -/
def CmpFiles_CompareFiles.round (COMBINATIONS_AMONG : Nat) (handler : FilesToCompare) :
    RoundState :=
  forRange 0 COMBINATIONS_AMONG CmpFiles_CompareFiles.compare
    { handler := forRange 0 handler._number_of_filestreams CmpFiles_CompareFiles.read handler
      skipped_combinations := 0
      finished_combinations := 0 }

/-- The `do ... while` loop of `CmpFiles_CompareFiles`, with fuel: the returned boolean and the
session at return, or `none` when the fuel is used up before the loop is left. -/
def CmpFiles_CompareFiles.doWhile (COMBINATIONS_AMONG : Nat) :
    Nat → FilesToCompare → Option (Bool × FilesToCompare)
  | 0, _ => none
  | fuel + 1, handler =>
      let s := CmpFiles_CompareFiles.round COMBINATIONS_AMONG handler
      if s.finished_combinations + s.skipped_combinations ≠ COMBINATIONS_AMONG then
        CmpFiles_CompareFiles.doWhile COMBINATIONS_AMONG fuel s.handler
      else some (s.skipped_combinations == 0, s.handler)

/-- The function `bool CmpFiles_CompareFiles(struct FilesToCompare* handler)`, with fuel for its loop: the
returned boolean and the session at return, or `none` when the fuel is used up. -/
def CmpFiles_CompareFiles (fuel : Nat) (handler : Option FilesToCompare) :
    Option (Bool × Option FilesToCompare) :=
  match handler with
  | none => some (false, none)
  | some h =>
      if h._number_of_filestreams < 2 then some (false, some h)
      else
        (CmpFiles_CompareFiles.doWhile h._combinations_handler._among_of_combinations fuel h).map
          (fun r => (r.1, some r.2))

/-! ## The construction of a session

`CmpFiles_Initialize` and its static helpers talk to the host: they allocate, open, configure
and close. The host is a parameter (`Host`) that says which of these requests succeed and what
an opened source delivers; what a function asks from the host is recorded, in order, in a list
of `Effect`s that the function returns next to its result. -/

/-- The constant `STDIN_FILEPATH_MARK`. -/
def STDIN_FILEPATH_MARK : String := "stdin"

/-- The memory blocks that `cmpfiles_handler.c` allocates and frees; `combinations` stands for
all the blocks of the set, which `CmpComb_Initialize` allocates and `CmpComb_Terminate`
frees. -/
inductive Allocation where
  | session
  | filestreams
  | filepaths
  | filepath (at_index : Nat)
  | compare_buffers
  | compare_buffer (at_index : Nat)
  | buffers_byte_among
  | combinations
deriving DecidableEq, Repr

/-- A request to the host: `malloc` or `calloc` of a block, `free` of a block, `fopen`,
`setvbuf` and `fclose` of the stream of a path, `fread` from the stream at an index, and `fputs`
to `stderr` of the error message of the named function. -/
inductive Effect where
  | malloc (block : Allocation)
  | free (block : Allocation)
  | fopen (path : String)
  | setvbuf (path : String)
  | fclose (path : String)
  | fread (at_index : Nat)
  | fputs (function : String)
deriving DecidableEq, Repr

/-- The host of the program: the stream `stdin`; for each path the stream that
`fopen(path, "rb")` returns, `none` for `NULL`; whether `setvbuf(stream, NULL, _IONBF, 0)`
returns 0 for the stream of a path; whether the allocation of a block succeeds; the content of a
new compare buffer, by index of the buffer and offset; what the allocations of
`CmpComb_Initialize` return; the constant `FILENAME_MAX`. -/
structure Host where
  stdin : FILE
  fopen : String → Option FILE
  setvbuf : String → Bool
  allocates : Allocation → Bool
  uninitialised : Nat → Nat → Byte
  combinations : CombinationsHeap
  FILENAME_MAX : Nat

/-- A non-`NULL` entry of a `FILE**` array: whether the pointer is `stdin`, the path it was
opened for, and the stream. -/
structure OpenedStream where
  is_stdin : Bool
  path : String
  file : FILE
deriving DecidableEq, Repr

/-- The function `static void FreeFilepaths(char** filepaths, size_t among)`. -/
def FreeFilepaths (filepaths : Option (List (Option String))) (among : Nat) : List Effect :=
  match filepaths with
  | none => []
  | some paths =>
      forRange 0 among
        (fun at_index trace =>
          if (paths.getD at_index none).isSome then
            trace ++ [Effect.free (Allocation.filepath at_index)]
          else trace) []
        ++ [Effect.free Allocation.filepaths]

/-- The variables of the copy loop of `AllocateAndCopyFilepaths`; `jumped` says that the
`goto` has been taken. -/
structure CopyState where
  cached_filepaths : List (Option String)
  jumped : Bool
  trace : List Effect
deriving DecidableEq, Repr

/-- The body of the copy loop of `AllocateAndCopyFilepaths`. -/
def AllocateAndCopyFilepaths.copy (host : Host) (filepaths : List String) (at_index : Nat)
    (s : CopyState) : CopyState :=
  if s.jumped then s
  else if host.allocates (Allocation.filepath at_index) = false then
    { s with
      jumped := true
      trace := s.trace ++ [Effect.malloc (Allocation.filepath at_index)] }
  else
    { s with
      cached_filepaths := s.cached_filepaths.set at_index (some (filepaths.getD at_index ""))
      trace := s.trace ++ [Effect.malloc (Allocation.filepath at_index)] }

/-- The function `static char** AllocateAndCopyFilepaths(char** filepaths, size_t among)`. The
entries of `filepaths` are strings, so the test of an entry against `NULL` is passed; the test
with `memchr` is passed by a string of fewer than `FILENAME_MAX` bytes. -/
def AllocateAndCopyFilepaths (host : Host) (filepaths : Option (List String)) (among : Nat) :
    Option (List (Option String)) × List Effect :=
  match filepaths with
  | none => (none, [])
  | some paths =>
      if among = 0 then (none, [])
      else if ∃ at_index, at_index < among
          ∧ ¬ (paths.getD at_index "").utf8ByteSize < host.FILENAME_MAX then (none, [])
      else if host.allocates Allocation.filepaths = false then
        (none, [Effect.malloc Allocation.filepaths])
      else
        let s := forRange 0 among (AllocateAndCopyFilepaths.copy host paths)
          { cached_filepaths := List.replicate among none
            jumped := false
            trace := [Effect.malloc Allocation.filepaths] }
        if s.jumped then
          (none, s.trace ++ [Effect.fputs "AllocateAndCopyFilepaths"]
            ++ FreeFilepaths (some s.cached_filepaths) among)
        else (some s.cached_filepaths, s.trace)

/-- The function `static void CloseFilestreams(FILE** filestreams, size_t among)`. -/
def CloseFilestreams (filestreams : Option (List (Option OpenedStream))) (among : Nat) :
    List Effect :=
  match filestreams with
  | none => []
  | some streams =>
      forRange 0 among
        (fun at_index trace =>
          match streams.getD at_index none with
          | none => trace
          | some stream =>
              if stream.is_stdin then trace else trace ++ [Effect.fclose stream.path]) []
        ++ [Effect.free Allocation.filestreams]

/-- The variables of the loop of `OpenFilestreams`; `jumped` says that the `goto` has been
taken. -/
structure OpenState where
  filestreams : List (Option OpenedStream)
  is_stdin_used : Bool
  jumped : Bool
  trace : List Effect
deriving DecidableEq, Repr

/-- The body of the loop of `OpenFilestreams` (without the `_setmode` call of the Windows
build). -/
def OpenFilestreams.body (host : Host) (filepaths : List String) (at_index : Nat)
    (s : OpenState) : OpenState :=
  if s.jumped then s
  else if filepaths.getD at_index "" = STDIN_FILEPATH_MARK then
    if s.is_stdin_used then { s with jumped := true }
    else
      { s with
        filestreams := s.filestreams.set at_index
          (some { is_stdin := true, path := filepaths.getD at_index "", file := host.stdin })
        is_stdin_used := true }
  else
    match host.fopen (filepaths.getD at_index "") with
    | none =>
        { s with
          jumped := true
          trace := s.trace ++ [Effect.fopen (filepaths.getD at_index "")] }
    | some new_filestream =>
        if host.setvbuf (filepaths.getD at_index "") = false then
          { s with
            jumped := true
            trace := s.trace ++ [Effect.fopen (filepaths.getD at_index ""),
              Effect.setvbuf (filepaths.getD at_index "")] }
        else
          { s with
            filestreams := s.filestreams.set at_index
              (some { is_stdin := false, path := filepaths.getD at_index "",
                      file := new_filestream })
            trace := s.trace ++ [Effect.fopen (filepaths.getD at_index ""),
              Effect.setvbuf (filepaths.getD at_index "")] }

/-- The function `static FILE** OpenFilestreams(char** filepaths, size_t among)`. -/
def OpenFilestreams (host : Host) (filepaths : List String) (among : Nat) :
    Option (List (Option OpenedStream)) × List Effect :=
  if host.allocates Allocation.filestreams = false then
    (none, [Effect.malloc Allocation.filestreams])
  else
    let s := forRange 0 among (OpenFilestreams.body host filepaths)
      { filestreams := List.replicate among none
        is_stdin_used := false
        jumped := false
        trace := [Effect.malloc Allocation.filestreams] }
    if s.jumped then
      (none, s.trace ++ [Effect.fputs "OpenFilestreams"]
        ++ CloseFilestreams (some s.filestreams) among)
    else (some s.filestreams, s.trace)

/-- The function `static void FreeBuffers(unsigned char** compare_buffers, size_t among)`. -/
def FreeBuffers (compare_buffers : Option (List (Option (List Byte)))) (among : Nat) :
    List Effect :=
  match compare_buffers with
  | none => []
  | some buffers =>
      forRange 0 among
        (fun at_index trace =>
          if (buffers.getD at_index none).isSome then
            trace ++ [Effect.free (Allocation.compare_buffer at_index)]
          else trace) []
        ++ [Effect.free Allocation.compare_buffers]

/-- The variables of the allocation loop of `AllocateBuffers`; `jumped` says that the `goto`
has been taken. -/
structure BuffersState where
  compare_buffers : List (Option (List Byte))
  jumped : Bool
  trace : List Effect
deriving DecidableEq, Repr

/-- The body of the allocation loop of `AllocateBuffers`. -/
def AllocateBuffers.body (host : Host) (size : Nat) (at_index : Nat) (s : BuffersState) :
    BuffersState :=
  if s.jumped then s
  else if host.allocates (Allocation.compare_buffer at_index) = false then
    { s with
      jumped := true
      trace := s.trace ++ [Effect.malloc (Allocation.compare_buffer at_index)] }
  else
    { s with
      compare_buffers := s.compare_buffers.set at_index
        (some ((List.range size).map (host.uninitialised at_index)))
      trace := s.trace ++ [Effect.malloc (Allocation.compare_buffer at_index)] }

/-- The function `static unsigned char** AllocateBuffers(size_t among, size_t size)`. -/
def AllocateBuffers (host : Host) (among size : Nat) :
    Option (List (Option (List Byte))) × List Effect :=
  if host.allocates Allocation.compare_buffers = false then
    (none, [Effect.malloc Allocation.compare_buffers])
  else
    let s := forRange 0 among (AllocateBuffers.body host size)
      { compare_buffers := List.replicate among none
        jumped := false
        trace := [Effect.malloc Allocation.compare_buffers] }
    if s.jumped then
      (none, s.trace ++ [Effect.fputs "AllocateBuffers"]
        ++ FreeBuffers (some s.compare_buffers) among)
    else (some s.compare_buffers, s.trace)

/-- The function `static void FreeBuffersByteAmong(size_t* buffers_byte_among)`. -/
def FreeBuffersByteAmong (buffers_byte_among : Option (List Nat)) : List Effect :=
  match buffers_byte_among with
  | none => []
  | some _ => [Effect.free Allocation.buffers_byte_among]

/-- The function `static size_t* AllocateBuffersByteAmong(size_t number_of_buffers)`. -/
def AllocateBuffersByteAmong (host : Host) (number_of_buffers : Nat) :
    Option (List Nat) × List Effect :=
  if number_of_buffers = 0 then (none, [])
  else if host.allocates Allocation.buffers_byte_among = false then
    (none, [Effect.malloc Allocation.buffers_byte_among,
      Effect.fputs "AllocateBuffersByteAmong"])
  else (some (List.replicate number_of_buffers 0), [Effect.malloc Allocation.buffers_byte_among])

/-- The `struct FilesToCompare` while `CmpFiles_Initialize` fills it: a member that is a pointer
is `none` while it is `NULL`, and an entry of an array of pointers is `none` while it is
`NULL`. -/
structure SessionUnderConstruction where
  _number_of_filestreams : Nat
  _compare_buffer_size : Nat
  _filepaths : Option (List (Option String))
  _filestreams : Option (List (Option OpenedStream))
  _compare_buffers : Option (List (Option (List Byte)))
  _buffers_byte_among : Option (List Nat)
  _combinations_handler : Option CompareCombinations
deriving DecidableEq, Repr

/-- The function `void CmpFiles_Terminate(struct FilesToCompare* handler)`, on a session under
construction; the call of `CmpComb_Terminate` frees the blocks of the set when there is one. -/
def CmpFiles_Terminate (handler : Option SessionUnderConstruction) : List Effect :=
  match handler with
  | none => []
  | some h =>
      CloseFilestreams h._filestreams h._number_of_filestreams
        ++ FreeFilepaths h._filepaths h._number_of_filestreams
        ++ FreeBuffers h._compare_buffers h._number_of_filestreams
        ++ FreeBuffersByteAmong h._buffers_byte_among
        ++ (if h._combinations_handler.isSome then [Effect.free Allocation.combinations] else [])
        ++ [Effect.free Allocation.session]

/-- The session that `CmpFiles_Initialize` returns, once every member is set: the entries of
the arrays of pointers are all present. -/
def SessionUnderConstruction.session (h : SessionUnderConstruction) : FilesToCompare :=
  { _number_of_filestreams := h._number_of_filestreams
    _compare_buffer_size := h._compare_buffer_size
    _filepaths := (h._filepaths.getD []).map (fun path => path.getD "")
    _filestreams := (h._filestreams.getD []).map
      (fun stream => (stream.map (fun opened => opened.file)).getD FILE.absent)
    _compare_buffers := (h._compare_buffers.getD []).map (fun buffer => buffer.getD [])
    _buffers_byte_among := h._buffers_byte_among.getD []
    _combinations_handler := h._combinations_handler.getD
      { _compare_indexes := none
        _compare_with_indexes := none
        _match_states := none
        _among_of_combinations := 0
        _among_of_elements := 0 } }

/-- The function `struct FilesToCompare* CmpFiles_Initialize(char** filepaths, size_t
number_of_files, size_t compare_buffer_size)`: the session that is returned, `none` for `NULL`,
and the requests to the host, in order. -/
def CmpFiles_Initialize (w : Nat) (host : Host) (filepaths : Option (List String))
    (number_of_files compare_buffer_size : Nat) : Option FilesToCompare × List Effect :=
  match filepaths with
  | none => (none, [])
  | some paths =>
      if number_of_files = 0 then (none, [])
      else if compare_buffer_size = 0 then (none, [])
      else if host.allocates Allocation.session = false then
        (none, [Effect.malloc Allocation.session])
      else
        let h0 : SessionUnderConstruction :=
          { _number_of_filestreams := number_of_files
            _compare_buffer_size := compare_buffer_size
            _filepaths := none
            _filestreams := none
            _compare_buffers := none
            _buffers_byte_among := none
            _combinations_handler := none }
        let t0 := [Effect.malloc Allocation.session]
        let opened := OpenFilestreams host paths number_of_files
        let h1 := { h0 with _filestreams := opened.1 }
        let t1 := t0 ++ opened.2
        if h1._filestreams = none then
          (none, t1 ++ [Effect.fputs "CmpFiles_Initialize"] ++ CmpFiles_Terminate (some h1))
        else
          let copied := AllocateAndCopyFilepaths host (some paths) number_of_files
          let h2 := { h1 with _filepaths := copied.1 }
          let t2 := t1 ++ copied.2
          if h2._filepaths = none then
            (none, t2 ++ [Effect.fputs "CmpFiles_Initialize"] ++ CmpFiles_Terminate (some h2))
          else
            let buffers := AllocateBuffers host number_of_files compare_buffer_size
            let h3 := { h2 with _compare_buffers := buffers.1 }
            let t3 := t2 ++ buffers.2
            if h3._compare_buffers = none then
              (none, t3 ++ [Effect.fputs "CmpFiles_Initialize"] ++ CmpFiles_Terminate (some h3))
            else
              let counts := AllocateBuffersByteAmong host number_of_files
              let h4 := { h3 with _buffers_byte_among := counts.1 }
              let t4 := t3 ++ counts.2
              if h4._buffers_byte_among = none then
                (none, t4 ++ [Effect.fputs "CmpFiles_Initialize"]
                  ++ CmpFiles_Terminate (some h4))
              else
                let h5 := { h4 with
                  _combinations_handler := CmpComb_Initialize w host.combinations number_of_files }
                let t5 := t4 ++ [Effect.malloc Allocation.combinations]
                if h5._combinations_handler = none then
                  (none, t5 ++ [Effect.fputs "CmpFiles_Initialize"]
                    ++ CmpFiles_Terminate (some h5))
                else (some h5.session, t5)

/-! ## main.c -/

/-- The `enum OutputLevel`. -/
inductive OutputLevel where
  | SHOW_ALL
  | SHOW_ONLY_MATCHED
deriving DecidableEq, Repr

/-- The constant `DEFAULT_BUFFER_SIZE`. -/
def DEFAULT_BUFFER_SIZE : Nat := 16384

/-- The constant `INDEX_NOT_SELECTED`. -/
def INDEX_NOT_SELECTED : Int := -1

/-- The variables that the argument loop of `main` sets. -/
structure Arguments where
  files_start_index : Int
  files_end_index : Int
  buffer_size : Nat
  output_level : OutputLevel
  argument_was_provided : Bool
deriving DecidableEq, Repr

/-- How the part of `main` before the call of `CmpFiles_Initialize` ends: `usage` and `help`
print and return (`help` prints, among others, the lines that name the options, which are
carried here); `error` shows a message through `Main_ShowMessage` (its two argument names, when
given, and its text) and returns `EXIT_FAILURE`; `compare` goes on to `CmpFiles_Initialize` with
the selected range of arguments. -/
inductive Parsed where
  | usage
  | help (options : List String)
  | error (short_argument long_argument : Option String) (message_text : String)
  | compare (arguments : Arguments) (number_of_files_to_compare : Nat)
deriving DecidableEq, Repr

/-- The lines of the help text of `main` that name the options. -/
def main.help_options : List String :=
  ["-h --help", "-bs --buffer-size", "-om --only-matching", "-cf --compare-files"]

/-- The argument loop of `main`, `for (argument_position = 1; argument_position <
argument_count; ++argument_position)`. The body can advance `argument_position` itself, so the
loop is a recursion on the position with fuel; every turn advances the position, so
`argument_count` turns of fuel are enough. The result is `Sum.inl` when the body returns from
`main` and `Sum.inr` with the variables when the loop ends. The function `strtoul` of the host
is a parameter. -/
def main.loop (strtoul : String → Nat) (argument_count : Nat) (passed_arguments : List String) :
    Nat → Nat → Arguments → Sum Parsed Arguments
  | 0, _, s => Sum.inr s
  | fuel + 1, argument_position, s =>
      if ¬ argument_position < argument_count then Sum.inr s
      else if passed_arguments.getD argument_position "" = "-h"
          ∨ passed_arguments.getD argument_position "" = "--help" then
        Sum.inl (Parsed.help main.help_options)
      else if passed_arguments.getD argument_position "" = "-bs"
          ∨ passed_arguments.getD argument_position "" = "--buffer-size" then
        if argument_position + 1 < argument_count then
          if strtoul (passed_arguments.getD (argument_position + 1) "") = 0 then
            Sum.inl (Parsed.error (some "-bs") (some "--buffer-size")
              "was provided with an invalid value (which is either zero, negative or to big)!")
          else
            main.loop strtoul argument_count passed_arguments fuel (argument_position + 1 + 1)
              { s with
                buffer_size := strtoul (passed_arguments.getD (argument_position + 1) "")
                argument_was_provided := true }
        else
          Sum.inl (Parsed.error (some "-bs") (some "--buffer-size") "has no defined value!")
      else if passed_arguments.getD argument_position "" = "-om"
          ∨ passed_arguments.getD argument_position "" = "--only-matching" then
        main.loop strtoul argument_count passed_arguments fuel (argument_position + 1)
          { s with
            output_level := OutputLevel.SHOW_ONLY_MATCHED
            argument_was_provided := true }
      else if passed_arguments.getD argument_position "" = "-cf"
          ∨ passed_arguments.getD argument_position "" = "--check-files" then
        if s.files_start_index ≥ 0 ∨ s.files_end_index ≥ 0 then
          Sum.inl (Parsed.error (some "-cf") (some "--check-files")
            "cannot be used, since the filenames have already been defined!")
        else if argument_position + 1 < argument_count then
          main.loop strtoul argument_count passed_arguments fuel (argument_position + 1 + 1)
            { s with
              files_start_index := ((argument_position + 1 : Nat) : Int)
              files_end_index := ((argument_position + 1 : Nat) : Int) + 1
              argument_was_provided := false }
        else
          Sum.inl (Parsed.error (some "-cf") (some "--check-files")
            "has no defined filepaths!")
      else if s.files_start_index < 0 then
        main.loop strtoul argument_count passed_arguments fuel (argument_position + 1)
          { s with
            files_start_index := (argument_position : Int)
            files_end_index := (argument_position : Int) + 1 }
      else if s.argument_was_provided = false then
        main.loop strtoul argument_count passed_arguments fuel (argument_position + 1)
          { s with files_end_index := (argument_position : Int) + 1 }
      else
        Sum.inl (Parsed.error none none
          "Cannot process any more filenames, after one or several arguments!")

/-- The part of `main` before the call of `CmpFiles_Initialize`: `argument_count` is the length
of `passed_arguments`; the conversion of the number of files to `size_t` is modulo `2 ^ w`. -/
def main.arguments (w : Nat) (strtoul : String → Nat) (passed_arguments : List String) :
    Parsed :=
  if passed_arguments.length ≤ 1 then Parsed.usage
  else
    match main.loop strtoul passed_arguments.length passed_arguments passed_arguments.length 1
        { files_start_index := INDEX_NOT_SELECTED
          files_end_index := INDEX_NOT_SELECTED
          buffer_size := DEFAULT_BUFFER_SIZE
          output_level := OutputLevel.SHOW_ALL
          argument_was_provided := false } with
    | Sum.inl returned => returned
    | Sum.inr s =>
        if s.files_start_index = INDEX_NOT_SELECTED then
          Parsed.error none none "No filepaths were defined!"
        else if s.files_end_index = INDEX_NOT_SELECTED then
          Parsed.error none none "No filepaths were defined!"
        else if ((s.files_end_index - s.files_start_index) % 2 ^ w).toNat < 2 then
          Parsed.error none none
            "At least 2 files need to be defined (use -h --help for more information)!"
        else
          Parsed.compare s ((s.files_end_index - s.files_start_index) % 2 ^ w).toNat

/-! ## Vocabulary of the statements -/

/-- The stored pair sequence of a set: position `k` holds
`(_compare_indexes[k], _compare_with_indexes[k])`. -/
def CompareCombinations.pairs (h : CompareCombinations) : List (Nat × Nat) :=
  List.zip (h._compare_indexes.getD []) (h._compare_with_indexes.getD [])

/-- The pair stored at a position of a set. -/
def CompareCombinations.pairAt (h : CompareCombinations) (k : Nat) : Nat × Nat :=
  (readAt h._compare_indexes k 0, readAt h._compare_with_indexes k 0)

/-- The verdict stored at a position of a set. -/
def CompareCombinations.verdictAt (h : CompareCombinations) (k : Nat) : MatchState :=
  readAt h._match_states k MatchState.UNKNOWN

/-- The lexicographic order on pairs of indices. -/
def lexLt (p q : Nat × Nat) : Prop :=
  p.1 < q.1 ∨ (p.1 = q.1 ∧ p.2 < q.2)

/-- A set as `CmpComb_Initialize` allocates it when the byte sizes of its arrays are
representable in `size_t`: the three arrays are present and have `_among_of_combinations`
elements each, and `_among_of_combinations` is the pair count of `_among_of_elements`. -/
def CompareCombinations.Allocated (w : Nat) (h : CompareCombinations) : Prop :=
  h._compare_indexes.map List.length = some h._among_of_combinations
    ∧ h._compare_with_indexes.map List.length = some h._among_of_combinations
    ∧ h._match_states.map List.length = some h._among_of_combinations
    ∧ h._among_of_combinations = CmpComb_NumberOfCombinations w h._among_of_elements

instance (w : Nat) (h : CompareCombinations) : Decidable (h.Allocated w) := by
  unfold CompareCombinations.Allocated
  infer_instance

/-- The stored pair sequence of a set is the lexicographic sweep of the pairs of indices below
`n`: both index arrays hold `n * (n - 1) / 2` entries, the sequence is strictly increasing in
the lexicographic order, and a pair occurs in it exactly when it is `(i, j)` with `i < j < n`. -/
def CompareCombinations.IsSweep (n : Nat) (h : CompareCombinations) : Prop :=
  h._compare_indexes.map List.length = some (n * (n - 1) / 2)
    ∧ h._compare_with_indexes.map List.length = some (n * (n - 1) / 2)
    ∧ h.pairs.Pairwise lexLt
    ∧ ∀ i j, (i, j) ∈ h.pairs ↔ i < j ∧ j < n

/-- The pairs `(i, j)` with `i < rows` and `i < j < n`, row by row. -/
def sweepRows (n : Nat) : Nat → List (Nat × Nat)
  | 0 => []
  | i + 1 => sweepRows n i ++ (List.range' (i + 1) (n - (i + 1))).map (fun j => (i, j))

/-- The sweep of `CmpComb_PrepareCombinations` has so far written the pairs `ps`, in order,
from position 0 on, into a set of `c` pairs over `n` elements with verdict array `ms`. -/
def SweepState.Filled (c n : Nat) (ms : Option (List MatchState)) (ps : List (Nat × Nat))
    (s : SweepState) : Prop :=
  ∃ xs ys, s.handler = some
      { _compare_indexes := some xs
        _compare_with_indexes := some ys
        _match_states := ms
        _among_of_combinations := c
        _among_of_elements := n }
    ∧ xs.length = c ∧ ys.length = c ∧ s.in_position = ps.length
    ∧ xs.take ps.length = ps.map Prod.fst ∧ ys.take ps.length = ps.map Prod.snd

/-- The bytes that one `fread` of `cap` bytes delivers from a stream. -/
def FILE.chunk (cap : Nat) (s : FILE) : List Byte :=
  if s.eof then [] else s.pending.take cap

/-- The stream after one `fread` of `cap` bytes. -/
def FILE.advance (cap : Nat) (s : FILE) : FILE :=
  if s.eof then s
  else
    { s with
      pending := s.pending.drop cap
      eof := decide ((s.pending.take cap).length < cap) && !s.faulty
      err := s.err || (decide ((s.pending.take cap).length < cap) && s.faulty) }

/-- The stream of a session at an index. -/
def FilesToCompare.stream (h : FilesToCompare) (i : Nat) : FILE :=
  h._filestreams.getD i FILE.absent

/-- The pair stored at a position of the session's set. -/
def FilesToCompare.pairAt (h : FilesToCompare) (k : Nat) : Nat × Nat :=
  h._combinations_handler.pairAt k

/-- The verdict stored at a position of the session's set. -/
def FilesToCompare.verdictAt (h : FilesToCompare) (k : Nat) : MatchState :=
  h._combinations_handler.verdictAt k

/-- A session whose arrays have the sizes that `CmpFiles_Initialize` gives them and whose
stored pairs index existing streams: one stream, one buffer of `_compare_buffer_size` bytes and
one byte count per stream, three set arrays of `_among_of_combinations` entries, and both
members of every stored pair below the number of streams. -/
def FilesToCompare.WF (h : FilesToCompare) : Prop :=
  h._filestreams.length = h._number_of_filestreams
    ∧ h._compare_buffers.length = h._number_of_filestreams
    ∧ h._buffers_byte_among.length = h._number_of_filestreams
    ∧ (∀ b ∈ h._compare_buffers, b.length = h._compare_buffer_size)
    ∧ h._combinations_handler._compare_indexes.map List.length
        = some h._combinations_handler._among_of_combinations
    ∧ h._combinations_handler._compare_with_indexes.map List.length
        = some h._combinations_handler._among_of_combinations
    ∧ h._combinations_handler._match_states.map List.length
        = some h._combinations_handler._among_of_combinations
    ∧ ∀ k < h._combinations_handler._among_of_combinations,
        (h.pairAt k).1 < h._number_of_filestreams ∧ (h.pairAt k).2 < h._number_of_filestreams

instance (h : FilesToCompare) : Decidable h.WF := by
  unfold FilesToCompare.WF
  infer_instance

/-- The verdict that one evaluation of the pair loop leaves at a position: `v` is the verdict
before, `a` and `b` the two streams, `na` and `nb` their byte counts, `ba` and `bb` their
buffers. -/
def judge (v : MatchState) (a b : FILE) (na nb : Nat) (ba bb : List Byte) : MatchState :=
  if v = MatchState.NOT_MATCHED then MatchState.NOT_MATCHED
  else if ferror a = true then MatchState.NOT_MATCHED
  else if ferror b = true then MatchState.NOT_MATCHED
  else if feof a ≠ feof b then MatchState.NOT_MATCHED
  else if na ≠ nb then MatchState.NOT_MATCHED
  else if na > 0 then (if memcmpDiffers ba bb na = true then MatchState.NOT_MATCHED else v)
  else if feof a = true ∧ feof b = true then MatchState.MATCHED
  else MatchState.NOT_MATCHED

/-- Whether one evaluation of the pair loop counts the position as finished. -/
def finishes (v : MatchState) (a b : FILE) (na nb : Nat) : Bool :=
  decide (v ≠ MatchState.NOT_MATCHED ∧ ferror a = false ∧ ferror b = false ∧ feof a = feof b
    ∧ na = nb ∧ na = 0 ∧ feof a = true ∧ feof b = true)

/-- The verdict that the pair loop leaves at position `k` of a session whose streams have been
read. -/
def FilesToCompare.judgeAt (g : FilesToCompare) (k : Nat) : MatchState :=
  judge (g.verdictAt k) (g.stream (g.pairAt k).1) (g.stream (g.pairAt k).2)
    (g._buffers_byte_among.getD (g.pairAt k).1 0) (g._buffers_byte_among.getD (g.pairAt k).2 0)
    (g._compare_buffers.getD (g.pairAt k).1 []) (g._compare_buffers.getD (g.pairAt k).2 [])

/-- Whether the pair loop counts position `k` as skipped. -/
def FilesToCompare.skipsAt (g : FilesToCompare) (k : Nat) : Bool :=
  decide (g.verdictAt k = MatchState.NOT_MATCHED)

/-- Whether the pair loop counts position `k` as finished. -/
def FilesToCompare.finishesAt (g : FilesToCompare) (k : Nat) : Bool :=
  finishes (g.verdictAt k) (g.stream (g.pairAt k).1) (g.stream (g.pairAt k).2)
    (g._buffers_byte_among.getD (g.pairAt k).1 0) (g._buffers_byte_among.getD (g.pairAt k).2 0)

/-- The session with its verdict array replaced. -/
def FilesToCompare.withStates (g : FilesToCompare) (ms : List MatchState) : FilesToCompare :=
  { g with _combinations_handler := { g._combinations_handler with _match_states := some ms } }

/-- The session after the read loop of one round. -/
def FilesToCompare.readAll (h : FilesToCompare) : FilesToCompare :=
  forRange 0 h._number_of_filestreams CmpFiles_CompareFiles.read h

/-- The session after one round of `CmpFiles_CompareFiles`. -/
def FilesToCompare.roundStep (h : FilesToCompare) : FilesToCompare :=
  (CmpFiles_CompareFiles.round h._combinations_handler._among_of_combinations h).handler

/-- The session after `j` rounds of `CmpFiles_CompareFiles`. -/
def FilesToCompare.rounds (h : FilesToCompare) (j : Nat) : FilesToCompare :=
  FilesToCompare.roundStep^[j] h

/-- The loop condition of `CmpFiles_CompareFiles` is false after the round that starts from
this session: the loop is left. -/
def FilesToCompare.exits (h : FilesToCompare) : Prop :=
  (CmpFiles_CompareFiles.round h._combinations_handler._among_of_combinations h).finished_combinations
    + (CmpFiles_CompareFiles.round
        h._combinations_handler._among_of_combinations h).skipped_combinations
    = h._combinations_handler._among_of_combinations

instance (h : FilesToCompare) : Decidable h.exits := by
  unfold FilesToCompare.exits
  infer_instance

/-- The verdict of a pair after one round, from its verdict and its two streams before the
round. -/
def verdictStep (cap : Nat) (v : MatchState) (a b : FILE) : MatchState :=
  judge v (a.advance cap) (b.advance cap) (a.chunk cap).length (b.chunk cap).length
    (a.chunk cap) (b.chunk cap)

/-- Whether one round counts a pair as finished, from its verdict and its two streams before
the round. -/
def finishStep (cap : Nat) (v : MatchState) (a b : FILE) : Bool :=
  finishes v (a.advance cap) (b.advance cap) (a.chunk cap).length (b.chunk cap).length

/-- One round seen from one pair: its verdict and its two streams. -/
def pairStep (cap : Nat) (p : MatchState × FILE × FILE) : MatchState × FILE × FILE :=
  (verdictStep cap p.1 p.2.1 p.2.2, p.2.1.advance cap, p.2.2.advance cap)

/-- A bound on the number of reads of `cap` bytes after which a stream has one of its two
indicators set. -/
def FILE.need (cap : Nat) (s : FILE) : Nat :=
  if s.eof = true ∨ s.err = true then 0 else s.pending.length / cap + 1

/-- The largest `FILE.need` among the streams of a session. -/
def FilesToCompare.need (h : FilesToCompare) : Nat :=
  (h._filestreams.map (FILE.need h._compare_buffer_size)).foldr max 0

/-- An error-free source in a state that reads from a fresh stream lead to: the source is not
faulty, the error indicator is clear, and nothing is pending once the end-of-file indicator is
set. -/
def FILE.clean (s : FILE) : Prop :=
  s.faulty = false ∧ s.err = false ∧ (s.eof = true → s.pending = [])

instance (s : FILE) : Decidable s.clean := by
  unfold FILE.clean
  infer_instance

/-- A stream as `fopen` returns it, for an error-free source: nothing read yet, both indicators
clear. -/
def FILE.fresh (s : FILE) : Prop :=
  s.faulty = false ∧ s.err = false ∧ s.eof = false

instance (s : FILE) : Decidable s.fresh := by
  unfold FILE.fresh
  infer_instance

/-- A pair whose verdict is `MATCHED` has both streams at end of file, without error. -/
def MatchedAtEnd (p : MatchState × FILE × FILE) : Prop :=
  p.1 = MatchState.MATCHED →
    p.2.1.eof = true ∧ p.2.2.eof = true ∧ p.2.1.err = false ∧ p.2.2.err = false

instance (p : MatchState × FILE × FILE) : Decidable (MatchedAtEnd p) := by
  unfold MatchedAtEnd
  infer_instance

/-- Every pair of the session whose verdict is `MATCHED` has both streams at end of file,
without error. A session in which no verdict is `MATCHED` is of this kind. -/
def FilesToCompare.MatchedAtEnd (h : FilesToCompare) : Prop :=
  ∀ k < h._combinations_handler._among_of_combinations,
    CompareFiles.MatchedAtEnd (h.verdictAt k, h.stream (h.pairAt k).1, h.stream (h.pairAt k).2)

instance (h : FilesToCompare) : Decidable h.MatchedAtEnd := by
  unfold FilesToCompare.MatchedAtEnd
  infer_instance

/-- The state of a pair of error-free sources with contents `A` and `B` agrees with the
comparison of `A` and `B`: while the verdict is `UNKNOWN` the contents are equal exactly when
what is still pending is equal; `MATCHED` is held only by equal contents, `NOT_MATCHED` only by
different contents. -/
def PairCorrect (A B : List Byte) (p : MatchState × FILE × FILE) : Prop :=
  p.2.1.clean ∧ p.2.2.clean
    ∧ (p.1 = MatchState.UNKNOWN →
        ((A = B ↔ p.2.1.pending = p.2.2.pending) ∧ p.2.1.eof = p.2.2.eof))
    ∧ (p.1 = MatchState.MATCHED → A = B ∧ p.2.1.eof = true ∧ p.2.2.eof = true)
    ∧ (p.1 = MatchState.NOT_MATCHED → A ≠ B)

/-- The state of a pair of error-free sources of which the first is a proper initial segment of
the second: either the verdict is `NOT_MATCHED` and the first stream has reported the end of the
file, or the verdict is `UNKNOWN`, neither stream has reported the end of the file, and what is
pending in the first stream is a proper initial segment of what is pending in the second. -/
def PairShorter (p : MatchState × FILE × FILE) : Prop :=
  (p.1 = MatchState.NOT_MATCHED ∧ p.2.1.eof = true)
    ∨ (p.1 = MatchState.UNKNOWN ∧ p.2.1.clean ∧ p.2.2.clean ∧ p.2.1.eof = false
        ∧ p.2.2.eof = false ∧ ∃ t, t ≠ [] ∧ p.2.2.pending = p.2.1.pending ++ t)

/-- The same pair with its two streams exchanged. -/
def pairSwap (p : MatchState × FILE × FILE) : MatchState × FILE × FILE :=
  (p.1, p.2.2, p.2.1)

/-! ## Sessions of the scenarios -/

/-- A stream as `fopen` returns it for an error-free source of the given content. -/
def FILE.ofContent (content : List Byte) : FILE :=
  { pending := content, faulty := false, eof := false, err := false }

/-- A stream as `fopen` returns it for a source that delivers the given bytes and then fails
with a read error. -/
def FILE.failingAfter (content : List Byte) : FILE :=
  { pending := content, faulty := true, eof := false, err := false }

/-- The session of the sources "aaa", "aaa", "aab" with buffers of one byte, before the first
call of `CmpFiles_CompareFiles`. -/
def scenarioA : FilesToCompare :=
  { _number_of_filestreams := 3
    _compare_buffer_size := 1
    _filepaths := ["first", "second", "third"]
    _filestreams :=
      [FILE.ofContent [97, 97, 97], FILE.ofContent [97, 97, 97], FILE.ofContent [97, 97, 98]]
    _compare_buffers := [[0], [0], [0]]
    _buffers_byte_among := [0, 0, 0]
    _combinations_handler :=
      { _compare_indexes := some [0, 0, 1]
        _compare_with_indexes := some [1, 2, 2]
        _match_states := some [MatchState.UNKNOWN, MatchState.UNKNOWN, MatchState.UNKNOWN]
        _among_of_combinations := 3
        _among_of_elements := 3 } }

/-- The session of the sources "x", "x" with buffers of 65536 bytes, before the first call of
`CmpFiles_CompareFiles`. -/
def scenarioB : FilesToCompare :=
  { _number_of_filestreams := 2
    _compare_buffer_size := 65536
    _filepaths := ["first", "second"]
    _filestreams := [FILE.ofContent [120], FILE.ofContent [120]]
    _compare_buffers := [List.replicate 65536 0, List.replicate 65536 0]
    _buffers_byte_among := [0, 0]
    _combinations_handler :=
      { _compare_indexes := some [0]
        _compare_with_indexes := some [1]
        _match_states := some [MatchState.UNKNOWN]
        _among_of_combinations := 1
        _among_of_elements := 2 } }

/-- The session of three empty sources with buffers of four bytes, before the first call of
`CmpFiles_CompareFiles`. -/
def scenarioC : FilesToCompare :=
  { _number_of_filestreams := 3
    _compare_buffer_size := 4
    _filepaths := ["first", "second", "third"]
    _filestreams := [FILE.ofContent [], FILE.ofContent [], FILE.ofContent []]
    _compare_buffers := [[0, 0, 0, 0], [0, 0, 0, 0], [0, 0, 0, 0]]
    _buffers_byte_among := [0, 0, 0]
    _combinations_handler :=
      { _compare_indexes := some [0, 0, 1]
        _compare_with_indexes := some [1, 2, 2]
        _match_states := some [MatchState.UNKNOWN, MatchState.UNKNOWN, MatchState.UNKNOWN]
        _among_of_combinations := 3
        _among_of_elements := 3 } }

/-- The session of a source of two bytes and a source that continues them with a third byte,
with buffers of two bytes, before the first call of `CmpFiles_CompareFiles`. -/
def scenarioShorter : FilesToCompare :=
  { _number_of_filestreams := 2
    _compare_buffer_size := 2
    _filepaths := ["first", "second"]
    _filestreams := [FILE.ofContent [1, 2], FILE.ofContent [1, 2, 3]]
    _compare_buffers := [[0, 0], [0, 0]]
    _buffers_byte_among := [0, 0]
    _combinations_handler :=
      { _compare_indexes := some [0]
        _compare_with_indexes := some [1]
        _match_states := some [MatchState.UNKNOWN]
        _among_of_combinations := 1
        _among_of_elements := 2 } }

/-- The session of three sources of the same three bytes, the first of which fails with a read
error after them, with buffers of two bytes, before the first call of
`CmpFiles_CompareFiles`. -/
def scenarioFailing : FilesToCompare :=
  { _number_of_filestreams := 3
    _compare_buffer_size := 2
    _filepaths := ["first", "second", "third"]
    _filestreams :=
      [FILE.failingAfter [1, 2, 3], FILE.ofContent [1, 2, 3], FILE.ofContent [1, 2, 3]]
    _compare_buffers := [[0, 0], [0, 0], [0, 0]]
    _buffers_byte_among := [0, 0, 0]
    _combinations_handler :=
      { _compare_indexes := some [0, 0, 1]
        _compare_with_indexes := some [1, 2, 2]
        _match_states := some [MatchState.UNKNOWN, MatchState.UNKNOWN, MatchState.UNKNOWN]
        _among_of_combinations := 3
        _among_of_elements := 3 } }

/-- A platform with a `size_t` of eight bytes and an `enum MatchState` of four bytes; the
allocations of `CmpComb_Initialize` all succeed; the new arrays hold arbitrary content. -/
def heapOfScenarios : CombinationsHeap :=
  { handler_allocated := true
    compare_indexes := some (fun i => 7 + i)
    compare_with_indexes := some (fun _ => 9)
    match_states := some (fun _ => MatchState.MATCHED)
    sizeof_size_t := 8
    sizeof_MatchState := 4 }

/-! ## Vocabulary of the statements about the host -/

/-- The request reads bytes from a source. -/
def Effect.isRead : Effect → Bool
  | Effect.fread _ => true
  | _ => false

/-- The request opens a source. -/
def Effect.isOpen : Effect → Bool
  | Effect.fopen _ => true
  | _ => false

/-- None of the requests reads bytes from a source. -/
def NoRead (trace : List Effect) : Prop :=
  trace.all (fun e => !e.isRead) = true

instance (trace : List Effect) : Decidable (NoRead trace) := by
  unfold NoRead
  infer_instance

/-- A host on which every allocation succeeds, the paths "first" and "second" open error-free
sources of two and three bytes, no other path opens, and `stdin` delivers two bytes. -/
def hostOfScenarios : Host :=
  { stdin := FILE.ofContent [1, 2]
    fopen := fun path =>
      if path = "first" then some (FILE.ofContent [1, 2])
      else if path = "second" then some (FILE.ofContent [1, 2, 3])
      else none
    setvbuf := fun _ => true
    allocates := fun _ => true
    uninitialised := fun _ _ => 0
    combinations := heapOfScenarios
    FILENAME_MAX := 4096 }

/-- The function `strtoul` of the scenarios: the value of a string of decimal digits, and 0
for every other string. -/
def strtoulOfScenarios (text : String) : Nat :=
  (text.toNat?).getD 0

/-- The variables of the loop of `OpenFilestreams` after `m` turns. -/
def OpenFilestreams.after (host : Host) (filepaths : List String) (among m : Nat) : OpenState :=
  forRange 0 m (OpenFilestreams.body host filepaths)
    { filestreams := List.replicate among none
      is_stdin_used := false
      jumped := false
      trace := [Effect.malloc Allocation.filestreams] }

/-- An allocated set of three elements whose pairs have been overwritten and whose verdicts
have been written by a comparison. -/
def overwrittenSet : CompareCombinations :=
  { _compare_indexes := some [2, 2, 0]
    _compare_with_indexes := some [0, 1, 0]
    _match_states := some [MatchState.MATCHED, MatchState.NOT_MATCHED, MatchState.UNKNOWN]
    _among_of_combinations := 3
    _among_of_elements := 3 }

/-- The set that `CmpComb_Initialize` returns for one element when `malloc(0)` returns a block:
no pair, the three arrays present and empty. -/
def setOfOneElement : CompareCombinations :=
  { _compare_indexes := some []
    _compare_with_indexes := some []
    _match_states := some []
    _among_of_combinations := 0
    _among_of_elements := 1 }

/-! ## Vocabulary of the statements about one round -/

/-- The byte count of a source: `_buffers_byte_among[i]`. -/
def FilesToCompare.count (g : FilesToCompare) (i : Nat) : Nat :=
  g._buffers_byte_among.getD i 0

/-- The block of a source: the first `_buffers_byte_among[i]` bytes of `_compare_buffers[i]`. -/
def FilesToCompare.block (g : FilesToCompare) (i : Nat) : List Byte :=
  (g._compare_buffers.getD i []).take (g.count i)

/-- A session of two streams at end of file whose verdict is `MATCHED`, in which the error
indicator of the first stream is set. -/
def scenarioMatchedError : FilesToCompare :=
  { _number_of_filestreams := 2
    _compare_buffer_size := 2
    _filepaths := ["first", "second"]
    _filestreams :=
      [{ pending := [], faulty := false, eof := true, err := true },
       { pending := [], faulty := false, eof := true, err := false }]
    _compare_buffers := [[0, 0], [0, 0]]
    _buffers_byte_among := [0, 0]
    _combinations_handler :=
      { _compare_indexes := some [0]
        _compare_with_indexes := some [1]
        _match_states := some [MatchState.MATCHED]
        _among_of_combinations := 1
        _among_of_elements := 2 } }

/-- The session of a source of one byte and of the two error-free sources of scenario
`scenarioFailing`, with buffers of two bytes. -/
def scenarioOther : FilesToCompare :=
  { _number_of_filestreams := 3
    _compare_buffer_size := 2
    _filepaths := ["other", "second", "third"]
    _filestreams := [FILE.ofContent [9], FILE.ofContent [1, 2, 3], FILE.ofContent [1, 2, 3]]
    _compare_buffers := [[0, 0], [0, 0], [0, 0]]
    _buffers_byte_among := [0, 0, 0]
    _combinations_handler :=
      { _compare_indexes := some [0, 0, 1]
        _compare_with_indexes := some [1, 2, 2]
        _match_states := some [MatchState.UNKNOWN, MatchState.UNKNOWN, MatchState.UNKNOWN]
        _among_of_combinations := 3
        _among_of_elements := 3 } }

/-- Every stored pair `(a, b)` of a set satisfies `a < b` and `b < _among_of_elements`. -/
def CompareCombinations.PairsWF (h : CompareCombinations) : Prop :=
  ∀ k < h._among_of_combinations,
    (h.pairAt k).1 < (h.pairAt k).2 ∧ (h.pairAt k).2 < h._among_of_elements

instance (h : CompareCombinations) : Decidable h.PairsWF := by
  unfold CompareCombinations.PairsWF
  infer_instance

/-! ## The calls of the sweep

The nested sweep of `CmpComb_PrepareCombinations` once more, with a record of its calls of
`CmpComb_SetCombination`: the position passed to each call and the boolean it returns, in the
order of the calls. -/

/-- The body of the inner loop of `CmpComb_PrepareCombinations`, recording its call. -/
def CmpComb_PrepareCombinations.innerCalls (w : Nat) (compare_index compare_with_index : Nat)
    (t : SweepState × List (Nat × Bool)) : SweepState × List (Nat × Bool) :=
  (CmpComb_PrepareCombinations.inner w compare_index compare_with_index t.1,
    t.2 ++ [(t.1.in_position,
      (CmpComb_SetCombination t.1.handler t.1.in_position compare_index
        compare_with_index).1)])

/-- The body of the outer loop of `CmpComb_PrepareCombinations`, recording the calls. -/
def CmpComb_PrepareCombinations.outerCalls (w : Nat) (among_of_elements : Nat)
    (compare_index : Nat) (t : SweepState × List (Nat × Bool)) :
    SweepState × List (Nat × Bool) :=
  let t1 := forRange t.1.incrementer among_of_elements
    (CmpComb_PrepareCombinations.innerCalls w compare_index) t
  ({ t1.1 with incrementer := (t1.1.incrementer + 1) % 2 ^ w }, t1.2)

/-- The nested sweep of `CmpComb_PrepareCombinations` on a set, recording the calls: the state
of the sweep at its end and the calls made. -/
def CmpComb_PrepareCombinations.sweepCalls (w : Nat) (h : CompareCombinations) :
    SweepState × List (Nat × Bool) :=
  forRange 0 h._among_of_elements
    (CmpComb_PrepareCombinations.outerCalls w h._among_of_elements)
    ({ handler := some h, in_position := 0, incrementer := 1 }, [])

/-- The calls of `CmpComb_SetCombination` that `CmpComb_PrepareCombinations` makes: none when
it returns at one of its guards, those of the sweep otherwise. -/
def CmpComb_PrepareCombinations.calls (w : Nat) (handler : Option CompareCombinations) :
    List (Nat × Bool) :=
  match handler with
  | none => []
  | some h =>
      if h._among_of_combinations = 0 then []
      else if h._compare_indexes = none ∨ h._compare_with_indexes = none then []
      else (CmpComb_PrepareCombinations.sweepCalls w h).2

/-- The session of the sources "aaa", "aaa", "bbb" with buffers of one byte, before the first
call of `CmpFiles_CompareFiles`: after the first round both pairs of the third source hold the
verdict `NOT_MATCHED`. -/
def scenarioSettled : FilesToCompare :=
  { _number_of_filestreams := 3
    _compare_buffer_size := 1
    _filepaths := ["first", "second", "third"]
    _filestreams :=
      [FILE.ofContent [97, 97, 97], FILE.ofContent [97, 97, 97], FILE.ofContent [98, 98, 98]]
    _compare_buffers := [[0], [0], [0]]
    _buffers_byte_among := [0, 0, 0]
    _combinations_handler :=
      { _compare_indexes := some [0, 0, 1]
        _compare_with_indexes := some [1, 2, 2]
        _match_states := some [MatchState.UNKNOWN, MatchState.UNKNOWN, MatchState.UNKNOWN]
        _among_of_combinations := 3
        _among_of_elements := 3 } }

/-- The session of the sources "abbb" and "cbbb" with buffers of one byte, before the first
call of `CmpFiles_CompareFiles`. -/
def scenarioDistinct : FilesToCompare :=
  { _number_of_filestreams := 2
    _compare_buffer_size := 1
    _filepaths := ["first", "second"]
    _filestreams := [FILE.ofContent [97, 98, 98, 98], FILE.ofContent [99, 98, 98, 98]]
    _compare_buffers := [[0], [0]]
    _buffers_byte_among := [0, 0]
    _combinations_handler :=
      { _compare_indexes := some [0]
        _compare_with_indexes := some [1]
        _match_states := some [MatchState.UNKNOWN]
        _among_of_combinations := 1
        _among_of_elements := 2 } }

/-! ## Vocabulary of the statements about the allocations -/

/-- The byte sizes `sizeof(size_t) * among` and `sizeof(enum MatchState) * among` that
`CmpComb_Initialize` passes to `malloc` for arrays of `among` entries are representable in
`size_t`: the products do not wrap. -/
def CombinationsHeap.Fits (w : Nat) (heap : CombinationsHeap) (among : Nat) : Prop :=
  0 < heap.sizeof_size_t ∧ heap.sizeof_size_t * among < 2 ^ w
    ∧ 0 < heap.sizeof_MatchState ∧ heap.sizeof_MatchState * among < 2 ^ w

instance (w : Nat) (heap : CombinationsHeap) (among : Nat) : Decidable (heap.Fits w among) := by
  unfold CombinationsHeap.Fits
  infer_instance

/-- The four allocations of `CmpComb_Initialize` succeed. -/
def CombinationsHeap.Succeeds (heap : CombinationsHeap) : Prop :=
  heap.handler_allocated = true ∧ heap.compare_indexes.isSome = true
    ∧ heap.compare_with_indexes.isSome = true ∧ heap.match_states.isSome = true

instance (heap : CombinationsHeap) : Decidable heap.Succeeds := by
  unfold CombinationsHeap.Succeeds
  infer_instance

/-- A platform with a `size_t` of 32 bits and four bytes and an `enum MatchState` of four
bytes, on which every allocation succeeds and a new block holds zeros. -/
def heapOf32Bits : CombinationsHeap :=
  { handler_allocated := true
    compare_indexes := some (fun _ => 0)
    compare_with_indexes := some (fun _ => 0)
    match_states := some (fun _ => MatchState.UNKNOWN)
    sizeof_size_t := 4
    sizeof_MatchState := 4 }

/-- The verdict array of the set is present, and each of the three arrays that is present holds
`_among_of_combinations` entries, so that no write of `CmpComb_PrepareCombinations` goes
through a null pointer or leaves its block. -/
def CompareCombinations.InBlocks (h : CompareCombinations) : Prop :=
  h._match_states.map List.length = some h._among_of_combinations
    ∧ (h._compare_indexes = none
      ∨ h._compare_indexes.map List.length = some h._among_of_combinations)
    ∧ (h._compare_with_indexes = none
      ∨ h._compare_with_indexes.map List.length = some h._among_of_combinations)

instance (h : CompareCombinations) : Decidable h.InBlocks := by
  unfold CompareCombinations.InBlocks
  infer_instance

/-- A set allocated for 363 elements on a platform with a `size_t` of 16 bits: the pair count
65703 wraps to 167, and the three arrays hold 167 entries. -/
def setOf16Bits : CompareCombinations :=
  { _compare_indexes := some (List.replicate 167 0)
    _compare_with_indexes := some (List.replicate 167 0)
    _match_states := some (List.replicate 167 MatchState.UNKNOWN)
    _among_of_combinations := 167
    _among_of_elements := 363 }

/-- A set allocated for 5 elements with a `size_t` of 3 bits: the pair count 10 wraps to 2, and
the three arrays hold 2 entries. -/
def setOf3Bits : CompareCombinations :=
  { _compare_indexes := some [0, 0]
    _compare_with_indexes := some [0, 0]
    _match_states := some [MatchState.UNKNOWN, MatchState.UNKNOWN]
    _among_of_combinations := 2
    _among_of_elements := 5 }

/-! ## Loops -/

theorem forRange_empty {σ : Type} (lo hi : Nat) (h : hi ≤ lo) (body : Nat → σ → σ) (s : σ) :
    forRange lo hi body s = s := by
  simp [forRange, Nat.sub_eq_zero_of_le h]

theorem forRange_succ {σ : Type} (lo hi : Nat) (h : lo ≤ hi) (body : Nat → σ → σ) (s : σ) :
    forRange lo (hi + 1) body s = body hi (forRange lo hi body s) := by
  have e : hi + 1 - lo = (hi - lo) + 1 := by omega
  simp only [forRange, e, List.range'_concat, List.foldl_append, List.foldl_cons, List.foldl_nil]
  congr 1
  omega

theorem NumberOfCombinations_loop_lt (w : Nat) :
    ∀ n acc, acc < 2 ^ w → CmpComb_NumberOfCombinations.loop w n acc < 2 ^ w := by
  intro n
  induction n with
  | zero => intro acc h; simpa [CmpComb_NumberOfCombinations.loop] using h
  | succ n ih =>
      intro acc _
      simp only [CmpComb_NumberOfCombinations.loop]
      exact ih _ (Nat.mod_lt _ (Nat.two_pow_pos w))

theorem NumberOfCombinations_loop_mod (w : Nat) :
    ∀ n acc, CmpComb_NumberOfCombinations.loop w n acc % 2 ^ w
      = (acc + n * (n - 1) / 2) % 2 ^ w := by
  intro n
  induction n with
  | zero => intro acc; simp [CmpComb_NumberOfCombinations.loop]
  | succ n ih =>
      intro acc
      simp only [CmpComb_NumberOfCombinations.loop]
      rw [ih, Nat.triangle_succ, Nat.add_mod, Nat.mod_mod, ← Nat.add_mod]
      congr 1
      omega

theorem NumberOfCombinations_mod (w n : Nat) :
    CmpComb_NumberOfCombinations w n = (n * (n - 1) / 2) % 2 ^ w := by
  have h1 := NumberOfCombinations_loop_lt w n 0 (Nat.two_pow_pos w)
  have h2 := NumberOfCombinations_loop_mod w n 0
  rw [Nat.mod_eq_of_lt h1, Nat.zero_add] at h2
  exact h2

/-- C4. `CmpComb_NumberOfCombinations` returns `n * (n - 1) / 2` reduced modulo `2 ^ w`, for
every `n` and so for every `size_t` value; it returns `n * (n - 1) / 2` itself whenever that
value is representable in `size_t`, and 0 for 0 and for 1 element. -/
theorem CmpComb_NumberOfCombinations_triangular (w n : Nat) :
    CmpComb_NumberOfCombinations w n = (n * (n - 1) / 2) % 2 ^ w
      ∧ (n * (n - 1) / 2 < 2 ^ w → CmpComb_NumberOfCombinations w n = n * (n - 1) / 2)
      ∧ CmpComb_NumberOfCombinations w 0 = 0
      ∧ CmpComb_NumberOfCombinations w 1 = 0 := by
  refine ⟨NumberOfCombinations_mod w n, ?_, ?_, ?_⟩
  · intro h
    rw [NumberOfCombinations_mod, Nat.mod_eq_of_lt h]
  · rw [NumberOfCombinations_mod]; simp
  · rw [NumberOfCombinations_mod]; simp

/-- C10. `CmpComb_GetCombination` returns failure exactly when the set is absent, the position
is at or above the pair count of the set, or one of the two output slots is absent; on a present
set and two present slots, for a position below the pair count, it succeeds and stores the pair
held at that position; and the set after the call is the set before the call. -/
theorem CmpComb_GetCombination_spec (handler : Option CompareCombinations) (from_position : Nat)
    (compare_index compare_with_index : Option Nat) :
    ((CmpComb_GetCombination handler from_position compare_index compare_with_index).1 = false
        ↔ (handler = none
            ∨ (∃ h, handler = some h ∧ from_position ≥ h._among_of_combinations)
            ∨ compare_index = none ∨ compare_with_index = none))
      ∧ (∀ h a b, handler = some h → from_position < h._among_of_combinations →
          compare_index = some a → compare_with_index = some b →
          CmpComb_GetCombination handler from_position compare_index compare_with_index
            = (true, some h, some (readAt h._compare_indexes from_position 0),
                some (readAt h._compare_with_indexes from_position 0)))
      ∧ (CmpComb_GetCombination handler from_position compare_index compare_with_index).2.1
          = handler := by
  refine ⟨?_, ?_, ?_⟩
  · cases handler with
    | none => simp [CmpComb_GetCombination]
    | some h =>
        by_cases h1 : from_position ≥ h._among_of_combinations
        · simp [CmpComb_GetCombination, h1]
        · by_cases h2 : compare_index = none ∨ compare_with_index = none
          · simp [CmpComb_GetCombination, h1, h2]
          · have h1' : ¬ h._among_of_combinations ≤ from_position := h1
            simp only [CmpComb_GetCombination, h1, h2, if_false]
            simp [h1']
  · intro h a b hh hlt ha hb
    subst hh ha hb
    have : ¬ from_position ≥ h._among_of_combinations := by omega
    simp [CmpComb_GetCombination, this]
  · cases handler with
    | none => simp [CmpComb_GetCombination]
    | some h =>
        simp only [CmpComb_GetCombination]
        split_ifs <;> rfl

/-! ## The sweep of `CmpComb_PrepareCombinations` -/

theorem take_succ_set {α : Type} (xs : List α) (p : Nat) (v : α) (h : p < xs.length) :
    (xs.set p v).take (p + 1) = xs.take p ++ [v] := by
  induction xs generalizing p with
  | nil => simp at h
  | cons x xs ih =>
      cases p with
      | zero => simp
      | succ p =>
          simp only [List.length_cons, Nat.add_lt_add_iff_right] at h
          simp [ih p h]

theorem sweepRows_mem (n : Nat) : ∀ r i j, (i, j) ∈ sweepRows n r ↔ i < r ∧ i < j ∧ j < n := by
  intro r
  induction r with
  | zero => intro i j; simp [sweepRows]
  | succ r ih =>
      intro i j
      simp only [sweepRows, List.mem_append, ih, List.mem_map, List.mem_range'_1, Prod.mk.injEq]
      constructor
      · rintro (h | ⟨x, hx, rfl, rfl⟩) <;> omega
      · intro h
        by_cases hi : i < r
        · left; omega
        · right; exact ⟨j, by omega, by omega, rfl⟩

theorem sweepRows_pairwise (n : Nat) : ∀ r, (sweepRows n r).Pairwise lexLt := by
  intro r
  induction r with
  | zero => simp [sweepRows]
  | succ r ih =>
      simp only [sweepRows]
      rw [List.pairwise_append]
      refine ⟨ih, ?_, ?_⟩
      · rw [List.pairwise_map]
        exact (List.pairwise_lt_range' (r + 1) (n - (r + 1))).imp
          (fun {a b} hab => Or.inr ⟨rfl, hab⟩)
      · rintro ⟨i, j⟩ hp ⟨i2, j2⟩ hq
        rw [sweepRows_mem] at hp
        simp only [List.mem_map, List.mem_range'_1, Prod.mk.injEq] at hq
        obtain ⟨x, _, rfl, rfl⟩ := hq
        exact Or.inl hp.1

theorem sweepRows_length (n : Nat) :
    ∀ r, r ≤ n → 2 * (sweepRows n r).length + r * (r + 1) = 2 * r * n := by
  intro r
  induction r with
  | zero => intro _; simp [sweepRows]
  | succ r ih =>
      intro hr
      have h1 := ih (by omega)
      obtain ⟨d, rfl⟩ : ∃ d, n = r + 1 + d := ⟨n - (r + 1), by omega⟩
      simp only [sweepRows, List.length_append, List.length_map, List.length_range']
      have e : r + 1 + d - (r + 1) = d := by omega
      rw [e]
      nlinarith [h1]

theorem sweepRows_length_full (n : Nat) : (sweepRows n n).length = n * (n - 1) / 2 := by
  have h := sweepRows_length n n (Nat.le_refl n)
  cases n with
  | zero => simp [sweepRows]
  | succ m =>
      have e : m + 1 - 1 = m := by omega
      rw [e]
      have h2 : 2 * (sweepRows (m + 1) (m + 1)).length = (m + 1) * m := by nlinarith [h]
      omega

theorem sweepRows_length_mono (n : Nat) :
    ∀ r q, r ≤ q → (sweepRows n r).length ≤ (sweepRows n q).length := by
  intro r q hrq
  induction q with
  | zero =>
      have : r = 0 := by omega
      subst this
      exact Nat.le_refl _
  | succ q ih =>
      by_cases h : r = q + 1
      · subst h; exact Nat.le_refl _
      · have := ih (by omega)
        simp only [sweepRows, List.length_append]
        omega

theorem Filled_inner (w c n : Nat) (ms : Option (List MatchState)) (ps : List (Nat × Nat))
    (s : SweepState) (ci cwi : Nat) (hf : s.Filled c n ms ps) (hlt : ps.length < c)
    (hc : c < 2 ^ w) :
    (CmpComb_PrepareCombinations.inner w ci cwi s).Filled c n ms (ps ++ [(ci, cwi)])
      ∧ (CmpComb_PrepareCombinations.inner w ci cwi s).incrementer = s.incrementer := by
  obtain ⟨xs, ys, hh, hx, hy, hp, htx, hty⟩ := hf
  refine ⟨⟨xs.set ps.length ci, ys.set ps.length cwi, ?_, ?_, ?_, ?_, ?_, ?_⟩, rfl⟩
  · have hn : ¬ c ≤ ps.length := by omega
    simp [CmpComb_PrepareCombinations.inner, CmpComb_SetCombination, hh, hn, writeAt, hp]
  · simpa using hx
  · simpa using hy
  · simp only [CmpComb_PrepareCombinations.inner, hp, List.length_append, List.length_singleton]
    exact Nat.mod_eq_of_lt (by omega)
  · rw [List.length_append, List.length_singleton, take_succ_set xs _ ci (by omega), htx]
    simp
  · rw [List.length_append, List.length_singleton, take_succ_set ys _ cwi (by omega), hty]
    simp

theorem Filled_inner_fold (w c n : Nat) (ms : Option (List MatchState)) (ci : Nat)
    (hc : c < 2 ^ w) :
    ∀ (js : List Nat) (ps : List (Nat × Nat)) (s : SweepState), s.Filled c n ms ps →
      ps.length + js.length ≤ c →
      (js.foldl (fun acc j => CmpComb_PrepareCombinations.inner w ci j acc) s).Filled c n ms
          (ps ++ js.map (fun j => (ci, j)))
        ∧ (js.foldl (fun acc j => CmpComb_PrepareCombinations.inner w ci j acc) s).incrementer
          = s.incrementer := by
  intro js
  induction js with
  | nil => intro ps s hf _; simpa using hf
  | cons j js ih =>
      intro ps s hf hlen
      simp only [List.length_cons] at hlen
      obtain ⟨h1, h2⟩ := Filled_inner w c n ms ps s ci j hf (by omega) hc
      have h3 := ih (ps ++ [(ci, j)]) _ h1 (by simp; omega)
      simp only [List.foldl_cons, List.map_cons]
      rw [List.append_assoc] at h3
      exact ⟨h3.1, h3.2.trans h2⟩

theorem Filled_outer (w c n : Nat) (ms : Option (List MatchState)) (xs ys : List Nat)
    (hn : n < 2 ^ w) (hc : c < 2 ^ w) (hcn : c = (sweepRows n n).length)
    (hx : xs.length = c) (hy : ys.length = c) :
    ∀ r, r ≤ n →
      (forRange 0 r (CmpComb_PrepareCombinations.outer w n)
          { handler := some
              { _compare_indexes := some xs
                _compare_with_indexes := some ys
                _match_states := ms
                _among_of_combinations := c
                _among_of_elements := n }
            in_position := 0
            incrementer := 1 }).Filled c n ms (sweepRows n r)
      ∧ (r < n →
          (forRange 0 r (CmpComb_PrepareCombinations.outer w n)
            { handler := some
                { _compare_indexes := some xs
                  _compare_with_indexes := some ys
                  _match_states := ms
                  _among_of_combinations := c
                  _among_of_elements := n }
              in_position := 0
              incrementer := 1 }).incrementer = r + 1) := by
  intro r
  induction r with
  | zero =>
      intro _
      rw [forRange_empty 0 0 (Nat.le_refl 0)]
      exact ⟨⟨xs, ys, rfl, hx, hy, rfl, by simp [sweepRows], by simp [sweepRows]⟩, fun _ => rfl⟩
  | succ r ih =>
      intro hr
      obtain ⟨h1, h2⟩ := ih (by omega)
      have h2 := h2 (by omega)
      rw [forRange_succ 0 r (Nat.zero_le r)]
      generalize forRange 0 r (CmpComb_PrepareCombinations.outer w n) _ = s at h1 h2
      have hlen : (sweepRows n r).length + (List.range' (r + 1) (n - (r + 1))).length ≤ c := by
        have := sweepRows_length_mono n (r + 1) n hr
        simp only [sweepRows, List.length_append, List.length_map] at this
        omega
      have h3 := Filled_inner_fold w c n ms r hc (List.range' (r + 1) (n - (r + 1)))
        (sweepRows n r) s h1 hlen
      simp only [CmpComb_PrepareCombinations.outer, forRange, h2]
      refine ⟨?_, ?_⟩
      · obtain ⟨xs1, ys1, e1, e2, e3, e4, e5, e6⟩ := h3.1
        exact ⟨xs1, ys1, e1, e2, e3, e4, e5, e6⟩
      · intro hlt
        show (_ + 1) % 2 ^ w = r + 1 + 1
        rw [h3.2, h2]
        exact Nat.mod_eq_of_lt (by omega)

theorem reset_set (ms : List MatchState) (m : Nat) :
    (List.replicate (min m ms.length) MatchState.UNKNOWN ++ ms.drop m).set m MatchState.UNKNOWN
      = List.replicate (min (m + 1) ms.length) MatchState.UNKNOWN ++ ms.drop (m + 1) := by
  induction ms generalizing m with
  | nil => simp
  | cons x t ih =>
      cases m with
      | zero => simp [List.replicate_succ]
      | succ m =>
          have e1 : min (m + 1) (x :: t).length = min m t.length + 1 := by
            simp only [List.length_cons]; omega
          have e2 : min (m + 1 + 1) (x :: t).length = min (m + 1) t.length + 1 := by
            simp only [List.length_cons]; omega
          rw [e1, e2, List.replicate_succ, List.replicate_succ, List.drop_succ_cons,
            List.drop_succ_cons, List.cons_append, List.cons_append, List.set_cons_succ, ih]

theorem reset_loop (h : CompareCombinations) :
    ∀ m, forRange 0 m
        (fun at_index (g : CompareCombinations) =>
          { g with _match_states := writeAt g._match_states at_index MatchState.UNKNOWN }) h
      = { h with
          _match_states := h._match_states.map
            (fun ms => List.replicate (min m ms.length) MatchState.UNKNOWN ++ ms.drop m) } := by
  intro m
  induction m with
  | zero =>
      rw [forRange_empty 0 0 (Nat.le_refl 0)]
      cases h with
      | mk a b ms c n => cases ms <;> simp
  | succ m ih =>
      rw [forRange_succ 0 m (Nat.zero_le m), ih]
      cases h with
      | mk a b ms c n =>
          cases ms with
          | none => simp [writeAt]
          | some ms => simp only [writeAt, Option.map_some', reset_set]

theorem PrepareCombinations_eq (w c n : Nat) (ms : List MatchState) (xs ys : List Nat)
    (hn : n < 2 ^ w) (hc : c < 2 ^ w) (hcn : c = (sweepRows n n).length) (hc0 : c ≠ 0)
    (hx : xs.length = c) (hy : ys.length = c) :
    CmpComb_PrepareCombinations w (some
        { _compare_indexes := some xs
          _compare_with_indexes := some ys
          _match_states := some ms
          _among_of_combinations := c
          _among_of_elements := n })
      = some (true, some
        { _compare_indexes := some ((sweepRows n n).map Prod.fst)
          _compare_with_indexes := some ((sweepRows n n).map Prod.snd)
          _match_states :=
            some (List.replicate (min c ms.length) MatchState.UNKNOWN ++ ms.drop c)
          _among_of_combinations := c
          _among_of_elements := n }) := by
  obtain ⟨⟨xs1, ys1, e1, e2, e3, _, e5, e6⟩, _⟩ :=
    Filled_outer w c n (some ms) xs ys hn hc hcn hx hy n (Nat.le_refl n)
  rw [← hcn, ← e2, List.take_length] at e5
  rw [← hcn, ← e3, List.take_length] at e6
  simp only [CmpComb_PrepareCombinations, hc0, if_false, reduceCtorEq, or_self, e1, reset_loop,
    Option.map_some']
  rw [e5, e6]

theorem Allocated_count (w n : Nat) (h : CompareCombinations) (ha : h.Allocated w)
    (hn : h._among_of_elements = n) (hfit : n * (n - 1) / 2 < 2 ^ w) :
    h._among_of_combinations = (sweepRows n n).length := by
  rw [ha.2.2.2, hn, NumberOfCombinations_mod, Nat.mod_eq_of_lt hfit, sweepRows_length_full]

theorem Allocated_PrepareCombinations (w n : Nat) (h : CompareCombinations) (ha : h.Allocated w)
    (hn : h._among_of_elements = n) (h2 : 2 ≤ n) (hw : n < 2 ^ w)
    (hfit : n * (n - 1) / 2 < 2 ^ w) :
    CmpComb_PrepareCombinations w (some h)
      = some (true, some
        { _compare_indexes := some ((sweepRows n n).map Prod.fst)
          _compare_with_indexes := some ((sweepRows n n).map Prod.snd)
          _match_states := some (List.replicate (n * (n - 1) / 2) MatchState.UNKNOWN)
          _among_of_combinations := n * (n - 1) / 2
          _among_of_elements := n }) := by
  have hc := Allocated_count w n h ha hn hfit
  obtain ⟨a1, a2, a3, _⟩ := ha
  cases h with
  | mk xs ys ms c m =>
      simp only at hn hc a1 a2 a3
      subst hn
      cases xs with
      | none => simp at a1
      | some xs =>
      cases ys with
      | none => simp at a2
      | some ys =>
      cases ms with
      | none => simp at a3
      | some ms =>
          simp only [Option.map_some', Option.some.injEq] at a1 a2 a3
          have hlen := sweepRows_length_full m
          have hpos : 0 < m * (m - 1) / 2 := by
            have : 2 ≤ m * (m - 1) := by
              have h3 : 1 ≤ m - 1 := by omega
              calc 2 = 2 * 1 := rfl
                _ ≤ m * (m - 1) := Nat.mul_le_mul h2 h3
            omega
          have hd : List.drop c ms = [] := by rw [← a3]; exact List.drop_length ms
          rw [PrepareCombinations_eq w c m ms xs ys hw (by omega) hc (by omega) a1 a2]
          simp only [a3, Nat.min_self, hd, List.append_nil]
          rw [hc, hlen]

theorem sweep_IsSweep (n : Nat) (ms : Option (List MatchState)) :
    CompareCombinations.IsSweep n
      { _compare_indexes := some ((sweepRows n n).map Prod.fst)
        _compare_with_indexes := some ((sweepRows n n).map Prod.snd)
        _match_states := ms
        _among_of_combinations := n * (n - 1) / 2
        _among_of_elements := n } := by
  have hz : List.zip ((sweepRows n n).map Prod.fst) ((sweepRows n n).map Prod.snd)
      = sweepRows n n := (List.zip_of_prod rfl rfl).symm
  refine ⟨by simp [sweepRows_length_full], by simp [sweepRows_length_full], ?_, ?_⟩
  · simp only [CompareCombinations.pairs, Option.getD_some, hz]
    exact sweepRows_pairwise n n
  · intro i j
    simp only [CompareCombinations.pairs, Option.getD_some, hz, sweepRows_mem]
    omega

theorem mallocArray_length {α : Type} (w size : Nat) (content : Option (Nat → α))
    (among : Nat) :
    (mallocArray w size content among).map List.length
      = content.map (fun _ => size * among % 2 ^ w / size) := by
  cases content <;> simp [mallocArray]

theorem mallocArray_fits {α : Type} (w size : Nat) (content : Option (Nat → α)) (among : Nat)
    (hs : 0 < size) (hb : size * among < 2 ^ w) :
    (mallocArray w size content among).map List.length = content.map (fun _ => among) := by
  rw [mallocArray_length, Nat.mod_eq_of_lt hb, Nat.mul_div_cancel_left among hs]

theorem mallocArray_isSome {α : Type} (w size : Nat) (content : Option (Nat → α))
    (among : Nat) : (mallocArray w size content among = none) ↔ content = none := by
  cases content <;> simp [mallocArray]

/-- When the allocations succeed and the byte sizes do not wrap, the struct that
`CmpComb_Initialize` passes to `CmpComb_PrepareCombinations` is an allocated set. -/
theorem handler_Allocated (w n : Nat) (heap : CombinationsHeap) (hs : heap.Succeeds)
    (hf : heap.Fits w (CmpComb_NumberOfCombinations w n)) :
    (CmpComb_Initialize.handler w heap n).Allocated w
      ∧ (CmpComb_Initialize.handler w heap n)._among_of_elements = n := by
  obtain ⟨_, a, b, c⟩ := hs
  obtain ⟨f1, f2, f3, f4⟩ := hf
  obtain ⟨ga, ea⟩ := Option.isSome_iff_exists.mp a
  obtain ⟨gb, eb⟩ := Option.isSome_iff_exists.mp b
  obtain ⟨gc, ec⟩ := Option.isSome_iff_exists.mp c
  refine ⟨⟨?_, ?_, ?_, rfl⟩, rfl⟩
  · simp only [CmpComb_Initialize.handler]
    rw [mallocArray_fits w _ _ _ f1 f2, ea]
    rfl
  · simp only [CmpComb_Initialize.handler]
    rw [mallocArray_fits w _ _ _ f1 f2, eb]
    rfl
  · simp only [CmpComb_Initialize.handler]
    rw [mallocArray_fits w _ _ _ f3 f4, ec]
    rfl

theorem Initialize_unfold (w n : Nat) (heap : CombinationsHeap) :
    CmpComb_Initialize w heap n
      = if n ≠ 0 ∧ heap.Succeeds then
          (CmpComb_PrepareCombinations w (some (CmpComb_Initialize.handler w heap n))).bind
            (fun r => r.2)
        else none := by
  unfold CmpComb_Initialize CombinationsHeap.Succeeds
  by_cases h0 : n = 0
  · simp [h0]
  · rw [if_neg h0]
    by_cases ha : heap.handler_allocated = true
    · have hnf : ¬ heap.handler_allocated = false := by simp [ha]
      rw [if_neg hnf]
      dsimp only
      have e1 : (CmpComb_Initialize.handler w heap n)._compare_indexes = none
          ↔ heap.compare_indexes = none := mallocArray_isSome _ _ _ _
      have e2 : (CmpComb_Initialize.handler w heap n)._compare_with_indexes = none
          ↔ heap.compare_with_indexes = none := mallocArray_isSome _ _ _ _
      have e3 : (CmpComb_Initialize.handler w heap n)._match_states = none
          ↔ heap.match_states = none := mallocArray_isSome _ _ _ _
      by_cases hn : (CmpComb_Initialize.handler w heap n)._compare_indexes = none
          ∨ (CmpComb_Initialize.handler w heap n)._compare_with_indexes = none
          ∨ (CmpComb_Initialize.handler w heap n)._match_states = none
      · rw [if_pos hn, if_neg]
        intro hh
        rw [e1, e2, e3] at hn
        rcases hn with e | e | e <;> simp [e] at hh
      · rw [if_neg hn, if_pos]
        rw [e1, e2, e3] at hn
        simp only [not_or] at hn
        exact ⟨h0, ha, Option.ne_none_iff_isSome.mp hn.1, Option.ne_none_iff_isSome.mp hn.2.1,
          Option.ne_none_iff_isSome.mp hn.2.2⟩
    · have hf : heap.handler_allocated = false := by simpa using ha
      rw [if_pos hf, if_neg]
      intro hh
      exact ha hh.2.1

theorem Initialize_eq (w n : Nat) (heap : CombinationsHeap) (h2 : 2 ≤ n) (hw : n < 2 ^ w)
    (hfit : n * (n - 1) / 2 < 2 ^ w) (hf : heap.Fits w (n * (n - 1) / 2)) :
    CmpComb_Initialize w heap n
      = if heap.Succeeds then
        some
          { _compare_indexes := some ((sweepRows n n).map Prod.fst)
            _compare_with_indexes := some ((sweepRows n n).map Prod.snd)
            _match_states := some (List.replicate (n * (n - 1) / 2) MatchState.UNKNOWN)
            _among_of_combinations := n * (n - 1) / 2
            _among_of_elements := n }
        else none := by
  have hn0 : n ≠ 0 := by omega
  have hcount : CmpComb_NumberOfCombinations w n = n * (n - 1) / 2 := by
    rw [NumberOfCombinations_mod, Nat.mod_eq_of_lt hfit]
  rw [Initialize_unfold]
  by_cases hs : heap.Succeeds
  · rw [if_pos ⟨hn0, hs⟩, if_pos hs]
    obtain ⟨ha, hn⟩ := handler_Allocated w n heap hs (hcount ▸ hf)
    rw [Allocated_PrepareCombinations w n _ ha hn h2 hw hfit]
    rfl
  · rw [if_neg (fun hh => hs hh.2), if_neg hs]

theorem fread_eq (buf : List Byte) (cap : Nat) (s : FILE) :
    fread buf cap s
      = ((s.chunk cap).length, s.chunk cap ++ buf.drop (s.chunk cap).length, s.advance cap) := by
  unfold fread FILE.chunk FILE.advance
  split_ifs <;> simp

theorem set_pointwise {α : Type} (l0 l : List α) (m : Nat) (F : Nat → α → α) (v : α)
    (hlen : l.length = l0.length)
    (hP : ∀ i, l[i]? = if i < m then (l0[i]?).map (F i) else l0[i]?)
    (hv : ∀ x, l0[m]? = some x → v = F m x) :
    ∀ i, (l.set m v)[i]? = if i < m + 1 then (l0[i]?).map (F i) else l0[i]? := by
  intro i
  rw [List.getElem?_set]
  by_cases hmi : m = i
  · subst hmi
    simp only [if_true, Nat.lt_succ_self]
    by_cases hm : m < l.length
    · have hm0 : m < l0.length := by omega
      rw [if_pos hm, List.getElem?_eq_getElem hm0, Option.map_some', hv _ (List.getElem?_eq_getElem hm0)]
    · rw [if_neg hm, List.getElem?_eq_none (by omega)]
      rfl
  · rw [if_neg hmi, hP i]
    by_cases him : i < m
    · have : i < m + 1 := by omega
      rw [if_pos him, if_pos this]
    · have : ¬ i < m + 1 := by omega
      rw [if_neg him, if_neg this]

theorem read_loop (h : FilesToCompare) :
    ∀ m, (forRange 0 m CmpFiles_CompareFiles.read h)._number_of_filestreams
          = h._number_of_filestreams
      ∧ (forRange 0 m CmpFiles_CompareFiles.read h)._compare_buffer_size = h._compare_buffer_size
      ∧ (forRange 0 m CmpFiles_CompareFiles.read h)._filepaths = h._filepaths
      ∧ (forRange 0 m CmpFiles_CompareFiles.read h)._combinations_handler
          = h._combinations_handler
      ∧ (forRange 0 m CmpFiles_CompareFiles.read h)._filestreams.length = h._filestreams.length
      ∧ (forRange 0 m CmpFiles_CompareFiles.read h)._buffers_byte_among.length
          = h._buffers_byte_among.length
      ∧ (forRange 0 m CmpFiles_CompareFiles.read h)._compare_buffers.length
          = h._compare_buffers.length
      ∧ (∀ i, (forRange 0 m CmpFiles_CompareFiles.read h)._filestreams[i]?
          = if i < m then (h._filestreams[i]?).map
              (fun s => FILE.advance h._compare_buffer_size s)
            else h._filestreams[i]?)
      ∧ (∀ i, (forRange 0 m CmpFiles_CompareFiles.read h)._buffers_byte_among[i]?
          = if i < m then (h._buffers_byte_among[i]?).map
              (fun _ => ((h.stream i).chunk h._compare_buffer_size).length)
            else h._buffers_byte_among[i]?)
      ∧ (∀ i, (forRange 0 m CmpFiles_CompareFiles.read h)._compare_buffers[i]?
          = if i < m then (h._compare_buffers[i]?).map
              (fun b => (h.stream i).chunk h._compare_buffer_size
                ++ b.drop ((h.stream i).chunk h._compare_buffer_size).length)
            else h._compare_buffers[i]?) := by
  intro m
  induction m with
  | zero =>
      rw [forRange_empty 0 0 (Nat.le_refl 0)]
      simp
  | succ m ih =>
      rw [forRange_succ 0 m (Nat.zero_le m)]
      generalize forRange 0 m CmpFiles_CompareFiles.read h = g at ih
      obtain ⟨e1, e2, e3, e4, e5, e6, e7, p1, p2, p3⟩ := ih
      have hs : g._filestreams.getD m FILE.absent = h.stream m := by
        simp only [FilesToCompare.stream, List.getD_eq_getElem?_getD, p1 m, Nat.lt_irrefl,
          if_false]
      have hb : g._compare_buffers.getD m [] = h._compare_buffers.getD m [] := by
        simp only [List.getD_eq_getElem?_getD, p3 m, Nat.lt_irrefl, if_false]
      simp only [CmpFiles_CompareFiles.read, fread_eq, hs, hb, e2, List.length_set]
      refine ⟨e1, trivial, e3, e4, e5, e6, e7, ?_, ?_, ?_⟩
      · apply set_pointwise _ _ _ (fun _ s => FILE.advance h._compare_buffer_size s) _ e5 p1
        intro x hx
        simp [FilesToCompare.stream, hx]
      · apply set_pointwise _ _ _
          (fun i _ => ((h.stream i).chunk h._compare_buffer_size).length) _ e6 p2
        intro x _
        rfl
      · apply set_pointwise _ _ _
          (fun i b => (h.stream i).chunk h._compare_buffer_size
            ++ b.drop ((h.stream i).chunk h._compare_buffer_size).length) _ e7 p3
        intro x hx
        simp [hx]

theorem readAll_fields (h : FilesToCompare) :
    h.readAll._number_of_filestreams = h._number_of_filestreams
      ∧ h.readAll._compare_buffer_size = h._compare_buffer_size
      ∧ h.readAll._filepaths = h._filepaths
      ∧ h.readAll._combinations_handler = h._combinations_handler
      ∧ h.readAll._filestreams.length = h._filestreams.length
      ∧ h.readAll._buffers_byte_among.length = h._buffers_byte_among.length
      ∧ h.readAll._compare_buffers.length = h._compare_buffers.length := by
  obtain ⟨e1, e2, e3, e4, e5, e6, e7, _⟩ := read_loop h h._number_of_filestreams
  exact ⟨e1, e2, e3, e4, e5, e6, e7⟩

theorem readAll_stream (h : FilesToCompare) (hw : h.WF) (i : Nat)
    (hi : i < h._number_of_filestreams) :
    h.readAll.stream i = (h.stream i).advance h._compare_buffer_size := by
  obtain ⟨_, _, _, _, _, _, _, p1, _, _⟩ := read_loop h h._number_of_filestreams
  have hl : i < h._filestreams.length := by rw [hw.1]; exact hi
  simp only [FilesToCompare.stream, FilesToCompare.readAll, List.getD_eq_getElem?_getD, p1 i, hi,
    if_true, List.getElem?_eq_getElem hl, Option.map_some', Option.getD_some]

theorem readAll_count (h : FilesToCompare) (hw : h.WF) (i : Nat)
    (hi : i < h._number_of_filestreams) :
    h.readAll._buffers_byte_among.getD i 0
      = ((h.stream i).chunk h._compare_buffer_size).length := by
  obtain ⟨_, _, _, _, _, _, _, _, p2, _⟩ := read_loop h h._number_of_filestreams
  have hl : i < h._buffers_byte_among.length := by rw [hw.2.2.1]; exact hi
  simp only [FilesToCompare.readAll, List.getD_eq_getElem?_getD, p2 i, hi,
    if_true, List.getElem?_eq_getElem hl, Option.map_some', Option.getD_some]

theorem readAll_buffer (h : FilesToCompare) (hw : h.WF) (i : Nat)
    (hi : i < h._number_of_filestreams) :
    h.readAll._compare_buffers.getD i []
      = (h.stream i).chunk h._compare_buffer_size
        ++ (h._compare_buffers.getD i []).drop
          ((h.stream i).chunk h._compare_buffer_size).length := by
  obtain ⟨_, _, _, _, _, _, _, _, _, p3⟩ := read_loop h h._number_of_filestreams
  have hl : i < h._compare_buffers.length := by rw [hw.2.1]; exact hi
  simp only [FilesToCompare.readAll, List.getD_eq_getElem?_getD, p3 i, hi,
    if_true, List.getElem?_eq_getElem hl, Option.map_some', Option.getD_some]

theorem chunk_length_le (cap : Nat) (s : FILE) : (s.chunk cap).length ≤ cap := by
  unfold FILE.chunk
  split_ifs
  · simp
  · simp only [List.length_take]; omega

theorem readAll_buffer_sizes (h : FilesToCompare) (hw : h.WF) :
    ∀ b ∈ h.readAll._compare_buffers, b.length = h._compare_buffer_size := by
  intro b hb
  obtain ⟨_, _, _, _, _, _, e7, _, _, p3⟩ := read_loop h h._number_of_filestreams
  obtain ⟨i, hi, rfl⟩ := List.getElem_of_mem hb
  have hi0 : i < h._compare_buffers.length := by
    have : h.readAll._compare_buffers.length = h._compare_buffers.length := e7
    omega
  have hiN : i < h._number_of_filestreams := by rw [← hw.2.1]; exact hi0
  have e := p3 i
  rw [if_pos hiN, List.getElem?_eq_getElem hi0, Option.map_some'] at e
  have e2 : h.readAll._compare_buffers[i]? = some (h.readAll._compare_buffers[i]) :=
    List.getElem?_eq_getElem hi
  have e3 : (forRange 0 h._number_of_filestreams CmpFiles_CompareFiles.read h)._compare_buffers[i]?
      = h.readAll._compare_buffers[i]? := rfl
  rw [e3, e2] at e
  rw [Option.some.inj e]
  have hlen := hw.2.2.2.1 _ (List.getElem_mem hi0)
  have hc := chunk_length_le h._compare_buffer_size (h.stream i)
  simp only [List.length_append, List.length_drop, hlen]
  omega

theorem set_getD_self {α : Type} (xs : List α) (k : Nat) (d : α) :
    xs.set k (xs.getD k d) = xs := by
  apply List.ext_getElem?
  intro i
  rw [List.getElem?_set]
  by_cases hki : k = i
  · subst hki
    by_cases hk : k < xs.length
    · simp [hk, List.getElem?_eq_getElem hk]
    · simp [hk, List.getElem?_eq_none (Nat.le_of_not_lt hk)]
  · simp [hki]

theorem writeAt_readAt {α : Type} (p : Option (List α)) (k : Nat) (d : α) :
    writeAt p k (readAt p k d) = p := by
  cases p with
  | none => rfl
  | some xs =>
      simp only [writeAt, readAt, Option.map_some', Option.getD_some, Option.some.injEq]
      exact set_getD_self xs k d

theorem setMatchState_self (g : FilesToCompare) (k : Nat) :
    g.setMatchState k (g.verdictAt k) = g := by
  simp only [FilesToCompare.setMatchState, FilesToCompare.verdictAt,
    CompareCombinations.verdictAt, writeAt_readAt]

theorem compare_eq (k : Nat) (s : RoundState) :
    CmpFiles_CompareFiles.compare k s
      = { handler := s.handler.setMatchState k (s.handler.judgeAt k)
          skipped_combinations := s.skipped_combinations + (if s.handler.skipsAt k then 1 else 0)
          finished_combinations :=
            s.finished_combinations + (if s.handler.finishesAt k then 1 else 0) } := by
  have hself := setMatchState_self s.handler k
  cases s with
  | mk g sk fin =>
  simp only at hself
  simp only [CmpFiles_CompareFiles.compare, FilesToCompare.judgeAt, FilesToCompare.skipsAt,
    FilesToCompare.finishesAt, judge, finishes, FilesToCompare.verdictAt,
    CompareCombinations.verdictAt, FilesToCompare.pairAt, CompareCombinations.pairAt,
    FilesToCompare.stream] at hself ⊢
  split_ifs <;> simp_all

theorem judge_buffers (v : MatchState) (a b : FILE) (ca cb x y : List Byte) :
    judge v a b ca.length cb.length (ca ++ x) (cb ++ y) = judge v a b ca.length cb.length ca cb := by
  unfold judge
  by_cases hn : ca.length = cb.length
  · have e1 : List.take ca.length (ca ++ x) = ca := by simp
    have e2 : List.take ca.length (cb ++ y) = cb := by rw [hn]; simp
    have e3 : List.take ca.length cb = cb := by rw [hn]; simp
    simp only [memcmpDiffers, e1, e2, e3, List.take_length]
  · simp [hn]

theorem withStates_setMatchState (g : FilesToCompare) (ms : List MatchState) (k : Nat)
    (v : MatchState) :
    (g.withStates ms).setMatchState k v = g.withStates (ms.set k v) := rfl

theorem withStates_judgeAt (g : FilesToCompare) (ms0 ms : List MatchState) (k : Nat)
    (h0 : g._combinations_handler._match_states = some ms0) (hk : ms[k]? = ms0[k]?) :
    (g.withStates ms).judgeAt k = g.judgeAt k
      ∧ (g.withStates ms).skipsAt k = g.skipsAt k
      ∧ (g.withStates ms).finishesAt k = g.finishesAt k := by
  have hv : (g.withStates ms).verdictAt k = g.verdictAt k := by
    simp only [FilesToCompare.verdictAt, CompareCombinations.verdictAt, readAt,
      FilesToCompare.withStates, h0, Option.getD_some, List.getD_eq_getElem?_getD, hk]
  refine ⟨?_, ?_, ?_⟩
  · simp only [FilesToCompare.judgeAt, hv]; rfl
  · simp only [FilesToCompare.skipsAt, hv]
  · simp only [FilesToCompare.finishesAt, hv]; rfl

theorem pair_loop (g : FilesToCompare) (ms : List MatchState)
    (h0 : g._combinations_handler._match_states = some ms) :
    ∀ m, ∃ ms', (forRange 0 m CmpFiles_CompareFiles.compare
            { handler := g, skipped_combinations := 0, finished_combinations := 0 }).handler
          = g.withStates ms'
      ∧ ms'.length = ms.length
      ∧ (∀ k, ms'[k]? = if k < m then (ms[k]?).map (fun _ => g.judgeAt k) else ms[k]?)
      ∧ (forRange 0 m CmpFiles_CompareFiles.compare
            { handler := g, skipped_combinations := 0, finished_combinations := 0 }).skipped_combinations
          = (List.range m).countP g.skipsAt
      ∧ (forRange 0 m CmpFiles_CompareFiles.compare
            { handler := g, skipped_combinations := 0, finished_combinations := 0 }).finished_combinations
          = (List.range m).countP g.finishesAt := by
  intro m
  induction m with
  | zero =>
      rw [forRange_empty 0 0 (Nat.le_refl 0)]
      refine ⟨ms, ?_, rfl, by simp, by simp, by simp⟩
      cases g with
      | mk a b c d e f cc =>
          cases cc with
          | mk x y z u v =>
              simp only at h0
              simp [FilesToCompare.withStates, h0]
  | succ m ih =>
      rw [forRange_succ 0 m (Nat.zero_le m)]
      generalize forRange 0 m CmpFiles_CompareFiles.compare _ = s at ih
      obtain ⟨ms1, e1, e2, e3, e4, e5⟩ := ih
      have hm : ms1[m]? = ms[m]? := by rw [e3 m, if_neg (Nat.lt_irrefl m)]
      obtain ⟨j1, j2, j3⟩ := withStates_judgeAt g ms ms1 m h0 hm
      rw [compare_eq, e1, j1, j2, j3, withStates_setMatchState]
      refine ⟨_, rfl, by simpa using e2, ?_, ?_, ?_⟩
      · apply set_pointwise ms ms1 m (fun k _ => g.judgeAt k) _ e2 e3
        intro x _
        rfl
      · simp only [e4, List.range_succ, List.countP_append, List.countP_singleton]
      · simp only [e5, List.range_succ, List.countP_append, List.countP_singleton]

theorem countP_disjoint {α : Type} (p q : α → Bool) :
    ∀ L : List α, (∀ x ∈ L, ¬ (p x = true ∧ q x = true)) →
      L.countP q + L.countP p ≤ L.length
        ∧ (L.countP q + L.countP p = L.length ↔ ∀ x ∈ L, p x = true ∨ q x = true) := by
  intro L
  induction L with
  | nil => intro _; simp
  | cons x L ih =>
      intro hd
      obtain ⟨h1, h2⟩ := ih (fun y hy => hd y (List.mem_cons_of_mem x hy))
      have hx := hd x (List.mem_cons_self x L)
      simp only [List.countP_cons, List.length_cons, List.mem_cons, forall_eq_or_imp]
      cases hp : p x <;> cases hq : q x
      · simp only [Bool.false_eq_true, if_false, or_self, false_and, iff_false]
        exact ⟨by omega, by omega⟩
      · simp only [Bool.false_eq_true, if_false, if_true, or_true, true_and, ← h2]
        exact ⟨by omega, by omega⟩
      · simp only [Bool.false_eq_true, if_false, if_true, true_or, true_and, ← h2]
        exact ⟨by omega, by omega⟩
      · exact absurd ⟨hp, hq⟩ hx

theorem WF_states (h : FilesToCompare) (hw : h.WF) :
    ∃ ms, h._combinations_handler._match_states = some ms
      ∧ ms.length = h._combinations_handler._among_of_combinations := by
  have h7 := hw.2.2.2.2.2.2.1
  cases hm : h._combinations_handler._match_states with
  | none => rw [hm] at h7; simp at h7
  | some ms => rw [hm] at h7; exact ⟨ms, rfl, by simpa using h7⟩

theorem round_summary (h : FilesToCompare) (hw : h.WF) :
    ∃ ms', (CmpFiles_CompareFiles.round h._combinations_handler._among_of_combinations h).handler
          = h.readAll.withStates ms'
      ∧ ms'.length = h._combinations_handler._among_of_combinations
      ∧ (∀ k < h._combinations_handler._among_of_combinations,
          ms'.getD k MatchState.UNKNOWN = h.readAll.judgeAt k)
      ∧ (CmpFiles_CompareFiles.round
            h._combinations_handler._among_of_combinations h).skipped_combinations
          = (List.range h._combinations_handler._among_of_combinations).countP h.readAll.skipsAt
      ∧ (CmpFiles_CompareFiles.round
            h._combinations_handler._among_of_combinations h).finished_combinations
          = (List.range h._combinations_handler._among_of_combinations).countP
              h.readAll.finishesAt := by
  obtain ⟨ms, hms, hlen⟩ := WF_states h hw
  have hcc : h.readAll._combinations_handler = h._combinations_handler :=
    (readAll_fields h).2.2.2.1
  obtain ⟨ms', e1, e2, e3, e4, e5⟩ := pair_loop h.readAll ms (by rw [hcc]; exact hms)
    h._combinations_handler._among_of_combinations
  refine ⟨ms', e1, by omega, ?_, e4, e5⟩
  intro k hk
  have hk2 : k < ms.length := by omega
  rw [List.getD_eq_getElem?_getD, e3 k, if_pos hk, List.getElem?_eq_getElem hk2]
  rfl

theorem readAll_judgeAt (h : FilesToCompare) (hw : h.WF) (k : Nat)
    (hk : k < h._combinations_handler._among_of_combinations) :
    h.readAll.judgeAt k
        = verdictStep h._compare_buffer_size (h.verdictAt k) (h.stream (h.pairAt k).1)
            (h.stream (h.pairAt k).2)
      ∧ h.readAll.skipsAt k = decide (h.verdictAt k = MatchState.NOT_MATCHED)
      ∧ h.readAll.finishesAt k
        = finishStep h._compare_buffer_size (h.verdictAt k) (h.stream (h.pairAt k).1)
            (h.stream (h.pairAt k).2) := by
  have hcc : h.readAll._combinations_handler = h._combinations_handler :=
    (readAll_fields h).2.2.2.1
  have hp : h.readAll.pairAt k = h.pairAt k := by
    simp only [FilesToCompare.pairAt, hcc]
  have hv : h.readAll.verdictAt k = h.verdictAt k := by
    simp only [FilesToCompare.verdictAt, hcc]
  obtain ⟨ha, hb⟩ := hw.2.2.2.2.2.2.2 k hk
  simp only [FilesToCompare.judgeAt, FilesToCompare.skipsAt, FilesToCompare.finishesAt, hp, hv,
    readAll_stream h hw _ ha, readAll_stream h hw _ hb, readAll_count h hw _ ha,
    readAll_count h hw _ hb, readAll_buffer h hw _ ha, readAll_buffer h hw _ hb, judge_buffers,
    verdictStep, finishStep]
  exact ⟨trivial, trivial, trivial⟩

theorem roundStep_spec (h : FilesToCompare) (hw : h.WF) :
    h.roundStep.WF
      ∧ h.roundStep._number_of_filestreams = h._number_of_filestreams
      ∧ h.roundStep._compare_buffer_size = h._compare_buffer_size
      ∧ h.roundStep._combinations_handler._among_of_combinations
          = h._combinations_handler._among_of_combinations
      ∧ (∀ k, h.roundStep.pairAt k = h.pairAt k)
      ∧ (∀ i < h._number_of_filestreams,
          h.roundStep.stream i = (h.stream i).advance h._compare_buffer_size)
      ∧ (∀ k < h._combinations_handler._among_of_combinations,
          h.roundStep.verdictAt k
            = verdictStep h._compare_buffer_size (h.verdictAt k) (h.stream (h.pairAt k).1)
                (h.stream (h.pairAt k).2)) := by
  obtain ⟨ms', e1, e2, e3, _, _⟩ := round_summary h hw
  obtain ⟨f1, f2, _, f4, f5, f6, f7⟩ := readAll_fields h
  have hr : h.roundStep = h.readAll.withStates ms' := e1
  have hp : ∀ k, h.roundStep.pairAt k = h.pairAt k := by
    intro k
    rw [hr]
    simp only [FilesToCompare.pairAt, FilesToCompare.withStates, CompareCombinations.pairAt, f4]
  have hN : h.roundStep._number_of_filestreams = h._number_of_filestreams := by
    rw [hr]; exact f1
  have hc : h.roundStep._combinations_handler._among_of_combinations
      = h._combinations_handler._among_of_combinations := by
    rw [hr]; simp only [FilesToCompare.withStates, f4]
  refine ⟨?_, hN, ?_, hc, hp, ?_, ?_⟩
  · obtain ⟨w1, w2, w3, _, w5, w6, _, w8⟩ := hw
    refine ⟨?_, ?_, ?_, ?_, ?_, ?_, ?_, ?_⟩
    · rw [hN, hr]; exact f5.trans w1
    · rw [hN, hr]; exact f7.trans w2
    · rw [hN, hr]; exact f6.trans w3
    · rw [hr]
      intro b hb
      have := readAll_buffer_sizes h ⟨w1, w2, w3, ‹_›, w5, w6, ‹_›, w8⟩ b hb
      rw [this]
      exact f2.symm
    · rw [hr]; simp only [FilesToCompare.withStates, f4]; exact w5
    · rw [hr]; simp only [FilesToCompare.withStates, f4]; exact w6
    · rw [hr]; simp only [FilesToCompare.withStates, f4, Option.map_some', e2]
    · intro k hk
      rw [hp k, hN]
      exact w8 k (by rw [← hc]; exact hk)
  · rw [hr]; exact f2
  · intro i hi
    rw [hr]
    exact readAll_stream h hw i hi
  · intro k hk
    rw [← (readAll_judgeAt h hw k hk).1, ← e3 k hk, hr]
    simp only [FilesToCompare.verdictAt, CompareCombinations.verdictAt, readAt,
      FilesToCompare.withStates, Option.getD_some]

theorem exits_iff (h : FilesToCompare) (hw : h.WF) :
    h.exits ↔ ∀ k < h._combinations_handler._among_of_combinations,
      h.verdictAt k = MatchState.NOT_MATCHED
        ∨ finishStep h._compare_buffer_size (h.verdictAt k) (h.stream (h.pairAt k).1)
            (h.stream (h.pairAt k).2) = true := by
  obtain ⟨ms', _, _, _, e4, e5⟩ := round_summary h hw
  have hd : ∀ k ∈ List.range h._combinations_handler._among_of_combinations,
      ¬ (h.readAll.skipsAt k = true ∧ h.readAll.finishesAt k = true) := by
    intro k hk
    rw [List.mem_range] at hk
    obtain ⟨_, j2, j3⟩ := readAll_judgeAt h hw k hk
    rw [j2, j3]
    simp only [finishStep, finishes, decide_eq_true_eq]
    tauto
  have hcount := (countP_disjoint h.readAll.skipsAt h.readAll.finishesAt _ hd).2
  unfold FilesToCompare.exits
  rw [e4, e5, List.length_range] at *
  rw [hcount]
  constructor
  · intro hall k hk
    obtain ⟨_, j2, j3⟩ := readAll_judgeAt h hw k hk
    have := hall k (List.mem_range.mpr hk)
    rw [j2, j3] at this
    simpa using this
  · intro hall k hk
    rw [List.mem_range] at hk
    obtain ⟨_, j2, j3⟩ := readAll_judgeAt h hw k hk
    rw [j2, j3]
    simpa using hall k hk

theorem skipped_zero_iff (h : FilesToCompare) (hw : h.WF) :
    (CmpFiles_CompareFiles.round
        h._combinations_handler._among_of_combinations h).skipped_combinations = 0
      ↔ ∀ k < h._combinations_handler._among_of_combinations,
        h.verdictAt k ≠ MatchState.NOT_MATCHED := by
  obtain ⟨ms', _, _, _, e4, _⟩ := round_summary h hw
  rw [e4, List.countP_eq_zero]
  constructor
  · intro hall k hk
    obtain ⟨_, j2, _⟩ := readAll_judgeAt h hw k hk
    have := hall k (List.mem_range.mpr hk)
    rw [j2] at this
    simpa using this
  · intro hall k hk
    rw [List.mem_range] at hk
    obtain ⟨_, j2, _⟩ := readAll_judgeAt h hw k hk
    rw [j2]
    simpa using hall k hk

/-! ## The rounds of a run -/

theorem rounds_succ (h : FilesToCompare) (j : Nat) :
    h.rounds (j + 1) = (h.rounds j).roundStep :=
  Function.iterate_succ_apply' _ _ _

theorem rounds_succ_left (h : FilesToCompare) (j : Nat) :
    h.rounds (j + 1) = h.roundStep.rounds j :=
  Function.iterate_succ_apply _ _ _

theorem rounds_spec (h : FilesToCompare) (hw : h.WF) :
    ∀ j, (h.rounds j).WF
      ∧ (h.rounds j)._number_of_filestreams = h._number_of_filestreams
      ∧ (h.rounds j)._compare_buffer_size = h._compare_buffer_size
      ∧ (h.rounds j)._combinations_handler._among_of_combinations
          = h._combinations_handler._among_of_combinations
      ∧ (∀ k, (h.rounds j).pairAt k = h.pairAt k)
      ∧ (∀ i < h._number_of_filestreams,
          (h.rounds j).stream i = (FILE.advance h._compare_buffer_size)^[j] (h.stream i))
      ∧ (∀ k < h._combinations_handler._among_of_combinations,
          ((h.rounds j).verdictAt k, (h.rounds j).stream (h.pairAt k).1,
              (h.rounds j).stream (h.pairAt k).2)
            = (pairStep h._compare_buffer_size)^[j]
                (h.verdictAt k, h.stream (h.pairAt k).1, h.stream (h.pairAt k).2)) := by
  intro j
  induction j with
  | zero => exact ⟨hw, rfl, rfl, rfl, fun _ => rfl, fun _ _ => rfl, fun _ _ => rfl⟩
  | succ j ih =>
      obtain ⟨i1, i2, i3, i4, i5, i6, i7⟩ := ih
      obtain ⟨r1, r2, r3, r4, r5, r6, r7⟩ := roundStep_spec (h.rounds j) i1
      rw [rounds_succ]
      refine ⟨r1, r2.trans i2, r3.trans i3, r4.trans i4, fun k => (r5 k).trans (i5 k), ?_, ?_⟩
      · intro i hi
        rw [r6 i (by rw [i2]; exact hi), i6 i hi, i3, Function.iterate_succ_apply']
      · intro k hk
        obtain ⟨ha, hb⟩ := hw.2.2.2.2.2.2.2 k hk
        rw [Function.iterate_succ_apply', ← i7 k hk]
        simp only [pairStep]
        rw [r7 k (by rw [i4]; exact hk), r6 _ (by rw [i2]; exact ha),
          r6 _ (by rw [i2]; exact hb), i5 k, i3]

theorem doWhile_succ (h : FilesToCompare) (fuel : Nat) :
    CmpFiles_CompareFiles.doWhile h._combinations_handler._among_of_combinations (fuel + 1) h
      = if h.exits then
          some ((CmpFiles_CompareFiles.round
            h._combinations_handler._among_of_combinations h).skipped_combinations == 0,
            h.roundStep)
        else
          CmpFiles_CompareFiles.doWhile h._combinations_handler._among_of_combinations fuel
            h.roundStep := by
  simp only [CmpFiles_CompareFiles.doWhile, FilesToCompare.exits, FilesToCompare.roundStep]
  split_ifs <;> simp_all

theorem doWhile_some (c : Nat) :
    ∀ fuel (h : FilesToCompare) (b : Bool) (h' : FilesToCompare), h.WF →
      h._combinations_handler._among_of_combinations = c →
      CmpFiles_CompareFiles.doWhile c fuel h = some (b, h') →
      ∃ j, j < fuel ∧ (h.rounds j).exits ∧ (∀ i < j, ¬ (h.rounds i).exits)
        ∧ h' = h.rounds (j + 1)
        ∧ b = ((CmpFiles_CompareFiles.round c (h.rounds j)).skipped_combinations == 0) := by
  intro fuel
  induction fuel with
  | zero => intro h b h' _ _ hd; simp [CmpFiles_CompareFiles.doWhile] at hd
  | succ fuel ih =>
      intro h b h' hw hc hd
      subst hc
      rw [doWhile_succ] at hd
      by_cases he : h.exits
      · rw [if_pos he] at hd
        simp only [Option.some.injEq, Prod.mk.injEq] at hd
        exact ⟨0, Nat.succ_pos _, he, fun i hi => absurd hi (Nat.not_lt_zero i), hd.2.symm,
          hd.1.symm⟩
      · rw [if_neg he] at hd
        obtain ⟨r1, _, _, r4, _⟩ := roundStep_spec h hw
        obtain ⟨j, j1, j2, j3, j4, j5⟩ := ih h.roundStep b h' r1 r4 hd
        refine ⟨j + 1, by omega, ?_, ?_, ?_, ?_⟩
        · rw [rounds_succ_left]; exact j2
        · intro i hi
          cases i with
          | zero => exact he
          | succ i => rw [rounds_succ_left]; exact j3 i (by omega)
        · rw [rounds_succ_left]; exact j4
        · rw [rounds_succ_left]; exact j5

theorem doWhile_of_exits (c : Nat) :
    ∀ fuel (h : FilesToCompare), h.WF →
      h._combinations_handler._among_of_combinations = c →
      (∃ j, j < fuel ∧ (h.rounds j).exits) →
      ∃ b h', CmpFiles_CompareFiles.doWhile c fuel h = some (b, h') := by
  intro fuel
  induction fuel with
  | zero => intro h _ _ ⟨j, hj, _⟩; exact absurd hj (Nat.not_lt_zero j)
  | succ fuel ih =>
      intro h hw hc ⟨j, hj, he⟩
      subst hc
      rw [doWhile_succ]
      by_cases he0 : h.exits
      · rw [if_pos he0]; exact ⟨_, _, rfl⟩
      · rw [if_neg he0]
        obtain ⟨r1, _, _, r4, _⟩ := roundStep_spec h hw
        cases j with
        | zero => exact absurd he he0
        | succ j =>
            rw [rounds_succ_left] at he
            exact ih h.roundStep r1 r4 ⟨j, by omega, he⟩

/-! ## One stream and one pair through the rounds -/

theorem advance_of_eof (cap : Nat) (s : FILE) (h : s.eof = true) :
    s.advance cap = s ∧ s.chunk cap = [] := by
  simp [FILE.advance, FILE.chunk, h]

theorem need_advance (cap : Nat) (hc : 0 < cap) (s : FILE) :
    (s.advance cap).need cap ≤ s.need cap - 1 := by
  unfold FILE.need FILE.advance
  by_cases he : s.eof = true
  · simp [he]
  · by_cases hr : s.err = true
    · simp [he, hr]
    · simp only [he, hr, if_false, or_self, Bool.false_or]
      by_cases hp : s.pending.length < cap
      · have : (List.take cap s.pending).length < cap := by
          simp only [List.length_take]; omega
        cases hf : s.faulty <;> simp [this, hp]
      · have hlen : (List.take cap s.pending).length = cap := by
          simp only [List.length_take]; omega
        have hd : s.pending.length / cap = (s.pending.length - cap) / cap + 1 := by
          have e : s.pending.length = (s.pending.length - cap) + cap := by omega
          conv_lhs => rw [e]
          exact Nat.add_div_right _ hc
        simp only [hlen, Nat.lt_irrefl, decide_False, Bool.false_and, Bool.false_eq_true,
          or_self, if_false, List.length_drop]
        omega

theorem need_iterate (cap : Nat) (hc : 0 < cap) (s : FILE) :
    ∀ j, ((FILE.advance cap)^[j] s).need cap ≤ s.need cap - j := by
  intro j
  induction j with
  | zero => exact Nat.le_refl _
  | succ j ih =>
      rw [Function.iterate_succ_apply']
      have := need_advance cap hc ((FILE.advance cap)^[j] s)
      omega

theorem flagged_of_need_zero (cap : Nat) (s : FILE) (h : s.need cap = 0) :
    s.eof = true ∨ s.err = true := by
  unfold FILE.need at h
  split_ifs at h with h1
  · exact h1

theorem le_foldr_max (l : List Nat) (x : Nat) (hx : x ∈ l) : x ≤ l.foldr max 0 := by
  induction l with
  | nil => simp at hx
  | cons y l ih =>
      simp only [List.foldr_cons]
      rcases List.mem_cons.mp hx with rfl | h
      · exact Nat.le_max_left _ _
      · exact Nat.le_trans (ih h) (Nat.le_max_right _ _)

theorem stream_need_le (h : FilesToCompare) (hw : h.WF) (i : Nat)
    (hi : i < h._number_of_filestreams) :
    (h.stream i).need h._compare_buffer_size ≤ h.need := by
  have hl : i < h._filestreams.length := by rw [hw.1]; exact hi
  apply le_foldr_max
  rw [List.mem_map]
  refine ⟨h._filestreams[i], List.getElem_mem hl, ?_⟩
  simp [FilesToCompare.stream, List.getElem?_eq_getElem hl]

theorem verdictStep_NOT_MATCHED (cap : Nat) (a b : FILE) :
    verdictStep cap MatchState.NOT_MATCHED a b = MatchState.NOT_MATCHED := by
  simp [verdictStep, judge]

theorem verdictStep_of_err (cap : Nat) (v : MatchState) (a b : FILE)
    (h : (a.advance cap).err = true ∨ (b.advance cap).err = true) :
    verdictStep cap v a b = MatchState.NOT_MATCHED := by
  unfold verdictStep judge ferror
  rcases h with h | h <;> simp [h]

theorem verdictStep_no_err (cap : Nat) (v : MatchState) (a b : FILE)
    (h : verdictStep cap v a b ≠ MatchState.NOT_MATCHED) :
    (a.advance cap).err = false ∧ (b.advance cap).err = false := by
  constructor
  · cases he : (a.advance cap).err
    · rfl
    · exact absurd (verdictStep_of_err cap v a b (Or.inl he)) h
  · cases he : (b.advance cap).err
    · rfl
    · exact absurd (verdictStep_of_err cap v a b (Or.inr he)) h

theorem verdictStep_of_finish (cap : Nat) (v : MatchState) (a b : FILE)
    (h : finishStep cap v a b = true) : verdictStep cap v a b = MatchState.MATCHED := by
  simp only [finishStep, finishes, decide_eq_true_eq] at h
  obtain ⟨h1, h2, h3, h4, h5, h6, h7, h8⟩ := h
  have h9 : (FILE.chunk cap b).length = 0 := by omega
  simp [verdictStep, judge, h1, h2, h3, h6, h7, h8, h9]

theorem finishStep_of_eof (cap : Nat) (v : MatchState) (a b : FILE)
    (hv : v ≠ MatchState.NOT_MATCHED) (ha : a.eof = true) (hb : b.eof = true)
    (hae : a.err = false) (hbe : b.err = false) : finishStep cap v a b = true := by
  obtain ⟨a1, a2⟩ := advance_of_eof cap a ha
  obtain ⟨b1, b2⟩ := advance_of_eof cap b hb
  simp [finishStep, finishes, a1, a2, b1, b2, hv, feof, ferror, ha, hb, hae, hbe]

theorem verdictStep_MATCHED_stays (cap : Nat) (a b : FILE) (ha : a.eof = true)
    (hb : b.eof = true) (hae : a.err = false) (hbe : b.err = false) :
    verdictStep cap MatchState.MATCHED a b = MatchState.MATCHED :=
  verdictStep_of_finish cap _ a b
    (finishStep_of_eof cap _ a b (by decide) ha hb hae hbe)

theorem verdictStep_MATCHED_inv (cap : Nat) (v : MatchState) (a b : FILE)
    (h : verdictStep cap v a b = MatchState.MATCHED) :
    v = MatchState.MATCHED
      ∨ ((a.advance cap).eof = true ∧ (b.advance cap).eof = true
        ∧ (a.advance cap).err = false ∧ (b.advance cap).err = false) := by
  unfold verdictStep judge feof ferror at h
  split_ifs at h <;> simp_all

theorem clean_advance (cap : Nat) (hc : 0 < cap) (s : FILE) (h : s.clean) :
    (s.advance cap).clean
      ∧ s.pending = s.chunk cap ++ (s.advance cap).pending
      ∧ ((s.advance cap).eof = true ↔ (s.chunk cap).length < cap)
      ∧ (s.advance cap).err = false := by
  obtain ⟨h1, h2, h3⟩ := h
  unfold FILE.clean FILE.advance FILE.chunk
  by_cases he : s.eof = true
  · simp [he, h1, h2, h3 he, hc]
  · have he2 : s.eof = false := by simpa using he
    simp only [he2, Bool.false_eq_true, if_false, h1, h2, Bool.not_false, Bool.and_true,
      Bool.and_false, Bool.or_false, decide_eq_true_eq, List.take_append_drop, List.length_take,
      true_and, and_true]
    intro hlt
    exact List.drop_eq_nil_of_le (by omega)

theorem FILE_eq_of_clean (a b : FILE) (ha : a.clean) (hb : b.clean)
    (hp : a.pending = b.pending) (he : a.eof = b.eof) : a = b := by
  obtain ⟨a1, a2, _⟩ := ha
  obtain ⟨b1, b2, _⟩ := hb
  cases a; cases b
  simp_all

theorem verdictStep_comm (cap : Nat) (v : MatchState) (a b : FILE) :
    verdictStep cap v a b = verdictStep cap v b a := by
  unfold verdictStep judge memcmpDiffers feof ferror
  by_cases h1 : v = MatchState.NOT_MATCHED
  · simp [h1]
  · by_cases h2 : (a.advance cap).err = true
    · by_cases h3 : (b.advance cap).err = true <;> simp [h1, h2, h3]
    · by_cases h3 : (b.advance cap).err = true
      · simp [h1, h2, h3]
      · by_cases h4 : (a.advance cap).eof = (b.advance cap).eof
        · by_cases h5 : (a.chunk cap).length = (b.chunk cap).length
          · simp only [h1, h2, h3, h4, h5, if_false, ne_eq, not_true_eq_false, List.take_length]
            have e : List.take (b.chunk cap).length (a.chunk cap) = a.chunk cap := by
              rw [← h5]; exact List.take_length _
            rw [e]
            by_cases h6 : a.chunk cap = b.chunk cap
            · simp [h6]
            · have h7 : ¬ b.chunk cap = a.chunk cap := fun h => h6 h.symm
              simp [h6, h7]
          · have h5' : ¬ (b.chunk cap).length = (a.chunk cap).length := fun h => h5 h.symm
            simp [h1, h2, h3, h4, h5, h5']
        · have h4' : ¬ (b.advance cap).eof = (a.advance cap).eof := fun h => h4 h.symm
          simp [h1, h2, h3, h4, h4']

theorem MatchedAtEnd_step (cap : Nat) (p : MatchState × FILE × FILE) (h : MatchedAtEnd p) :
    MatchedAtEnd (pairStep cap p)
      ∧ (p.1 ≠ MatchState.UNKNOWN → (pairStep cap p).1 = p.1) := by
  obtain ⟨v, a, b⟩ := p
  simp only [MatchedAtEnd, pairStep] at h ⊢
  refine ⟨?_, ?_⟩
  · intro hm
    rcases verdictStep_MATCHED_inv cap v a b hm with hv | hpost
    · obtain ⟨h1, h2, h3, h4⟩ := h hv
      rw [(advance_of_eof cap a h1).1, (advance_of_eof cap b h2).1]
      exact ⟨h1, h2, h3, h4⟩
    · exact hpost
  · intro hv
    cases v with
    | UNKNOWN => exact absurd rfl hv
    | NOT_MATCHED => exact verdictStep_NOT_MATCHED cap a b
    | MATCHED =>
        obtain ⟨h1, h2, h3, h4⟩ := h rfl
        exact verdictStep_MATCHED_stays cap a b h1 h2 h3 h4

theorem MatchedAtEnd_iterate (cap : Nat) (p : MatchState × FILE × FILE) (h : MatchedAtEnd p) :
    ∀ j, MatchedAtEnd ((pairStep cap)^[j] p)
      ∧ ∀ n, ((pairStep cap)^[j] p).1 ≠ MatchState.UNKNOWN →
          ((pairStep cap)^[j + n] p).1 = ((pairStep cap)^[j] p).1 := by
  have hinv : ∀ j, MatchedAtEnd ((pairStep cap)^[j] p) := by
    intro j
    induction j with
    | zero => exact h
    | succ j ih =>
        rw [Function.iterate_succ_apply']
        exact (MatchedAtEnd_step cap _ ih).1
  intro j
  refine ⟨hinv j, ?_⟩
  intro n
  induction n with
  | zero => intro _; rfl
  | succ n ih =>
      intro hd
      have e := ih hd
      rw [← Nat.add_assoc, Function.iterate_succ_apply',
        (MatchedAtEnd_step cap _ (hinv (j + n))).2 (by rw [e]; exact hd), e]

theorem memcmpDiffers_same_length (x y : List Byte) (h : x.length = y.length) :
    memcmpDiffers x y x.length = decide (x ≠ y) := by
  have e : List.take x.length y = y := by rw [h]; exact List.take_length y
  simp only [memcmpDiffers, List.take_length, e]

theorem verdictStep_UNKNOWN (cap : Nat) (a b : FILE) (ha : (a.advance cap).err = false)
    (hb : (b.advance cap).err = false) :
    verdictStep cap MatchState.UNKNOWN a b
      = if (a.advance cap).eof ≠ (b.advance cap).eof then MatchState.NOT_MATCHED
        else if (a.chunk cap).length ≠ (b.chunk cap).length then MatchState.NOT_MATCHED
        else if 0 < (a.chunk cap).length then
          (if a.chunk cap ≠ b.chunk cap then MatchState.NOT_MATCHED else MatchState.UNKNOWN)
        else if (a.advance cap).eof = true ∧ (b.advance cap).eof = true then MatchState.MATCHED
        else MatchState.NOT_MATCHED := by
  unfold verdictStep judge feof ferror
  rw [if_neg (by decide), ha, hb, if_neg (by decide), if_neg (by decide)]
  by_cases h4 : (a.advance cap).eof = (b.advance cap).eof
  · rw [if_neg (not_not.mpr h4), if_neg (not_not.mpr h4)]
    by_cases h5 : (a.chunk cap).length = (b.chunk cap).length
    · rw [if_neg (not_not.mpr h5), if_neg (not_not.mpr h5), memcmpDiffers_same_length _ _ h5]
      by_cases h6 : 0 < (a.chunk cap).length
      · rw [if_pos h6, if_pos h6]
        by_cases h7 : a.chunk cap = b.chunk cap
        · simp [h7]
        · simp [h7]
      · rw [if_neg h6, if_neg h6]
    · rw [if_pos h5, if_pos h5]
  · rw [if_pos h4, if_pos h4]

theorem PairCorrect_step (cap : Nat) (hc : 0 < cap) (A B : List Byte)
    (p : MatchState × FILE × FILE) (h : PairCorrect A B p) :
    PairCorrect A B (pairStep cap p) := by
  obtain ⟨v, a, b⟩ := p
  obtain ⟨ca, cb, hU, hM, hN⟩ := h
  simp only at ca cb hU hM hN
  obtain ⟨ca', pa, ea, ra⟩ := clean_advance cap hc a ca
  obtain ⟨cb', pb, eb, rb⟩ := clean_advance cap hc b cb
  cases v with
  | NOT_MATCHED =>
      refine ⟨ca', cb', ?_, ?_, ?_⟩ <;> simp only [pairStep, verdictStep_NOT_MATCHED] <;>
        intro hh
      · cases hh
      · cases hh
      · exact hN rfl
  | MATCHED =>
      obtain ⟨hAB, e1, e2⟩ := hM rfl
      have hv : verdictStep cap MatchState.MATCHED a b = MatchState.MATCHED :=
        verdictStep_MATCHED_stays cap a b e1 e2 ca.2.1 cb.2.1
      refine ⟨ca', cb', ?_, ?_, ?_⟩ <;> simp only [pairStep, hv] <;> intro hh
      · cases hh
      · rw [(advance_of_eof cap a e1).1, (advance_of_eof cap b e2).1]
        exact ⟨hAB, e1, e2⟩
      · cases hh
  | UNKNOWN =>
      obtain ⟨hAB, heq⟩ := hU rfl
      have key : A = B → a = b := fun hab => FILE_eq_of_clean a b ca cb (hAB.mp hab) heq
      have hv := verdictStep_UNKNOWN cap a b ra rb
      refine ⟨ca', cb', ?_⟩
      simp only [pairStep]
      by_cases h4 : (a.advance cap).eof = (b.advance cap).eof
      · by_cases h5 : (a.chunk cap).length = (b.chunk cap).length
        · by_cases h6 : 0 < (a.chunk cap).length
          · by_cases h7 : a.chunk cap = b.chunk cap
            · have hv2 : verdictStep cap MatchState.UNKNOWN a b = MatchState.UNKNOWN := by
                rw [hv, if_neg (not_not.mpr h4), if_neg (not_not.mpr h5), if_pos h6,
                  if_neg (not_not.mpr h7)]
              rw [hv2]
              refine ⟨fun _ => ⟨?_, h4⟩, (fun hh => by cases hh), (fun hh => by cases hh)⟩
              rw [hAB, pa, pb, h7]
              exact List.append_right_inj _
            · have hv2 : verdictStep cap MatchState.UNKNOWN a b = MatchState.NOT_MATCHED := by
                rw [hv, if_neg (not_not.mpr h4), if_neg (not_not.mpr h5), if_pos h6, if_pos h7]
              rw [hv2]
              refine ⟨(fun hh => by cases hh), (fun hh => by cases hh), fun _ hab => ?_⟩
              exact h7 (by rw [key hab])
          · have h6a : (a.chunk cap).length < cap := by omega
            have h6b : (b.chunk cap).length < cap := by omega
            have e1 := ea.mpr h6a
            have e2 := eb.mpr h6b
            have hv2 : verdictStep cap MatchState.UNKNOWN a b = MatchState.MATCHED := by
              rw [hv, if_neg (not_not.mpr h4), if_neg (not_not.mpr h5), if_neg h6,
                if_pos ⟨e1, e2⟩]
            rw [hv2]
            refine ⟨(fun hh => by cases hh), fun _ => ⟨?_, e1, e2⟩, (fun hh => by cases hh)⟩
            have n1 : a.chunk cap = [] := List.length_eq_zero.mp (by omega)
            have n2 : b.chunk cap = [] := List.length_eq_zero.mp (by omega)
            rw [hAB, pa, pb, n1, n2, ca'.2.2 e1, cb'.2.2 e2]
        · have hv2 : verdictStep cap MatchState.UNKNOWN a b = MatchState.NOT_MATCHED := by
            rw [hv, if_neg (not_not.mpr h4), if_pos h5]
          rw [hv2]
          refine ⟨(fun hh => by cases hh), (fun hh => by cases hh), fun _ hab => ?_⟩
          exact h5 (by rw [key hab])
      · have hv2 : verdictStep cap MatchState.UNKNOWN a b = MatchState.NOT_MATCHED := by
          rw [hv, if_pos h4]
        rw [hv2]
        refine ⟨(fun hh => by cases hh), (fun hh => by cases hh), fun _ hab => ?_⟩
        exact h4 (by rw [key hab])

theorem PairCorrect_iterate (cap : Nat) (hc : 0 < cap) (A B : List Byte)
    (p : MatchState × FILE × FILE) (h : PairCorrect A B p) :
    ∀ j, PairCorrect A B ((pairStep cap)^[j] p) := by
  intro j
  induction j with
  | zero => exact h
  | succ j ih =>
      rw [Function.iterate_succ_apply']
      exact PairCorrect_step cap hc A B _ ih

theorem PairCorrect_initial (a b : FILE) (ha : a.fresh) (hb : b.fresh) :
    PairCorrect a.pending b.pending (MatchState.UNKNOWN, a, b) := by
  obtain ⟨a1, a2, a3⟩ := ha
  obtain ⟨b1, b2, b3⟩ := hb
  refine ⟨⟨a1, a2, by simp [a3]⟩, ⟨b1, b2, by simp [b3]⟩, fun _ => ⟨Iff.rfl, by simp [a3, b3]⟩,
    (fun hh => by cases hh), (fun hh => by cases hh)⟩

theorem PairShorter_step (cap : Nat) (hc : 0 < cap) (p : MatchState × FILE × FILE)
    (h : PairShorter p) : PairShorter (pairStep cap p) := by
  obtain ⟨v, a, b⟩ := p
  rcases h with ⟨h, he⟩ | ⟨hv, ca, cb, ea, eb, t, ht, hp⟩
  · left
    simp only at h he
    simp only [pairStep, h, verdictStep_NOT_MATCHED, (advance_of_eof cap a he).1, he, and_self]
  · simp only at hv ca cb ea eb hp
    subst hv
    obtain ⟨ca', _, fa, ra⟩ := clean_advance cap hc a ca
    obtain ⟨cb', _, fb, rb⟩ := clean_advance cap hc b cb
    have hv := verdictStep_UNKNOWN cap a b ra rb
    have da : a.chunk cap = a.pending.take cap := by simp [FILE.chunk, ea]
    have db : b.chunk cap = b.pending.take cap := by simp [FILE.chunk, eb]
    have tpos : 0 < t.length := List.length_pos.mpr ht
    by_cases hlt : a.pending.length < cap
    · left
      have la : (a.chunk cap).length = a.pending.length := by
        rw [da, List.length_take]; omega
      have lb : (a.chunk cap).length < (b.chunk cap).length := by
        rw [la, db, List.length_take, hp, List.length_append]; omega
      have hne : (a.chunk cap).length ≠ (b.chunk cap).length := by omega
      simp only [pairStep]
      refine ⟨?_, fa.mpr (by omega)⟩
      rw [hv]
      by_cases h4 : (a.advance cap).eof = (b.advance cap).eof
      · rw [if_neg (not_not.mpr h4), if_pos hne]
      · rw [if_pos h4]
    · right
      have la : (a.chunk cap).length = cap := by
        rw [da, List.length_take]; omega
      have hab : a.chunk cap = b.chunk cap := by
        rw [da, db, hp, List.take_append_of_le_length (by omega)]
      have lb : (b.chunk cap).length = cap := by rw [← hab]; exact la
      have e1 : (a.advance cap).eof = false := by
        cases he : (a.advance cap).eof
        · rfl
        · have := fa.mp he; omega
      have e2 : (b.advance cap).eof = false := by
        cases he : (b.advance cap).eof
        · rfl
        · have := fb.mp he; omega
      have hv2 : verdictStep cap MatchState.UNKNOWN a b = MatchState.UNKNOWN := by
        rw [hv, if_neg (by rw [e1, e2]; exact not_not.mpr rfl),
          if_neg (by rw [la, lb]; exact not_not.mpr rfl), if_pos (by omega),
          if_neg (not_not.mpr hab)]
      refine ⟨?_, ca', cb', e1, e2, t, ht, ?_⟩
      · simp only [pairStep, hv2]
      · simp only [pairStep, FILE.advance, ea, eb, Bool.false_eq_true, if_false, hp]
        exact List.drop_append_of_le_length (by omega)

theorem PairShorter_iterate (cap : Nat) (hc : 0 < cap) (p : MatchState × FILE × FILE)
    (h : PairShorter p) : ∀ j, PairShorter ((pairStep cap)^[j] p) := by
  intro j
  induction j with
  | zero => exact h
  | succ j ih =>
      rw [Function.iterate_succ_apply']
      exact PairShorter_step cap hc _ ih

theorem PairShorter_iff (p : MatchState × FILE × FILE) (h : PairShorter p) :
    (p.1 = MatchState.NOT_MATCHED ↔ p.2.1.eof = true) ∧ p.1 ≠ MatchState.MATCHED := by
  rcases h with ⟨h1, h2⟩ | ⟨h1, _, _, h2, _⟩
  · exact ⟨⟨fun _ => h2, fun _ => h1⟩, by rw [h1]; decide⟩
  · refine ⟨⟨fun hh => ?_, fun hh => ?_⟩, by rw [h1]; decide⟩
    · rw [h1] at hh; cases hh
    · rw [h2] at hh; cases hh

theorem pairStep_swap (cap : Nat) (p : MatchState × FILE × FILE) :
    pairStep cap (pairSwap p) = pairSwap (pairStep cap p) := by
  obtain ⟨v, a, b⟩ := p
  simp only [pairStep, pairSwap, verdictStep_comm cap v b a]

theorem pairStep_iterate_swap (cap : Nat) (p : MatchState × FILE × FILE) :
    ∀ j, (pairStep cap)^[j] (pairSwap p) = pairSwap ((pairStep cap)^[j] p) := by
  intro j
  induction j with
  | zero => rfl
  | succ j ih =>
      rw [Function.iterate_succ_apply', Function.iterate_succ_apply', ih, pairStep_swap]

theorem clean_iterate (cap : Nat) (hc : 0 < cap) (s : FILE) (h : s.clean) :
    ∀ j, ((FILE.advance cap)^[j] s).clean := by
  intro j
  induction j with
  | zero => exact h
  | succ j ih =>
      rw [Function.iterate_succ_apply']
      exact (clean_advance cap hc _ ih).1

theorem clean_of_fresh (s : FILE) (h : s.fresh) : s.clean :=
  ⟨h.1, h.2.1, fun he => by rw [h.2.2] at he; cases he⟩

/-! ## The run of `CmpFiles_CompareFiles` -/

theorem CompareFiles_some (h : FilesToCompare) (h2 : 2 ≤ h._number_of_filestreams)
    (fuel : Nat) (r : Bool × Option FilesToCompare) :
    CmpFiles_CompareFiles fuel (some h) = some r
      ↔ ∃ b h', r = (b, some h')
        ∧ CmpFiles_CompareFiles.doWhile h._combinations_handler._among_of_combinations fuel h
          = some (b, h') := by
  have hn : ¬ h._number_of_filestreams < 2 := by omega
  simp only [CmpFiles_CompareFiles, hn, if_false, Option.map_eq_some']
  constructor
  · rintro ⟨⟨b, h'⟩, e1, e2⟩
    exact ⟨b, h', e2.symm, e1⟩
  · rintro ⟨b, h', e1, e2⟩
    exact ⟨(b, h'), e2, e1.symm⟩

theorem exit_verdicts (g : FilesToCompare) (hw : g.WF) (he : g.exits) :
    ∀ k < g._combinations_handler._among_of_combinations,
      (g.verdictAt k = MatchState.NOT_MATCHED
          ∧ g.roundStep.verdictAt k = MatchState.NOT_MATCHED)
        ∨ (g.verdictAt k ≠ MatchState.NOT_MATCHED
          ∧ g.roundStep.verdictAt k = MatchState.MATCHED) := by
  intro k hk
  have hv := (roundStep_spec g hw).2.2.2.2.2.2 k hk
  rcases (exits_iff g hw).mp he k hk with h1 | h1
  · left
    rw [hv, h1]
    exact ⟨rfl, verdictStep_NOT_MATCHED _ _ _⟩
  · right
    refine ⟨?_, by rw [hv]; exact verdictStep_of_finish _ _ _ _ h1⟩
    simp only [finishStep, finishes, decide_eq_true_eq] at h1
    exact h1.1

theorem exits_at_need (h : FilesToCompare) (hw : h.WF) (hc : 0 < h._compare_buffer_size) :
    (h.rounds (max h.need 1)).exits := by
  obtain ⟨J, hJ⟩ : ∃ J, max h.need 1 = J + 1 := ⟨max h.need 1 - 1, by omega⟩
  rw [hJ, rounds_succ]
  obtain ⟨w0, n0, c0, a0, p0, s0, _⟩ := rounds_spec h hw J
  obtain ⟨w1, n1, c1, a1, p1, s1, v1⟩ := roundStep_spec (h.rounds J) w0
  rw [exits_iff _ w1]
  intro k hk
  rw [a1, a0] at hk
  by_cases hv : (h.rounds J).roundStep.verdictAt k = MatchState.NOT_MATCHED
  · exact Or.inl hv
  · right
    obtain ⟨ha, hb⟩ := hw.2.2.2.2.2.2.2 k hk
    have hp : (h.rounds J).roundStep.pairAt k = h.pairAt k := (p1 k).trans (p0 k)
    have hflag : ∀ i < h._number_of_filestreams,
        ((h.rounds J).roundStep.stream i).eof = true
          ∨ ((h.rounds J).roundStep.stream i).err = true := by
      intro i hi
      apply flagged_of_need_zero h._compare_buffer_size
      have e : (h.rounds J).roundStep.stream i
          = (FILE.advance h._compare_buffer_size)^[J + 1] (h.stream i) := by
        rw [s1 i (by rw [n0]; exact hi), s0 i hi, c0, Function.iterate_succ_apply']
      have := need_iterate h._compare_buffer_size hc (h.stream i) (J + 1)
      have := stream_need_le h hw i hi
      rw [e]
      omega
    have hne := hv
    rw [v1 k (by rw [a0]; exact hk), p0 k] at hne
    obtain ⟨ea, eb⟩ := verdictStep_no_err _ _ _ _ hne
    rw [← s1 _ (by rw [n0]; exact ha)] at ea
    rw [← s1 _ (by rw [n0]; exact hb)] at eb
    rw [hp]
    have fa : ((h.rounds J).roundStep.stream (h.pairAt k).1).eof = true := by
      rcases hflag _ ha with h1 | h1
      · exact h1
      · rw [ea] at h1; cases h1
    have fb : ((h.rounds J).roundStep.stream (h.pairAt k).2).eof = true := by
      rcases hflag _ hb with h1 | h1
      · exact h1
      · rw [eb] at h1; cases h1
    exact finishStep_of_eof _ _ _ _ hv fa fb ea eb

theorem run_terminates (h : FilesToCompare) (hw : h.WF) (hc : 0 < h._compare_buffer_size)
    (h2 : 2 ≤ h._number_of_filestreams) :
    ∃ b h', CmpFiles_CompareFiles (max h.need 1 + 1) (some h) = some (b, some h') := by
  obtain ⟨b, h', e⟩ := doWhile_of_exits _ (max h.need 1 + 1) h hw rfl
    ⟨max h.need 1, Nat.lt_succ_self _, exits_at_need h hw hc⟩
  exact ⟨b, h', (CompareFiles_some h h2 _ _).mpr ⟨b, h', rfl, e⟩⟩

theorem run_final (h : FilesToCompare) (hw : h.WF) (h2 : 2 ≤ h._number_of_filestreams)
    (fuel : Nat) (b : Bool) (h' : FilesToCompare)
    (hr : CmpFiles_CompareFiles fuel (some h) = some (b, some h')) :
    ∃ j, j < fuel ∧ (h.rounds j).exits ∧ (∀ i < j, ¬ (h.rounds i).exits)
      ∧ h' = h.rounds (j + 1)
      ∧ b = ((CmpFiles_CompareFiles.round h._combinations_handler._among_of_combinations
          (h.rounds j)).skipped_combinations == 0) := by
  obtain ⟨b1, h1, e1, e2⟩ := (CompareFiles_some h h2 fuel _).mp hr
  simp only [Prod.mk.injEq, Option.some.injEq] at e1
  obtain ⟨rfl, rfl⟩ := e1
  exact doWhile_some _ fuel h b h' hw rfl e2

theorem run_unique (h : FilesToCompare) (hw : h.WF) (h2 : 2 ≤ h._number_of_filestreams)
    (f1 f2 : Nat) (b1 b2 : Bool) (g1 g2 : FilesToCompare)
    (hr1 : CmpFiles_CompareFiles f1 (some h) = some (b1, some g1))
    (hr2 : CmpFiles_CompareFiles f2 (some h) = some (b2, some g2)) :
    b1 = b2 ∧ g1 = g2 := by
  obtain ⟨j1, _, x1, y1, z1, u1⟩ := run_final h hw h2 f1 b1 g1 hr1
  obtain ⟨j2, _, x2, y2, z2, u2⟩ := run_final h hw h2 f2 b2 g2 hr2
  have e : j1 = j2 := by
    rcases Nat.lt_trichotomy j1 j2 with hlt | heq | hgt
    · exact absurd x1 (y2 j1 hlt)
    · exact heq
    · exact absurd x2 (y1 j2 hgt)
  subst e
  exact ⟨u1.trans u2.symm, z1.trans z2.symm⟩

theorem sweepRows_getD (n k : Nat) (hk : k < (sweepRows n n).length) :
    (((sweepRows n n).map Prod.fst).getD k 0, ((sweepRows n n).map Prod.snd).getD k 0)
      ∈ sweepRows n n := by
  have e : (((sweepRows n n).map Prod.fst).getD k 0, ((sweepRows n n).map Prod.snd).getD k 0)
      = (sweepRows n n)[k] := by
    simp [List.getD_eq_getElem?_getD, List.getElem?_eq_getElem hk]
  rw [e]
  exact List.getElem_mem hk

/-- A session assembled as `CmpFiles_Initialize` assembles it, around the set that
`CmpComb_Initialize` returns for its number of streams when the byte sizes of its arrays are
representable in `size_t`, is well formed, and all its verdicts are `UNKNOWN`. -/
theorem WF_of_Initialize (w : Nat) (heap : CombinationsHeap) (h : FilesToCompare)
    (h2 : 2 ≤ h._number_of_filestreams) (hw : h._number_of_filestreams < 2 ^ w)
    (hfit : h._number_of_filestreams * (h._number_of_filestreams - 1) / 2 < 2 ^ w)
    (hf : heap.Fits w (h._number_of_filestreams * (h._number_of_filestreams - 1) / 2))
    (hcc : CmpComb_Initialize w heap h._number_of_filestreams = some h._combinations_handler)
    (hs : h._filestreams.length = h._number_of_filestreams)
    (hb : h._compare_buffers.length = h._number_of_filestreams)
    (hn : h._buffers_byte_among.length = h._number_of_filestreams)
    (hz : ∀ b ∈ h._compare_buffers, b.length = h._compare_buffer_size) :
    h.WF ∧ (∀ k < h._combinations_handler._among_of_combinations,
      h.verdictAt k = MatchState.UNKNOWN)
      ∧ h._combinations_handler._among_of_combinations
        = h._number_of_filestreams * (h._number_of_filestreams - 1) / 2 := by
  rw [Initialize_eq w _ heap h2 hw hfit hf] at hcc
  split_ifs at hcc
  have e := (Option.some.inj hcc).symm
  have hlen := sweepRows_length_full h._number_of_filestreams
  refine ⟨⟨hs, hb, hn, hz, ?_, ?_, ?_, ?_⟩, ?_, ?_⟩
  · rw [e]; simp [hlen]
  · rw [e]; simp [hlen]
  · rw [e]; simp
  · intro k hk
    rw [e] at hk
    simp only at hk
    have hm := sweepRows_getD h._number_of_filestreams k (by rw [hlen]; exact hk)
    rw [sweepRows_mem] at hm
    simp only [FilesToCompare.pairAt, CompareCombinations.pairAt, readAt, e, Option.getD_some]
    omega
  · intro k hk
    rw [e] at hk
    simp only at hk
    simp only [FilesToCompare.verdictAt, CompareCombinations.verdictAt, readAt, e,
      Option.getD_some, List.getD_eq_getElem?_getD]
    rw [List.getElem?_replicate, if_pos hk]
    rfl
  · rw [e]

theorem stream_mem (h : FilesToCompare) (hw : h.WF) (i : Nat)
    (hi : i < h._number_of_filestreams) : h.stream i ∈ h._filestreams := by
  have hl : i < h._filestreams.length := by rw [hw.1]; exact hi
  have e : h.stream i = h._filestreams[i] := by
    simp [FilesToCompare.stream, List.getElem?_eq_getElem hl]
  rw [e]
  exact List.getElem_mem hl

/-- C1. A session of at least two streams with a buffer capacity above zero, whose streams are
freshly opened error-free sources and whose verdicts are all `UNKNOWN`: `CmpFiles_CompareFiles`
returns (with enough fuel, and every amount of fuel that lets it return gives the same result),
the stored pairs are unchanged, and the verdict at every position is `MATCHED` when the byte
sequences of the two sources of its pair are identical and `NOT_MATCHED` otherwise. -/
theorem CmpFiles_CompareFiles_verdicts (h : FilesToCompare) (hw : h.WF)
    (h2 : 2 ≤ h._number_of_filestreams) (hc : 0 < h._compare_buffer_size)
    (hs : ∀ s ∈ h._filestreams, s.fresh)
    (hu : ∀ k < h._combinations_handler._among_of_combinations,
      h.verdictAt k = MatchState.UNKNOWN) :
    ∃ fuel b h', CmpFiles_CompareFiles fuel (some h) = some (b, some h')
      ∧ (∀ fuel2 r, CmpFiles_CompareFiles fuel2 (some h) = some r → r = (b, some h'))
      ∧ ∀ k < h._combinations_handler._among_of_combinations,
          h'.pairAt k = h.pairAt k
            ∧ h'.verdictAt k
              = if (h.stream (h.pairAt k).1).pending = (h.stream (h.pairAt k).2).pending then
                  MatchState.MATCHED
                else MatchState.NOT_MATCHED := by
  obtain ⟨b, h', hr⟩ := run_terminates h hw hc h2
  refine ⟨_, b, h', hr, ?_, ?_⟩
  · intro fuel2 r hr2
    obtain ⟨b2, g2, rfl, e2⟩ := (CompareFiles_some h h2 fuel2 r).mp hr2
    obtain ⟨e3, e4⟩ := run_unique h hw h2 _ _ _ _ _ _
      ((CompareFiles_some h h2 fuel2 _).mpr ⟨b2, g2, rfl, e2⟩) hr
    rw [e3, e4]
  · intro k hk
    obtain ⟨j, _, hex, _, rfl, _⟩ := run_final h hw h2 _ b h' hr
    obtain ⟨w0, _, _, a0, _, _, _⟩ := rounds_spec h hw j
    obtain ⟨_, _, _, _, p1, _, t1⟩ := rounds_spec h hw (j + 1)
    obtain ⟨ha, hb⟩ := hw.2.2.2.2.2.2.2 k hk
    have hcorr := PairCorrect_iterate h._compare_buffer_size hc _ _ _
      (PairCorrect_initial _ _ (hs _ (stream_mem h hw _ ha)) (hs _ (stream_mem h hw _ hb)))
      (j + 1)
    rw [← hu k hk, ← t1 k hk] at hcorr
    obtain ⟨_, _, _, cM, cN⟩ := hcorr
    simp only at cM cN
    refine ⟨p1 k, ?_⟩
    have hfin := exit_verdicts (h.rounds j) w0 hex k (by rw [a0]; exact hk)
    rw [← rounds_succ] at hfin
    by_cases hAB : (h.stream (h.pairAt k).1).pending = (h.stream (h.pairAt k).2).pending
    · rw [if_pos hAB]
      rcases hfin with ⟨_, f⟩ | ⟨_, f⟩
      · exact absurd hAB (cN f)
      · exact f
    · rw [if_neg hAB]
      rcases hfin with ⟨_, f⟩ | ⟨_, f⟩
      · exact f
      · exact absurd (cM f).1 hAB

/-- C2. On a session of at least two streams, whenever `CmpFiles_CompareFiles` returns, the
returned boolean is `true` exactly when the verdict at every position is `MATCHED`, and it is
`false` exactly when the verdict at some position is `NOT_MATCHED`; with a buffer capacity
above zero the call does return. -/
theorem CmpFiles_CompareFiles_returns_all_matched (h : FilesToCompare) (hw : h.WF)
    (h2 : 2 ≤ h._number_of_filestreams) :
    (∀ fuel b h', CmpFiles_CompareFiles fuel (some h) = some (b, some h') →
        (b = true ↔ ∀ k < h._combinations_handler._among_of_combinations,
          h'.verdictAt k = MatchState.MATCHED)
        ∧ (b = false ↔ ∃ k, k < h._combinations_handler._among_of_combinations
          ∧ h'.verdictAt k = MatchState.NOT_MATCHED))
      ∧ (0 < h._compare_buffer_size →
          ∃ fuel b h', CmpFiles_CompareFiles fuel (some h) = some (b, some h')) := by
  refine ⟨?_, fun hc => ⟨_, run_terminates h hw hc h2⟩⟩
  intro fuel b h' hr
  obtain ⟨j, _, hex, _, rfl, hb⟩ := run_final h hw h2 fuel b h' hr
  obtain ⟨w0, _, _, a0, _, _, _⟩ := rounds_spec h hw j
  have hfin := exit_verdicts (h.rounds j) w0 hex
  rw [a0, ← rounds_succ] at hfin
  have hz := skipped_zero_iff (h.rounds j) w0
  rw [a0] at hz
  have hbt : b = true ↔ ∀ k < h._combinations_handler._among_of_combinations,
      (h.rounds (j + 1)).verdictAt k = MatchState.MATCHED := by
    rw [hb, beq_iff_eq, hz]
    constructor
    · intro hall k hk
      rcases hfin k hk with ⟨f, _⟩ | ⟨_, f⟩
      · exact absurd f (hall k hk)
      · exact f
    · intro hall k hk
      rcases hfin k hk with ⟨_, f⟩ | ⟨f, _⟩
      · rw [hall k hk] at f; cases f
      · exact f
  refine ⟨hbt, ?_⟩
  rw [← Bool.not_eq_true, hbt]
  constructor
  · intro hn
    by_contra hall
    apply hn
    intro k hk
    rcases hfin k hk with ⟨_, f⟩ | ⟨_, f⟩
    · exact absurd ⟨k, hk, f⟩ hall
    · exact f
  · rintro ⟨k, hk, f⟩ hall
    rw [hall k hk] at f
    cases f

/-- C5. Along the rounds of `CmpFiles_CompareFiles` on a session in which every `MATCHED` pair
has both streams at end of file without error (in particular on every session without a
`MATCHED` verdict, so on every session as initialised): a verdict that is `MATCHED` or
`NOT_MATCHED` after `j` rounds is the same after every later round, so a pair changes its
verdict at most once, away from `UNKNOWN`; the property of the session holds again after every
round; and the session that a call returns is the session after some number of rounds. -/
theorem CmpFiles_CompareFiles_monotonic (h : FilesToCompare) (hw : h.WF)
    (hm : h.MatchedAtEnd) :
    (∀ j k, k < h._combinations_handler._among_of_combinations →
        (h.rounds j).verdictAt k ≠ MatchState.UNKNOWN →
        ∀ n, j ≤ n → (h.rounds n).verdictAt k = (h.rounds j).verdictAt k)
      ∧ (∀ j, (h.rounds j).MatchedAtEnd)
      ∧ (∀ fuel b h', 2 ≤ h._number_of_filestreams →
          CmpFiles_CompareFiles fuel (some h) = some (b, some h') →
          ∃ n, h' = h.rounds n) := by
  have trace : ∀ j k, k < h._combinations_handler._among_of_combinations →
      ((h.rounds j).verdictAt k, (h.rounds j).stream (h.pairAt k).1,
          (h.rounds j).stream (h.pairAt k).2)
        = (pairStep h._compare_buffer_size)^[j]
            (h.verdictAt k, h.stream (h.pairAt k).1, h.stream (h.pairAt k).2) :=
    fun j k hk => (rounds_spec h hw j).2.2.2.2.2.2 k hk
  refine ⟨?_, ?_, ?_⟩
  · intro j k hk hd n hjn
    obtain ⟨d, rfl⟩ : ∃ d, n = j + d := ⟨n - j, by omega⟩
    have h1 := (MatchedAtEnd_iterate h._compare_buffer_size _ (hm k hk) j).2 d
    rw [← trace j k hk, ← trace (j + d) k hk] at h1
    exact h1 hd
  · intro j k hk
    obtain ⟨_, _, _, a0, p0, _, _⟩ := rounds_spec h hw j
    rw [a0] at hk
    have h1 := (MatchedAtEnd_iterate h._compare_buffer_size _ (hm k hk) j).1
    rw [← trace j k hk] at h1
    rw [p0 k]
    exact h1
  · intro fuel b h' h2 hr
    obtain ⟨j, _, _, _, e, _⟩ := run_final h hw h2 fuel b h' hr
    exact ⟨j + 1, e⟩

/-- C7. On a session of at least two streams, whenever `CmpFiles_CompareFiles` returns, the
verdict at every position is `MATCHED` or `NOT_MATCHED`, none is `UNKNOWN`; with a buffer
capacity above zero the call does return. -/
theorem CmpFiles_CompareFiles_all_terminal (h : FilesToCompare) (hw : h.WF)
    (h2 : 2 ≤ h._number_of_filestreams) :
    (∀ fuel b h', CmpFiles_CompareFiles fuel (some h) = some (b, some h') →
        ∀ k < h._combinations_handler._among_of_combinations,
          h'.verdictAt k ≠ MatchState.UNKNOWN
            ∧ (h'.verdictAt k = MatchState.MATCHED ∨ h'.verdictAt k = MatchState.NOT_MATCHED))
      ∧ (0 < h._compare_buffer_size →
          ∃ fuel b h', CmpFiles_CompareFiles fuel (some h) = some (b, some h')) := by
  refine ⟨?_, fun hc => ⟨_, run_terminates h hw hc h2⟩⟩
  intro fuel b h' hr k hk
  obtain ⟨j, _, hex, _, rfl, _⟩ := run_final h hw h2 fuel b h' hr
  obtain ⟨w0, _, _, a0, _, _, _⟩ := rounds_spec h hw j
  have hfin := exit_verdicts (h.rounds j) w0 hex k (by rw [a0]; exact hk)
  rw [← rounds_succ] at hfin
  rcases hfin with ⟨_, f⟩ | ⟨_, f⟩
  · rw [f]; exact ⟨by decide, Or.inr rfl⟩
  · rw [f]; exact ⟨by decide, Or.inl rfl⟩

theorem finishStep_same (cap : Nat) (hc : 0 < cap) (v : MatchState) (s : FILE) (hs : s.clean)
    (hv : v ≠ MatchState.NOT_MATCHED) (hn : s.chunk cap = []) : finishStep cap v s s = true := by
  obtain ⟨_, _, e, r⟩ := clean_advance cap hc s hs
  have he : (s.advance cap).eof = true := e.mpr (by rw [hn]; exact hc)
  simp [finishStep, finishes, hv, ferror, feof, r, he, hn]

theorem finishStep_inv (cap : Nat) (v : MatchState) (a b : FILE)
    (h : finishStep cap v a b = true) :
    v ≠ MatchState.NOT_MATCHED ∧ a.chunk cap = [] ∧ (a.advance cap).eof = true := by
  simp only [finishStep, finishes, decide_eq_true_eq] at h
  exact ⟨h.1, List.length_eq_zero.mp h.2.2.2.2.2.1, h.2.2.2.2.2.2.1⟩

/-- C6. On a session of at least two streams with a buffer capacity above zero, whatever the
state and the kind of its finite sources, the round loop of `CmpFiles_CompareFiles` is left
after finitely many rounds: the call returns. When the streams are freshly opened error-free
sources that all deliver the same bytes, the verdicts are all `UNKNOWN` and there is at least
one pair, the round after which the call returns is the first round in which the streams
deliver no byte: every stream delivers no byte in it and has its end-of-file indicator set
after it, and every stream delivers at least one byte in each earlier round. -/
theorem CmpFiles_CompareFiles_terminates (h : FilesToCompare) (hw : h.WF)
    (h2 : 2 ≤ h._number_of_filestreams) (hc : 0 < h._compare_buffer_size) :
    (∃ fuel b h', CmpFiles_CompareFiles fuel (some h) = some (b, some h'))
      ∧ ((∀ s ∈ h._filestreams, s.fresh) →
          (∀ k < h._combinations_handler._among_of_combinations,
            h.verdictAt k = MatchState.UNKNOWN) →
          0 < h._combinations_handler._among_of_combinations →
          (∀ i < h._number_of_filestreams, ∀ j < h._number_of_filestreams,
            (h.stream i).pending = (h.stream j).pending) →
          ∀ fuel b h', CmpFiles_CompareFiles fuel (some h) = some (b, some h') →
            ∃ j, h' = h.rounds (j + 1)
              ∧ (∀ i < h._number_of_filestreams,
                  ((h.rounds j).stream i).chunk h._compare_buffer_size = []
                    ∧ (h'.stream i).eof = true)
              ∧ ∀ j2 < j, ∀ i < h._number_of_filestreams,
                  ((h.rounds j2).stream i).chunk h._compare_buffer_size ≠ []) := by
  refine ⟨⟨_, run_terminates h hw hc h2⟩, ?_⟩
  intro hs hu hpos hsame fuel b h' hr
  obtain ⟨j, _, hex, hnot, rfl, _⟩ := run_final h hw h2 fuel b h' hr
  have h0 : 0 < h._number_of_filestreams := by omega
  have hfresh : ∀ i < h._number_of_filestreams, (h.stream i).fresh :=
    fun i hi => hs _ (stream_mem h hw i hi)
  have hall : ∀ i < h._number_of_filestreams, h.stream i = h.stream 0 := by
    intro i hi
    have f1 := hfresh i hi
    have f0 := hfresh 0 h0
    exact FILE_eq_of_clean _ _ (clean_of_fresh _ f1) (clean_of_fresh _ f0) (hsame i hi 0 h0)
      (by rw [f1.2.2, f0.2.2])
  have hstream : ∀ n, ∀ i < h._number_of_filestreams,
      (h.rounds n).stream i = (FILE.advance h._compare_buffer_size)^[n] (h.stream 0) := by
    intro n i hi
    rw [(rounds_spec h hw n).2.2.2.2.2.1 i hi, hall i hi]
  have hclean : ∀ n, ((FILE.advance h._compare_buffer_size)^[n] (h.stream 0)).clean :=
    clean_iterate _ hc _ (clean_of_fresh _ (hfresh 0 h0))
  have hnotNM : ∀ n, ∀ k < h._combinations_handler._among_of_combinations,
      (h.rounds n).verdictAt k ≠ MatchState.NOT_MATCHED := by
    intro n k hk hv
    obtain ⟨ha, hb⟩ := hw.2.2.2.2.2.2.2 k hk
    have hcorr := PairCorrect_iterate h._compare_buffer_size hc _ _ _
      (PairCorrect_initial _ _ (hfresh _ ha) (hfresh _ hb)) n
    rw [← hu k hk, ← (rounds_spec h hw n).2.2.2.2.2.2 k hk] at hcorr
    exact hcorr.2.2.2.2 hv (hsame _ ha _ hb)
  have hexit : ∀ n, (h.rounds n).exits ↔
      ((FILE.advance h._compare_buffer_size)^[n] (h.stream 0)).chunk h._compare_buffer_size
        = [] := by
    intro n
    obtain ⟨w0, n0, c0, a0, p0, _, _⟩ := rounds_spec h hw n
    rw [exits_iff _ w0, a0, c0]
    constructor
    · intro hall2
      obtain ⟨ha, _⟩ := hw.2.2.2.2.2.2.2 0 hpos
      rcases hall2 0 hpos with f | f
      · exact absurd f (hnotNM n 0 hpos)
      · have := (finishStep_inv _ _ _ _ f).2.1
        rw [p0 0, hstream n _ ha] at this
        exact this
    · intro hch k hk
      right
      obtain ⟨ha, hb⟩ := hw.2.2.2.2.2.2.2 k hk
      rw [p0 k, hstream n _ ha, hstream n _ hb]
      exact finishStep_same _ hc _ _ (hclean n) (hnotNM n k hk) hch
  refine ⟨j, rfl, ?_, ?_⟩
  · intro i hi
    have hch := (hexit j).mp hex
    refine ⟨by rw [hstream j i hi]; exact hch, ?_⟩
    rw [hstream (j + 1) i hi, Function.iterate_succ_apply']
    exact (clean_advance _ hc _ (hclean j)).2.2.1.mpr (by rw [hch]; exact hc)
  · intro j2 hj2 i hi hch
    rw [hstream j2 i hi] at hch
    exact hnot j2 hj2 ((hexit j2).mpr hch)

/-- C8. A session with a buffer capacity above zero and a position `k` whose pair is made of the
streams `a` and `b`, in either order, both freshly opened error-free sources, the content of
`a` being a proper initial segment of the content of `b`, the verdict at `k` being `UNKNOWN`:
after any number of rounds the verdict at `k` is `NOT_MATCHED` exactly when the end-of-file
indicator of `a` is set, so it is `NOT_MATCHED` from the end of the round in which `a` first
reports the end of the file; the call returns, and in the session that it returns the verdict at
`k` is `NOT_MATCHED` and the end-of-file indicator of `a` is set. -/
theorem CmpFiles_CompareFiles_length_sensitive (h : FilesToCompare) (hw : h.WF)
    (h2 : 2 ≤ h._number_of_filestreams) (hc : 0 < h._compare_buffer_size) (k a b : Nat)
    (hk : k < h._combinations_handler._among_of_combinations)
    (hp : h.pairAt k = (a, b) ∨ h.pairAt k = (b, a))
    (ha : (h.stream a).fresh) (hb : (h.stream b).fresh)
    (hu : h.verdictAt k = MatchState.UNKNOWN) (t : List Byte) (ht : t ≠ [])
    (hpre : (h.stream b).pending = (h.stream a).pending ++ t) :
    (∀ j, (h.rounds j).verdictAt k = MatchState.NOT_MATCHED
        ↔ ((h.rounds j).stream a).eof = true)
      ∧ (∃ fuel r h', CmpFiles_CompareFiles fuel (some h) = some (r, some h'))
      ∧ ∀ fuel r h', CmpFiles_CompareFiles fuel (some h) = some (r, some h') →
          h'.verdictAt k = MatchState.NOT_MATCHED ∧ (h'.stream a).eof = true := by
  have hinit : PairShorter (MatchState.UNKNOWN, h.stream a, h.stream b) :=
    Or.inr ⟨rfl, clean_of_fresh _ ha, clean_of_fresh _ hb, ha.2.2, hb.2.2, t, ht, hpre⟩
  have hshort : ∀ j, PairShorter
      ((h.rounds j).verdictAt k, (h.rounds j).stream a, (h.rounds j).stream b) := by
    intro j
    have hit := PairShorter_iterate h._compare_buffer_size hc _ hinit j
    have tr := (rounds_spec h hw j).2.2.2.2.2.2 k hk
    rcases hp with hp | hp
    · rw [hp, hu] at tr
      rw [tr]
      exact hit
    · rw [hp, hu] at tr
      simp only at tr
      have e : (MatchState.UNKNOWN, h.stream b, h.stream a)
          = pairSwap (MatchState.UNKNOWN, h.stream a, h.stream b) := rfl
      rw [e, pairStep_iterate_swap] at tr
      have e2 : ((h.rounds j).verdictAt k, (h.rounds j).stream a, (h.rounds j).stream b)
          = pairSwap ((h.rounds j).verdictAt k, (h.rounds j).stream b,
              (h.rounds j).stream a) := rfl
      rw [e2, tr]
      exact hit
  have hiff : ∀ j, (h.rounds j).verdictAt k = MatchState.NOT_MATCHED
      ↔ ((h.rounds j).stream a).eof = true := fun j => (PairShorter_iff _ (hshort j)).1
  refine ⟨hiff, ⟨_, run_terminates h hw hc h2⟩, ?_⟩
  intro fuel r h' hr
  obtain ⟨j, _, hex, _, rfl, _⟩ := run_final h hw h2 fuel r h' hr
  obtain ⟨w0, _, _, a0, _, _, _⟩ := rounds_spec h hw j
  have hfin := exit_verdicts (h.rounds j) w0 hex k (by rw [a0]; exact hk)
  rw [← rounds_succ] at hfin
  have hNM : (h.rounds (j + 1)).verdictAt k = MatchState.NOT_MATCHED := by
    rcases hfin with ⟨_, f⟩ | ⟨_, f⟩
    · exact f
    · exact absurd f (PairShorter_iff _ (hshort (j + 1))).2
  exact ⟨hNM, (hiff (j + 1)).mp hNM⟩

theorem forRange_invariant {σ : Type} (P : σ → Prop) (body : Nat → σ → σ)
    (hbody : ∀ i s, P s → P (body i s)) (lo hi : Nat) (s : σ) (hs : P s) :
    P (forRange lo hi body s) := by
  unfold forRange
  generalize List.range' lo (hi - lo) = l
  induction l generalizing s with
  | nil => exact hs
  | cons i l ih => exact ih _ (hbody i s hs)

theorem SetCombination_eq (h : CompareCombinations) (from_position a b : Nat) :
    CmpComb_SetCombination (some h) from_position a b
      = if from_position < h._among_of_combinations then
          (true, some
            { _compare_indexes := writeAt h._compare_indexes from_position a
              _compare_with_indexes := writeAt h._compare_with_indexes from_position b
              _match_states := h._match_states
              _among_of_combinations := h._among_of_combinations
              _among_of_elements := h._among_of_elements })
        else (false, some h) := by
  simp only [CmpComb_SetCombination]
  by_cases hlt : from_position < h._among_of_combinations
  · rw [if_neg (Nat.not_le.mpr hlt), if_pos hlt]
  · rw [if_pos (Nat.le_of_not_lt hlt), if_neg hlt]

/-- Whatever the sizes of the two index arrays, the sweep leaves a set with arrays of the same
sizes, the same verdict array and the same counts. -/
theorem sweep_shape (w : Nat) (xs ys : List Nat) (ms : Option (List MatchState)) (c n : Nat) :
    ∃ xs1 ys1,
      (forRange 0 n (CmpComb_PrepareCombinations.outer w n)
          { handler := some
              { _compare_indexes := some xs
                _compare_with_indexes := some ys
                _match_states := ms
                _among_of_combinations := c
                _among_of_elements := n }
            in_position := 0
            incrementer := 1 }).handler
        = some
          { _compare_indexes := some xs1
            _compare_with_indexes := some ys1
            _match_states := ms
            _among_of_combinations := c
            _among_of_elements := n }
      ∧ xs1.length = xs.length ∧ ys1.length = ys.length := by
  have hinner : ∀ ci j (s : SweepState),
      (∃ xs1 ys1, s.handler = some
          { _compare_indexes := some xs1
            _compare_with_indexes := some ys1
            _match_states := ms
            _among_of_combinations := c
            _among_of_elements := n }
        ∧ xs1.length = xs.length ∧ ys1.length = ys.length) →
      ∃ xs1 ys1, (CmpComb_PrepareCombinations.inner w ci j s).handler = some
          { _compare_indexes := some xs1
            _compare_with_indexes := some ys1
            _match_states := ms
            _among_of_combinations := c
            _among_of_elements := n }
        ∧ xs1.length = xs.length ∧ ys1.length = ys.length := by
    rintro ci j s ⟨xs1, ys1, e, lx, ly⟩
    simp only [CmpComb_PrepareCombinations.inner, e, SetCombination_eq]
    by_cases hq : s.in_position < c
    · rw [if_pos hq]
      exact ⟨xs1.set s.in_position ci, ys1.set s.in_position j, rfl, by simpa using lx,
        by simpa using ly⟩
    · rw [if_neg hq]
      exact ⟨xs1, ys1, rfl, lx, ly⟩
  apply forRange_invariant
    (fun s : SweepState => ∃ xs1 ys1, s.handler = some
        { _compare_indexes := some xs1
          _compare_with_indexes := some ys1
          _match_states := ms
          _among_of_combinations := c
          _among_of_elements := n }
      ∧ xs1.length = xs.length ∧ ys1.length = ys.length)
  · intro ci s hs
    simp only [CmpComb_PrepareCombinations.outer]
    exact forRange_invariant _ _ (fun j s1 h1 => hinner ci j s1 h1) _ _ s hs
  · exact ⟨xs, ys, rfl, rfl, rfl⟩

/-- On a set with its three arrays, `CmpComb_PrepareCombinations` returns, and it returns a set
with arrays of the same sizes and the same counts, whatever the sizes are. -/
theorem Prepare_shape (w : Nat) (xs ys : List Nat) (zs : List MatchState) (c n : Nat) :
    ∃ b xs1 ys1 zs1,
      CmpComb_PrepareCombinations w (some
          { _compare_indexes := some xs
            _compare_with_indexes := some ys
            _match_states := some zs
            _among_of_combinations := c
            _among_of_elements := n })
        = some (b, some
          { _compare_indexes := some xs1
            _compare_with_indexes := some ys1
            _match_states := some zs1
            _among_of_combinations := c
            _among_of_elements := n })
      ∧ xs1.length = xs.length ∧ ys1.length = ys.length ∧ zs1.length = zs.length
      ∧ (b = true ↔ c ≠ 0) := by
  by_cases hc0 : c = 0
  · refine ⟨false, xs, ys, zs, ?_, rfl, rfl, rfl, by simp [hc0]⟩
    simp [CmpComb_PrepareCombinations, hc0]
  · obtain ⟨xs1, ys1, e, lx, ly⟩ := sweep_shape w xs ys (some zs) c n
    refine ⟨true, xs1, ys1, List.replicate (min c zs.length) MatchState.UNKNOWN ++ zs.drop c,
      ?_, lx, ly, ?_, by simp [hc0]⟩
    · simp only [CmpComb_PrepareCombinations, hc0, if_false, reduceCtorEq, or_self, e,
        reset_loop, Option.map_some']
    · simp only [List.length_append, List.length_replicate, List.length_drop]
      omega

/-! ## The accessors and the rebuild of the set -/

theorem two_pow_not_dvd_triangle (w n : Nat) (h2 : 2 ≤ n) (hn : n < 2 ^ w) :
    ¬ 2 ^ w ∣ n * (n - 1) / 2 := by
  intro hd
  have heven : 2 ∣ n * (n - 1) := (Nat.even_mul_pred_self n).two_dvd
  have hp : 2 ^ (w + 1) = 2 * 2 ^ w := by rw [pow_succ, Nat.mul_comm]
  have h1 : 2 ^ (w + 1) ∣ n * (n - 1) := by
    obtain ⟨k, hk⟩ := hd
    have e : n * (n - 1) = 2 * (n * (n - 1) / 2) := (Nat.mul_div_cancel' heven).symm
    rw [e, hk, hp]
    exact ⟨k, by rw [Nat.mul_assoc]⟩
  rcases Nat.even_or_odd n with he | ho
  · have hodd : Odd (n - 1) := Nat.Even.sub_odd (by omega) he odd_one
    have hc : Nat.Coprime (2 ^ (w + 1)) (n - 1) :=
      Nat.Coprime.pow_left _ (Nat.coprime_two_left.mpr hodd)
    have h3 := Nat.le_of_dvd (by omega) (hc.dvd_of_dvd_mul_right h1)
    omega
  · have hc : Nat.Coprime (2 ^ (w + 1)) n :=
      Nat.Coprime.pow_left _ (Nat.coprime_two_left.mpr ho)
    have h3 := Nat.le_of_dvd (by omega) (hc.dvd_of_dvd_mul_left h1)
    omega

/-- C14. For every `size_t` value `n`, `CmpComb_NumberOfCombinations` returns 0 exactly when
`n ≤ 1`: the wrap-around of the accumulation never turns the pair count of two or more elements
into 0. -/
theorem CmpComb_NumberOfCombinations_zero_iff (w n : Nat) (hn : n < 2 ^ w) :
    CmpComb_NumberOfCombinations w n = 0 ↔ n ≤ 1 := by
  rw [NumberOfCombinations_mod]
  constructor
  · intro h0
    by_contra hgt
    exact two_pow_not_dvd_triangle w n (by omega) hn (Nat.dvd_of_mod_eq_zero h0)
  · intro h1
    have h : n = 0 ∨ n = 1 := by omega
    rcases h with rfl | rfl <;> simp

theorem readAt_writeAt {α : Type} (p : Option (List α)) (i k : Nat) (v d : α) :
    readAt (writeAt p i v) k d
      = if i = k ∧ k < (p.getD []).length then v else readAt p k d := by
  cases p with
  | none => simp [readAt, writeAt]
  | some xs =>
      simp only [readAt, writeAt, Option.map_some', Option.getD_some,
        List.getD_eq_getElem?_getD, List.getElem?_set]
      by_cases hik : i = k
      · subst hik
        by_cases hl : i < xs.length
        · simp [hl]
        · simp [hl, List.getElem?_eq_none (Nat.le_of_not_lt hl)]
      · simp [hik]

/-- C11. On a set whose two index arrays are present with one entry per pair: for a position
below the pair count and any pair `(a, b)`, `CmpComb_SetCombination` succeeds and
`CmpComb_GetCombination` on the set it leaves succeeds and stores `(a, b)` in the two output
slots; for a position at or above the pair count both accessors return failure and leave the
set as it is. -/
theorem CmpComb_set_get_round_trip (h : CompareCombinations) (from_position a b x y : Nat)
    (hi : h._compare_indexes.map List.length = some h._among_of_combinations)
    (hj : h._compare_with_indexes.map List.length = some h._among_of_combinations) :
    (from_position < h._among_of_combinations →
        ∃ h', CmpComb_SetCombination (some h) from_position a b = (true, some h')
          ∧ CmpComb_GetCombination (some h') from_position (some x) (some y)
            = (true, some h', some a, some b))
      ∧ (h._among_of_combinations ≤ from_position →
          CmpComb_SetCombination (some h) from_position a b = (false, some h)
            ∧ CmpComb_GetCombination (some h) from_position (some x) (some y)
              = (false, some h, some x, some y)) := by
  refine ⟨?_, ?_⟩
  · intro hlt
    refine ⟨_, by rw [SetCombination_eq, if_pos hlt], ?_⟩
    have hn : ¬ from_position ≥ h._among_of_combinations := by omega
    have li : from_position < (h._compare_indexes.getD []).length := by
      cases hxs : h._compare_indexes with
      | none => rw [hxs] at hi; simp at hi
      | some xs => rw [hxs] at hi; simp at hi; simp [hi, hlt]
    have lj : from_position < (h._compare_with_indexes.getD []).length := by
      cases hys : h._compare_with_indexes with
      | none => rw [hys] at hj; simp at hj
      | some ys => rw [hys] at hj; simp at hj; simp [hj, hlt]
    simp only [CmpComb_GetCombination, hn, if_false, reduceCtorEq, or_self, readAt_writeAt,
      li, lj, and_self, if_true]
  · intro hge
    refine ⟨by rw [SetCombination_eq, if_neg (by omega)], ?_⟩
    simp only [CmpComb_GetCombination, ge_iff_le, hge, if_true]

/-- C19. `CmpComb_SetCombination` writes one pair and nothing else: for a position below the
pair count it returns success and the set after the call has the same verdict array, the same
element count and the same pair count, and the same pair at every other position; for a
position at or above the pair count it returns failure and the set is unchanged; on an absent
set it returns failure. -/
theorem CmpComb_SetCombination_frame (h : CompareCombinations) (from_position a b : Nat) :
    (from_position < h._among_of_combinations →
        ∃ h', CmpComb_SetCombination (some h) from_position a b = (true, some h')
          ∧ h'._match_states = h._match_states
          ∧ h'._among_of_elements = h._among_of_elements
          ∧ h'._among_of_combinations = h._among_of_combinations
          ∧ (∀ k, k ≠ from_position → h'.pairAt k = h.pairAt k ∧ h'.verdictAt k = h.verdictAt k)
          ∧ h'.verdictAt from_position = h.verdictAt from_position)
      ∧ (h._among_of_combinations ≤ from_position →
          CmpComb_SetCombination (some h) from_position a b = (false, some h))
      ∧ CmpComb_SetCombination none from_position a b = (false, none) := by
  refine ⟨?_, ?_, rfl⟩
  · intro hlt
    refine ⟨{ _compare_indexes := writeAt h._compare_indexes from_position a
              _compare_with_indexes := writeAt h._compare_with_indexes from_position b
              _match_states := h._match_states
              _among_of_combinations := h._among_of_combinations
              _among_of_elements := h._among_of_elements },
      by rw [SetCombination_eq, if_pos hlt], rfl, rfl, rfl, ?_, rfl⟩
    intro k hk
    have hk2 : ¬ (from_position = k ∧ k < (h._compare_indexes.getD []).length) :=
      fun hh => hk hh.1.symm
    have hk3 : ¬ (from_position = k ∧ k < (h._compare_with_indexes.getD []).length) :=
      fun hh => hk hh.1.symm
    refine ⟨?_, rfl⟩
    simp only [CompareCombinations.pairAt, readAt_writeAt, hk2, hk3, if_false]
  · intro hge
    rw [SetCombination_eq, if_neg (by omega)]

theorem Allocated_sweep (w n : Nat) :
    CompareCombinations.Allocated w
      { _compare_indexes := some ((sweepRows n n).map Prod.fst)
        _compare_with_indexes := some ((sweepRows n n).map Prod.snd)
        _match_states := some (List.replicate (n * (n - 1) / 2) MatchState.UNKNOWN)
        _among_of_combinations := n * (n - 1) / 2
        _among_of_elements := n } ↔ n * (n - 1) / 2 = CmpComb_NumberOfCombinations w n := by
  simp [CompareCombinations.Allocated, sweepRows_length_full]

theorem Allocated_two_le (w n : Nat) (h : CompareCombinations) (ha : h.Allocated w)
    (hn : h._among_of_elements = n) (hpos : 0 < h._among_of_combinations) : 2 ≤ n := by
  by_contra hlt
  have h01 : n = 0 ∨ n = 1 := by omega
  have hc := ha.2.2.2
  rw [hn, NumberOfCombinations_mod] at hc
  rcases h01 with rfl | rfl <;> simp at hc <;> omega

/-- C12, as the code has it. On an allocated set of `n` elements with at least one pair, `n` a
`size_t` value whose pair count `n * (n - 1) / 2` is representable in `size_t`,
`CmpComb_PrepareCombinations` succeeds; the set it leaves stores the lexicographic sweep of `n`
elements, its verdict array holds `UNKNOWN` in each of its `n * (n - 1) / 2` entries, and it is
the same set whatever pairs and verdicts were held before: every allocated set of `n` elements
is rebuilt to it, so rebuilding it again leaves it unchanged. The verdict array of the set that
`CmpComb_Initialize` returns holds `UNKNOWN` in each of its entries, one per pair, when the byte
sizes of the arrays are representable in `size_t`. -/
theorem CmpComb_PrepareCombinations_rebuild (w n : Nat) (hw : n < 2 ^ w)
    (hfit : n * (n - 1) / 2 < 2 ^ w) (h : CompareCombinations) (ha : h.Allocated w)
    (hn : h._among_of_elements = n) (hpos : 0 < h._among_of_combinations) :
    ∃ h', CmpComb_PrepareCombinations w (some h) = some (true, some h')
      ∧ h'.IsSweep n
      ∧ h'._match_states = some (List.replicate h._among_of_combinations MatchState.UNKNOWN)
      ∧ (∀ k < h'._among_of_combinations, h'.verdictAt k = MatchState.UNKNOWN)
      ∧ h'._among_of_combinations = h._among_of_combinations
      ∧ h'._among_of_elements = n
      ∧ (∀ g : CompareCombinations, g.Allocated w → g._among_of_elements = n →
          CmpComb_PrepareCombinations w (some g) = some (true, some h'))
      ∧ CmpComb_PrepareCombinations w (some h') = some (true, some h')
      ∧ (∀ heap g, heap.Fits w (n * (n - 1) / 2) → CmpComb_Initialize w heap n = some g →
          g._match_states = some (List.replicate g._among_of_combinations MatchState.UNKNOWN)
            ∧ g._among_of_combinations = n * (n - 1) / 2
            ∧ ∀ k < g._among_of_combinations, g.verdictAt k = MatchState.UNKNOWN) := by
  have h2 := Allocated_two_le w n h ha hn hpos
  have hcount : h._among_of_combinations = n * (n - 1) / 2 := by
    rw [Allocated_count w n h ha hn hfit, sweepRows_length_full]
  have hU : ∀ k < n * (n - 1) / 2,
      readAt (some (List.replicate (n * (n - 1) / 2) MatchState.UNKNOWN)) k MatchState.UNKNOWN
        = MatchState.UNKNOWN := by
    intro k hk
    simp only [readAt, Option.getD_some, List.getD_eq_getElem?_getD]
    rw [List.getElem?_replicate, if_pos hk]
    rfl
  have hall : ∀ g : CompareCombinations, g.Allocated w → g._among_of_elements = n →
      CmpComb_PrepareCombinations w (some g) = some (true, some
        { _compare_indexes := some ((sweepRows n n).map Prod.fst)
          _compare_with_indexes := some ((sweepRows n n).map Prod.snd)
          _match_states := some (List.replicate (n * (n - 1) / 2) MatchState.UNKNOWN)
          _among_of_combinations := n * (n - 1) / 2
          _among_of_elements := n }) :=
    fun g hg hgn => Allocated_PrepareCombinations w n g hg hgn h2 hw hfit
  have hA := (Allocated_sweep w n).mpr
    (by rw [NumberOfCombinations_mod, Nat.mod_eq_of_lt hfit])
  refine ⟨_, hall h ha hn, sweep_IsSweep n _, by rw [hcount], hU, hcount.symm, rfl, hall,
    hall _ hA rfl, ?_⟩
  intro heap g hf hg
  rw [Initialize_eq w n heap h2 hw hfit hf] at hg
  split_ifs at hg
  cases hg
  exact ⟨rfl, rfl, hU⟩

/-- On a set that passes the guards of `CmpComb_PrepareCombinations` and whose verdict array is
absent, the call does not return: the reset loop writes through the null pointer. -/
theorem PrepareCombinations_null_states (w : Nat) (xs ys : List Nat) (c n : Nat)
    (hc : c ≠ 0) :
    CmpComb_PrepareCombinations w (some
        { _compare_indexes := some xs
          _compare_with_indexes := some ys
          _match_states := none
          _among_of_combinations := c
          _among_of_elements := n }) = none := by
  obtain ⟨xs1, ys1, e, _, _⟩ := sweep_shape w xs ys none c n
  simp only [CmpComb_PrepareCombinations, hc, if_false, reduceCtorEq, or_self, e, if_true]

/-- C13, as the code has it. On an absent set `CmpComb_PrepareCombinations` returns failure. On
a set whose verdict array is present and whose present arrays hold as many entries as there are
pairs, it returns, and it returns failure exactly when the pair count is 0 or one of the two
index arrays is absent; it returns success when there is at least one pair and both index arrays
are present. When it returns failure the set is unchanged. -/
theorem CmpComb_PrepareCombinations_failure_iff (w : Nat) (h : CompareCombinations)
    (hb : h.InBlocks) :
    CmpComb_PrepareCombinations w none = some (false, none)
      ∧ ∃ b h', CmpComb_PrepareCombinations w (some h) = some (b, some h')
        ∧ (b = false ↔ (h._among_of_combinations = 0 ∨ h._compare_indexes = none
            ∨ h._compare_with_indexes = none))
        ∧ (b = true ↔ (0 < h._among_of_combinations ∧ h._compare_indexes ≠ none
            ∧ h._compare_with_indexes ≠ none))
        ∧ (b = false → h' = h) := by
  refine ⟨rfl, ?_⟩
  by_cases h0 : h._among_of_combinations = 0
  · refine ⟨false, h, ?_, by simp [h0], by simp [h0], fun _ => rfl⟩
    simp [CmpComb_PrepareCombinations, h0]
  · by_cases h1 : h._compare_indexes = none ∨ h._compare_with_indexes = none
    · refine ⟨false, h, ?_, ?_, ?_, fun _ => rfl⟩
      · simp only [CmpComb_PrepareCombinations, h0, if_false, h1, if_true]
      · simp only [true_iff]
        exact Or.inr h1
      · simp only [Bool.false_eq_true, false_iff, not_and, ne_eq, not_not]
        intro _ hi
        rcases h1 with e | e
        · exact absurd e hi
        · exact e
    · simp only [not_or] at h1
      obtain ⟨m1, _, _⟩ := hb
      cases h with
      | mk xs ys ms c n =>
          simp only at h0 h1 m1
          cases xs with
          | none => exact absurd rfl h1.1
          | some xs =>
          cases ys with
          | none => exact absurd rfl h1.2
          | some ys =>
          cases ms with
          | none => simp at m1
          | some zs =>
              obtain ⟨b, xs1, ys1, zs1, e, _, _, _, hbt⟩ := Prepare_shape w xs ys zs c n
              have hb1 : b = true := hbt.mpr h0
              subst hb1
              refine ⟨true, _, e, ?_, ?_, ?_⟩
              · simp [h0]
              · simp only [true_iff]
                exact ⟨Nat.pos_of_ne_zero h0, by simp, by simp⟩
              · intro hh
                cases hh

/-! ## A second call of `CmpFiles_CompareFiles` -/

theorem finishStep_flags (cap : Nat) (v : MatchState) (a b : FILE)
    (h : finishStep cap v a b = true) :
    (a.advance cap).eof = true ∧ (b.advance cap).eof = true
      ∧ (a.advance cap).err = false ∧ (b.advance cap).err = false := by
  simp only [finishStep, finishes, decide_eq_true_eq, feof, ferror] at h
  exact ⟨h.2.2.2.2.2.2.1, h.2.2.2.2.2.2.2, h.2.1, h.2.2.1⟩

theorem returned_session (h : FilesToCompare) (hw : h.WF) (j : Nat)
    (hex : (h.rounds j).exits) :
    ∀ k < h._combinations_handler._among_of_combinations,
      ((h.rounds j).verdictAt k = MatchState.NOT_MATCHED
          ∧ (h.rounds (j + 1)).verdictAt k = MatchState.NOT_MATCHED)
        ∨ ((h.rounds j).verdictAt k ≠ MatchState.NOT_MATCHED
          ∧ (h.rounds (j + 1)).verdictAt k = MatchState.MATCHED
          ∧ ((h.rounds (j + 1)).stream (h.pairAt k).1).eof = true
          ∧ ((h.rounds (j + 1)).stream (h.pairAt k).2).eof = true
          ∧ ((h.rounds (j + 1)).stream (h.pairAt k).1).err = false
          ∧ ((h.rounds (j + 1)).stream (h.pairAt k).2).err = false) := by
  intro k hk
  obtain ⟨w0, n0, _, a0, p0, _, _⟩ := rounds_spec h hw j
  obtain ⟨_, _, _, _, _, s1, _⟩ := roundStep_spec (h.rounds j) w0
  obtain ⟨ha, hb⟩ := hw.2.2.2.2.2.2.2 k hk
  have hfin := exit_verdicts (h.rounds j) w0 hex k (by rw [a0]; exact hk)
  rw [rounds_succ]
  rcases hfin with f | ⟨f1, f2⟩
  · exact Or.inl f
  · right
    refine ⟨f1, f2, ?_⟩
    rcases (exits_iff _ w0).mp hex k (by rw [a0]; exact hk) with e | e
    · exact absurd e f1
    · rw [p0 k] at e
      rw [s1 _ (by rw [n0]; exact ha), s1 _ (by rw [n0]; exact hb)]
      exact finishStep_flags _ _ _ _ e

/-- C15. On a session of at least two streams, whatever its sources: when a call of
`CmpFiles_CompareFiles` has returned the boolean `b` and the session `h'`, a second call on
`h'` returns after one round (and every amount of fuel that lets it return gives the same
result), it returns the same boolean `b`, and the session it returns has the same pair and the
same verdict as `h'` at every position; with a buffer capacity above zero the first call does
return. -/
theorem CmpFiles_CompareFiles_idempotent (h : FilesToCompare) (hw : h.WF)
    (h2 : 2 ≤ h._number_of_filestreams) :
    (∀ fuel b h', CmpFiles_CompareFiles fuel (some h) = some (b, some h') →
        ∃ h'', CmpFiles_CompareFiles 1 (some h') = some (b, some h'')
          ∧ (∀ fuel2 b2 g2, CmpFiles_CompareFiles fuel2 (some h') = some (b2, some g2) →
              b2 = b ∧ g2 = h'')
          ∧ ∀ k < h._combinations_handler._among_of_combinations,
              h''.pairAt k = h'.pairAt k ∧ h''.verdictAt k = h'.verdictAt k)
      ∧ (0 < h._compare_buffer_size →
          ∃ fuel b h', CmpFiles_CompareFiles fuel (some h) = some (b, some h')) := by
  refine ⟨?_, fun hc => ⟨_, run_terminates h hw hc h2⟩⟩
  intro fuel b h' hr
  obtain ⟨j, _, hex, _, rfl, hb⟩ := run_final h hw h2 fuel b h' hr
  obtain ⟨w0, _, _, a0, _, _, _⟩ := rounds_spec h hw j
  obtain ⟨w1, n1, c1, a1, p1, _, _⟩ := rounds_spec h hw (j + 1)
  obtain ⟨_, _, _, _, q5, _, q7⟩ := roundStep_spec (h.rounds (j + 1)) w1
  have hret := returned_session h hw j hex
  have hex1 : (h.rounds (j + 1)).exits := by
    rw [exits_iff _ w1, a1]
    intro k hk
    rcases hret k hk with ⟨_, f⟩ | ⟨_, f, e1, e2, e3, e4⟩
    · exact Or.inl f
    · right
      rw [p1 k]
      exact finishStep_of_eof _ _ _ _ (by rw [f]; decide) e1 e2 e3 e4
  have hsame : ∀ k < h._combinations_handler._among_of_combinations,
      (h.rounds (j + 1)).roundStep.verdictAt k = (h.rounds (j + 1)).verdictAt k := by
    intro k hk
    rw [q7 k (by rw [a1]; exact hk), p1 k]
    rcases hret k hk with ⟨_, f⟩ | ⟨_, f, e1, e2, e3, e4⟩
    · rw [f]; exact verdictStep_NOT_MATCHED _ _ _
    · rw [f]; exact verdictStep_MATCHED_stays _ _ _ e1 e2 e3 e4
  have hbool : b = ((CmpFiles_CompareFiles.round
      (h.rounds (j + 1))._combinations_handler._among_of_combinations
      (h.rounds (j + 1))).skipped_combinations == 0) := by
    rw [hb, Bool.eq_iff_iff, beq_iff_eq, beq_iff_eq]
    have z0 := skipped_zero_iff (h.rounds j) w0
    rw [a0] at z0
    rw [z0, skipped_zero_iff _ w1, a1]
    constructor
    · intro hall k hk
      rcases hret k hk with ⟨f, _⟩ | ⟨_, f, _⟩
      · exact absurd f (hall k hk)
      · rw [f]; decide
    · intro hall k hk
      rcases hret k hk with ⟨_, f⟩ | ⟨f, _⟩
      · exact absurd f (hall k hk)
      · exact f
  have hrun : CmpFiles_CompareFiles 1 (some (h.rounds (j + 1)))
      = some (b, some (h.rounds (j + 1)).roundStep) := by
    rw [CompareFiles_some _ (by rw [n1]; exact h2)]
    refine ⟨b, _, rfl, ?_⟩
    rw [doWhile_succ, if_pos hex1, hbool]
  refine ⟨_, hrun, ?_, ?_⟩
  · intro fuel2 b2 g2 hr2
    exact run_unique _ w1 (by rw [n1]; exact h2) _ _ _ _ _ _ hr2 hrun
  · intro k hk
    exact ⟨q5 k, hsame k hk⟩

/-! ## The construction of a session -/

theorem NoRead_append (a b : List Effect) : NoRead (a ++ b) ↔ NoRead a ∧ NoRead b := by
  simp [NoRead, List.all_append]

theorem NoRead_FreeFilepaths (filepaths : Option (List (Option String))) (among : Nat) :
    NoRead (FreeFilepaths filepaths among) := by
  cases filepaths with
  | none => simp [FreeFilepaths, NoRead]
  | some paths =>
      simp only [FreeFilepaths]
      rw [NoRead_append]
      refine ⟨forRange_invariant NoRead _ ?_ _ _ _ (by simp [NoRead]), by simp [NoRead, Effect.isRead]⟩
      intro i t ht
      split_ifs
      · rw [NoRead_append]; exact ⟨ht, by simp [NoRead, Effect.isRead]⟩
      · exact ht

theorem NoRead_FreeBuffers (compare_buffers : Option (List (Option (List Byte))))
    (among : Nat) : NoRead (FreeBuffers compare_buffers among) := by
  cases compare_buffers with
  | none => simp [FreeBuffers, NoRead]
  | some buffers =>
      simp only [FreeBuffers]
      rw [NoRead_append]
      refine ⟨forRange_invariant NoRead _ ?_ _ _ _ (by simp [NoRead]), by simp [NoRead, Effect.isRead]⟩
      intro i t ht
      split_ifs
      · rw [NoRead_append]; exact ⟨ht, by simp [NoRead, Effect.isRead]⟩
      · exact ht

theorem NoRead_CloseFilestreams (filestreams : Option (List (Option OpenedStream)))
    (among : Nat) : NoRead (CloseFilestreams filestreams among) := by
  cases filestreams with
  | none => simp [CloseFilestreams, NoRead]
  | some streams =>
      simp only [CloseFilestreams]
      rw [NoRead_append]
      refine ⟨forRange_invariant NoRead _ ?_ _ _ _ (by simp [NoRead]), by simp [NoRead, Effect.isRead]⟩
      intro i t ht
      split
      · exact ht
      · split_ifs
        · exact ht
        · rw [NoRead_append]; exact ⟨ht, by simp [NoRead, Effect.isRead]⟩

theorem NoRead_FreeBuffersByteAmong (buffers_byte_among : Option (List Nat)) :
    NoRead (FreeBuffersByteAmong buffers_byte_among) := by
  cases buffers_byte_among <;> simp [FreeBuffersByteAmong, NoRead, Effect.isRead]

theorem NoRead_CmpFiles_Terminate (handler : Option SessionUnderConstruction) :
    NoRead (CmpFiles_Terminate handler) := by
  cases handler with
  | none => simp [CmpFiles_Terminate, NoRead]
  | some h =>
      simp only [CmpFiles_Terminate, NoRead_append]
      refine ⟨⟨⟨⟨⟨NoRead_CloseFilestreams _ _, NoRead_FreeFilepaths _ _⟩, NoRead_FreeBuffers _ _⟩,
        NoRead_FreeBuffersByteAmong _⟩, ?_⟩, by simp [NoRead, Effect.isRead]⟩
      split_ifs <;> simp [NoRead, Effect.isRead]

theorem NoRead_OpenFilestreams (host : Host) (filepaths : List String) (among : Nat) :
    NoRead (OpenFilestreams host filepaths among).2 := by
  unfold OpenFilestreams
  have hloop : NoRead (forRange 0 among (OpenFilestreams.body host filepaths)
      { filestreams := List.replicate among none
        is_stdin_used := false
        jumped := false
        trace := [Effect.malloc Allocation.filestreams] }).trace := by
    apply forRange_invariant (fun s : OpenState => NoRead s.trace)
    · intro i s hs
      have hadd : ∀ t : List Effect, NoRead t → NoRead (s.trace ++ t) :=
        fun t ht => (NoRead_append _ _).mpr ⟨hs, ht⟩
      unfold OpenFilestreams.body
      by_cases hj : s.jumped = true
      · rw [if_pos hj]; exact hs
      · rw [if_neg hj]
        by_cases hp : filepaths.getD i "" = STDIN_FILEPATH_MARK
        · rw [if_pos hp]
          by_cases hu : s.is_stdin_used = true
          · rw [if_pos hu]; exact hs
          · rw [if_neg hu]; exact hs
        · rw [if_neg hp]
          cases host.fopen (filepaths.getD i "") with
          | none => exact hadd _ (by simp [NoRead, Effect.isRead])
          | some file =>
              by_cases hv : host.setvbuf (filepaths.getD i "") = false
              · simp only [hv, if_true]
                exact hadd _ (by simp [NoRead, Effect.isRead])
              · simp only [hv, if_false]
                exact hadd _ (by simp [NoRead, Effect.isRead])
    · simp [NoRead, Effect.isRead]
  dsimp only
  split_ifs
  · simp [NoRead, Effect.isRead]
  · simp only [NoRead_append]
    exact ⟨⟨hloop, by simp [NoRead, Effect.isRead]⟩, NoRead_CloseFilestreams _ _⟩
  · exact hloop

theorem NoRead_AllocateAndCopyFilepaths (host : Host) (filepaths : Option (List String))
    (among : Nat) : NoRead (AllocateAndCopyFilepaths host filepaths among).2 := by
  unfold AllocateAndCopyFilepaths
  cases filepaths with
  | none => simp [NoRead]
  | some paths =>
      have hloop : NoRead (forRange 0 among (AllocateAndCopyFilepaths.copy host paths)
          { cached_filepaths := List.replicate among none
            jumped := false
            trace := [Effect.malloc Allocation.filepaths] }).trace := by
        apply forRange_invariant (fun s : CopyState => NoRead s.trace)
        · intro i s hs
          unfold AllocateAndCopyFilepaths.copy
          split_ifs
          · exact hs
          · simp only [NoRead_append]; exact ⟨hs, by simp [NoRead, Effect.isRead]⟩
          · simp only [NoRead_append]; exact ⟨hs, by simp [NoRead, Effect.isRead]⟩
        · simp [NoRead, Effect.isRead]
      dsimp only
      split_ifs
      · simp [NoRead]
      · simp [NoRead]
      · simp [NoRead, Effect.isRead]
      · simp only [NoRead_append]
        exact ⟨⟨hloop, by simp [NoRead, Effect.isRead]⟩, NoRead_FreeFilepaths _ _⟩
      · exact hloop

theorem NoRead_AllocateBuffers (host : Host) (among size : Nat) :
    NoRead (AllocateBuffers host among size).2 := by
  unfold AllocateBuffers
  have hloop : NoRead (forRange 0 among (AllocateBuffers.body host size)
      { compare_buffers := List.replicate among none
        jumped := false
        trace := [Effect.malloc Allocation.compare_buffers] }).trace := by
    apply forRange_invariant (fun s : BuffersState => NoRead s.trace)
    · intro i s hs
      unfold AllocateBuffers.body
      split_ifs
      · exact hs
      · simp only [NoRead_append]; exact ⟨hs, by simp [NoRead, Effect.isRead]⟩
      · simp only [NoRead_append]; exact ⟨hs, by simp [NoRead, Effect.isRead]⟩
    · simp [NoRead, Effect.isRead]
  dsimp only
  split_ifs
  · simp [NoRead, Effect.isRead]
  · simp only [NoRead_append]
    exact ⟨⟨hloop, by simp [NoRead, Effect.isRead]⟩, NoRead_FreeBuffers _ _⟩
  · exact hloop

theorem NoRead_AllocateBuffersByteAmong (host : Host) (number_of_buffers : Nat) :
    NoRead (AllocateBuffersByteAmong host number_of_buffers).2 := by
  unfold AllocateBuffersByteAmong
  split_ifs <;> simp [NoRead, Effect.isRead]

theorem NoRead_CmpFiles_Initialize (w : Nat) (host : Host) (filepaths : Option (List String))
    (number_of_files compare_buffer_size : Nat) :
    NoRead (CmpFiles_Initialize w host filepaths number_of_files compare_buffer_size).2 := by
  have hm : NoRead [Effect.malloc Allocation.session] := by simp [NoRead, Effect.isRead]
  have hc : NoRead [Effect.malloc Allocation.combinations] := by simp [NoRead, Effect.isRead]
  have hf : NoRead [Effect.fputs "CmpFiles_Initialize"] := by simp [NoRead, Effect.isRead]
  have ho := NoRead_OpenFilestreams host
  have hp := NoRead_AllocateAndCopyFilepaths host
  have hb := NoRead_AllocateBuffers host
  have hn := NoRead_AllocateBuffersByteAmong host
  have ht := NoRead_CmpFiles_Terminate
  unfold CmpFiles_Initialize
  cases filepaths with
  | none => simp [NoRead]
  | some paths =>
      dsimp only
      split_ifs <;> (try simp only [NoRead_append]) <;>
        first
          | exact (by simp [NoRead] : NoRead [])
          | exact hm
          | exact ⟨⟨⟨hm, ho _ _⟩, hf⟩, ht _⟩
          | exact ⟨⟨⟨⟨hm, ho _ _⟩, hp _ _⟩, hf⟩, ht _⟩
          | exact ⟨⟨⟨⟨⟨hm, ho _ _⟩, hp _ _⟩, hb _ _⟩, hf⟩, ht _⟩
          | exact ⟨⟨⟨⟨⟨⟨hm, ho _ _⟩, hp _ _⟩, hb _ _⟩, hn _⟩, hf⟩, ht _⟩
          | exact ⟨⟨⟨⟨⟨⟨⟨hm, ho _ _⟩, hp _ _⟩, hb _ _⟩, hn _⟩, hc⟩, hf⟩, ht _⟩
          | exact ⟨⟨⟨⟨⟨hm, ho _ _⟩, hp _ _⟩, hb _ _⟩, hn _⟩, hc⟩

theorem take_succ_getD {α : Type} (l : List α) (m : Nat) (d : α) (hm : m < l.length) :
    l.take (m + 1) = l.take m ++ [l.getD m d] := by
  rw [List.take_succ, List.getD_eq_getElem?_getD, List.getElem?_eq_getElem hm]
  rfl

theorem getD_set_self {α : Type} (l : List α) (m : Nat) (v d : α) (hm : m < l.length) :
    (l.set m v).getD m d = v := by
  simp [List.getD_eq_getElem?_getD, List.getElem?_set, hm]

theorem getD_set_other {α : Type} (l : List α) (m i : Nat) (v d : α) (hmi : m ≠ i) :
    (l.set m v).getD i d = l.getD i d := by
  simp [List.getD_eq_getElem?_getD, List.getElem?_set, hmi]

theorem open_after_succ (host : Host) (filepaths : List String) (among m : Nat) :
    OpenFilestreams.after host filepaths among (m + 1)
      = OpenFilestreams.body host filepaths m (OpenFilestreams.after host filepaths among m) :=
  forRange_succ 0 m (Nat.zero_le m) _ _

theorem open_after (host : Host) (filepaths : List String) :
    ∀ m, m ≤ filepaths.length →
      (OpenFilestreams.after host filepaths filepaths.length m).filestreams.length
          = filepaths.length
        ∧ ((OpenFilestreams.after host filepaths filepaths.length m).jumped = false →
            ((OpenFilestreams.after host filepaths filepaths.length m).is_stdin_used = true
                ↔ 0 < (filepaths.take m).count STDIN_FILEPATH_MARK)
              ∧ (filepaths.take m).count STDIN_FILEPATH_MARK ≤ 1
              ∧ ∀ i < m, filepaths.getD i "" = STDIN_FILEPATH_MARK →
                  (OpenFilestreams.after host filepaths filepaths.length m).filestreams.getD i
                      none
                    = some { is_stdin := true, path := filepaths.getD i "", file := host.stdin })
        ∧ ((∀ i < m, filepaths.getD i "" ≠ STDIN_FILEPATH_MARK →
              (host.fopen (filepaths.getD i "")).isSome = true
                ∧ host.setvbuf (filepaths.getD i "") = true) →
            (filepaths.take m).count STDIN_FILEPATH_MARK ≤ 1 →
            (OpenFilestreams.after host filepaths filepaths.length m).jumped = false) := by
  intro m
  induction m with
  | zero =>
      intro _
      simp [OpenFilestreams.after, forRange_empty 0 0 (Nat.le_refl 0)]
  | succ m ih =>
      intro hm
      have hlt : m < filepaths.length := by omega
      obtain ⟨i1, i2, i3⟩ := ih (by omega)
      rw [open_after_succ]
      generalize OpenFilestreams.after host filepaths filepaths.length m = s at i1 i2 i3
      have htake := take_succ_getD filepaths m "" hlt
      have hcount : (filepaths.take (m + 1)).count STDIN_FILEPATH_MARK
          = (filepaths.take m).count STDIN_FILEPATH_MARK
            + (if filepaths.getD m "" = STDIN_FILEPATH_MARK then 1 else 0) := by
        rw [htake, List.count_append, List.count_singleton]
        by_cases hp : filepaths.getD m "" = STDIN_FILEPATH_MARK
        · simp [hp]
        · simp [hp]
      have hopen : (∀ i < m + 1, filepaths.getD i "" ≠ STDIN_FILEPATH_MARK →
            (host.fopen (filepaths.getD i "")).isSome = true
              ∧ host.setvbuf (filepaths.getD i "") = true) →
          (filepaths.take (m + 1)).count STDIN_FILEPATH_MARK ≤ 1 → s.jumped = false :=
        fun ho hc => i3 (fun i hi => ho i (by omega)) (by rw [hcount] at hc; omega)
      unfold OpenFilestreams.body
      by_cases hj : s.jumped = true
      · rw [if_pos hj]
        refine ⟨i1, (fun hf => by rw [hj] at hf; cases hf), fun ho hc => ?_⟩
        have := hopen ho hc
        rw [hj] at this
        cases this
      · rw [if_neg hj]
        have hjf : s.jumped = false := by simpa using hj
        obtain ⟨j1, j2, j3⟩ := i2 hjf
        by_cases hp : filepaths.getD m "" = STDIN_FILEPATH_MARK
        · rw [if_pos hp]
          rw [if_pos hp] at hcount
          by_cases hu : s.is_stdin_used = true
          · rw [if_pos hu]
            refine ⟨i1, (fun hf => by simp at hf), fun _ hc => ?_⟩
            have := j1.mp hu
            omega
          · rw [if_neg hu]
            have h0 : (filepaths.take m).count STDIN_FILEPATH_MARK = 0 := by
              by_contra hne
              exact hu (j1.mpr (by omega))
            refine ⟨by simpa using i1, fun _ => ⟨?_, by omega, ?_⟩, fun _ _ => hjf⟩
            · simp only [true_iff]; omega
            · intro i hi hpi
              by_cases him : m = i
              · subst him
                exact getD_set_self _ _ _ _ (by rw [i1]; exact hlt)
              · rw [getD_set_other _ _ _ _ _ him]
                exact j3 i (by omega) hpi
        · rw [if_neg hp]
          rw [if_neg hp] at hcount
          cases hfo : host.fopen (filepaths.getD m "") with
          | none =>
              refine ⟨i1, (fun hf => by simp at hf), fun ho _ => ?_⟩
              have := (ho m (Nat.lt_succ_self m) hp).1
              rw [hfo] at this
              cases this
          | some file =>
              dsimp only
              by_cases hv : host.setvbuf (filepaths.getD m "") = false
              · rw [if_pos hv]
                refine ⟨i1, (fun hf => by simp at hf), fun ho _ => ?_⟩
                have := (ho m (Nat.lt_succ_self m) hp).2
                rw [hv] at this
                cases this
              · rw [if_neg hv]
                refine ⟨by simpa using i1, fun _ => ⟨?_, by omega, ?_⟩, fun _ _ => hjf⟩
                · rw [hcount]; exact j1
                · intro i hi hpi
                  have him : m ≠ i := fun e => hp (by rw [e]; exact hpi)
                  have hset := getD_set_other s.filestreams m i
                    (some { is_stdin := false, path := filepaths.getD m "", file := file })
                    none him
                  have hold := j3 i (by omega) hpi
                  rw [← hset] at hold
                  exact hold

theorem OpenFilestreams_eq (host : Host) (filepaths : List String) (among : Nat) :
    OpenFilestreams host filepaths among
      = if host.allocates Allocation.filestreams = false then
          (none, [Effect.malloc Allocation.filestreams])
        else if (OpenFilestreams.after host filepaths among among).jumped = true then
          (none, (OpenFilestreams.after host filepaths among among).trace
            ++ [Effect.fputs "OpenFilestreams"]
            ++ CloseFilestreams
              (some (OpenFilestreams.after host filepaths among among).filestreams) among)
        else
          (some (OpenFilestreams.after host filepaths among among).filestreams,
            (OpenFilestreams.after host filepaths among among).trace) := rfl

theorem OpenFilestreams_stdin (host : Host) (filepaths : List String) :
    (2 ≤ filepaths.count STDIN_FILEPATH_MARK →
        (OpenFilestreams host filepaths filepaths.length).1 = none)
      ∧ (∀ streams, (OpenFilestreams host filepaths filepaths.length).1 = some streams →
          streams.length = filepaths.length
            ∧ ∀ i < filepaths.length, filepaths.getD i "" = STDIN_FILEPATH_MARK →
              streams.getD i none
                = some { is_stdin := true, path := filepaths.getD i "", file := host.stdin })
      ∧ (host.allocates Allocation.filestreams = true →
          (∀ i < filepaths.length, filepaths.getD i "" ≠ STDIN_FILEPATH_MARK →
            (host.fopen (filepaths.getD i "")).isSome = true
              ∧ host.setvbuf (filepaths.getD i "") = true) →
          filepaths.count STDIN_FILEPATH_MARK ≤ 1 →
          ∃ streams, (OpenFilestreams host filepaths filepaths.length).1 = some streams) := by
  obtain ⟨a1, a2, a3⟩ := open_after host filepaths filepaths.length (Nat.le_refl _)
  rw [List.take_length] at a2 a3
  rw [OpenFilestreams_eq]
  refine ⟨?_, ?_, ?_⟩
  · intro h2
    split_ifs with h1 h3
    · rfl
    · rfl
    · have := (a2 (by simpa using h3)).2.1
      omega
  · intro streams hs
    split_ifs at hs with h1 h3
    obtain rfl := Option.some.inj hs
    exact ⟨a1, (a2 (by simpa using h3)).2.2⟩
  · intro hal ho hc
    have hj := a3 ho hc
    rw [if_neg (by rw [hal]; decide), if_neg (by rw [hj]; decide)]
    exact ⟨_, rfl⟩

theorem Initialize_none_of_open (w : Nat) (host : Host) (filepaths : List String)
    (number_of_files compare_buffer_size : Nat)
    (ho : (OpenFilestreams host filepaths number_of_files).1 = none) :
    (CmpFiles_Initialize w host (some filepaths) number_of_files compare_buffer_size).1
      = none := by
  unfold CmpFiles_Initialize
  dsimp only
  rw [ho]
  split_ifs <;> first | rfl | (exfalso; simp_all)

theorem Initialize_some (w : Nat) (host : Host) (filepaths : List String)
    (number_of_files compare_buffer_size : Nat) (h : FilesToCompare)
    (hr : (CmpFiles_Initialize w host (some filepaths) number_of_files compare_buffer_size).1
      = some h) :
    ∃ streams, (OpenFilestreams host filepaths number_of_files).1 = some streams
      ∧ h._filestreams
        = streams.map (fun stream => (stream.map (fun opened => opened.file)).getD FILE.absent)
      ∧ h._number_of_filestreams = number_of_files
      ∧ h._compare_buffer_size = compare_buffer_size := by
  cases hop : (OpenFilestreams host filepaths number_of_files).1 with
  | none =>
      rw [Initialize_none_of_open w host filepaths _ _ hop] at hr
      cases hr
  | some streams =>
      refine ⟨streams, rfl, ?_⟩
      unfold CmpFiles_Initialize at hr
      dsimp only at hr
      rw [hop] at hr
      split_ifs at hr
      obtain rfl := Option.some.inj hr
      simp [SessionUnderConstruction.session]

theorem Initialize_stream_stdin (w : Nat) (host : Host) (filepaths : List String)
    (compare_buffer_size : Nat) (h : FilesToCompare)
    (hr : (CmpFiles_Initialize w host (some filepaths) filepaths.length compare_buffer_size).1
      = some h) (i : Nat) (hi : i < filepaths.length)
    (hp : filepaths.getD i "" = STDIN_FILEPATH_MARK) : h.stream i = host.stdin := by
  obtain ⟨streams, ho, hs, _, _⟩ := Initialize_some w host filepaths _ _ h hr
  obtain ⟨hl, hb⟩ := (OpenFilestreams_stdin host filepaths).2.1 streams ho
  have hget := hb i hi hp
  have hil : i < streams.length := by rw [hl]; exact hi
  rw [List.getD_eq_getElem?_getD, List.getElem?_eq_getElem hil] at hget
  simp only [Option.getD_some] at hget
  simp only [FilesToCompare.stream, hs, List.getD_eq_getElem?_getD, List.getElem?_map,
    List.getElem?_eq_getElem hil, Option.map_some', Option.getD_some, hget]

/-- C16. For every list of source paths, `OpenFilestreams` called for all of them, and
`CmpFiles_Initialize` with any buffer capacity: when "stdin" occurs more than once in the list,
`OpenFilestreams` returns `NULL` and `CmpFiles_Initialize` returns no session; in every case
none of their requests to the host reads from a source; when they return streams, every
position whose path is "stdin" holds the stream `stdin` of the host, with all its bytes still to
deliver; and `OpenFilestreams` does return streams when the allocation of the array succeeds,
every other path opens and is configured, and "stdin" occurs at most once. -/
theorem CmpFiles_Initialize_exclusive_stdin (w : Nat) (host : Host) (filepaths : List String)
    (compare_buffer_size : Nat) :
    (2 ≤ filepaths.count STDIN_FILEPATH_MARK →
        (OpenFilestreams host filepaths filepaths.length).1 = none
          ∧ (CmpFiles_Initialize w host (some filepaths) filepaths.length
              compare_buffer_size).1 = none)
      ∧ NoRead (OpenFilestreams host filepaths filepaths.length).2
      ∧ NoRead (CmpFiles_Initialize w host (some filepaths) filepaths.length
          compare_buffer_size).2
      ∧ (∀ streams, (OpenFilestreams host filepaths filepaths.length).1 = some streams →
          ∀ i < filepaths.length, filepaths.getD i "" = STDIN_FILEPATH_MARK →
            streams.getD i none
              = some { is_stdin := true, path := filepaths.getD i "", file := host.stdin })
      ∧ (∀ h, (CmpFiles_Initialize w host (some filepaths) filepaths.length
            compare_buffer_size).1 = some h →
          ∀ i < filepaths.length, filepaths.getD i "" = STDIN_FILEPATH_MARK →
            h.stream i = host.stdin)
      ∧ (host.allocates Allocation.filestreams = true →
          (∀ i < filepaths.length, filepaths.getD i "" ≠ STDIN_FILEPATH_MARK →
            (host.fopen (filepaths.getD i "")).isSome = true
              ∧ host.setvbuf (filepaths.getD i "") = true) →
          filepaths.count STDIN_FILEPATH_MARK ≤ 1 →
          ∃ streams, (OpenFilestreams host filepaths filepaths.length).1 = some streams) := by
  obtain ⟨o1, o2, o3⟩ := OpenFilestreams_stdin host filepaths
  refine ⟨fun h2 => ⟨o1 h2, Initialize_none_of_open w host filepaths _ _ (o1 h2)⟩,
    NoRead_OpenFilestreams _ _ _, NoRead_CmpFiles_Initialize _ _ _ _ _,
    fun streams hs => (o2 streams hs).2,
    fun h hr i hi hp => Initialize_stream_stdin w host filepaths _ h hr i hi hp, o3⟩

/-- C17. `CmpFiles_Initialize` returns `NULL` when the list of paths is absent, when the
number of files is 0 and when the buffer capacity is 0, and in these three cases it has asked
nothing from the host: no allocation, no opening of a source. -/
theorem CmpFiles_Initialize_rejects (w : Nat) (host : Host) (filepaths : Option (List String))
    (number_of_files compare_buffer_size : Nat) :
    (filepaths = none ∨ number_of_files = 0 ∨ compare_buffer_size = 0) →
      CmpFiles_Initialize w host filepaths number_of_files compare_buffer_size = (none, []) := by
  intro hg
  unfold CmpFiles_Initialize
  cases filepaths with
  | none => rfl
  | some paths =>
      dsimp only
      rcases hg with hf | hn | hc
      · cases hf
      · rw [if_pos hn]
      · by_cases hn : number_of_files = 0
        · rw [if_pos hn]
        · rw [if_neg hn, if_pos hc]

theorem Initialize_opens_single (w : Nat) (host : Host) (path : String)
    (compare_buffer_size : Nat) (hc : 0 < compare_buffer_size)
    (hp : path ≠ STDIN_FILEPATH_MARK) (ha : host.allocates Allocation.session = true)
    (hb : host.allocates Allocation.filestreams = true) :
    Effect.fopen path
      ∈ (CmpFiles_Initialize w host (some [path]) 1 compare_buffer_size).2 := by
  have hopen : Effect.fopen path ∈ (OpenFilestreams host [path] 1).2 := by
    have hafter : Effect.fopen path ∈ (OpenFilestreams.after host [path] 1 1).trace := by
      have e : OpenFilestreams.after host [path] 1 1
          = OpenFilestreams.body host [path] 0 (OpenFilestreams.after host [path] 1 0) :=
        open_after_succ host [path] 1 0
      rw [e]
      simp only [OpenFilestreams.after, forRange_empty 0 0 (Nat.le_refl 0),
        OpenFilestreams.body, List.getD_cons_zero, hp, if_false, Bool.false_eq_true]
      cases host.fopen path with
      | none => simp
      | some file =>
          dsimp only
          split_ifs <;> simp
    rw [OpenFilestreams_eq, if_neg (by rw [hb]; decide)]
    split_ifs
    · simp only [List.mem_append]
      exact Or.inl (Or.inl hafter)
    · exact hafter
  have hne : compare_buffer_size ≠ 0 := by omega
  unfold CmpFiles_Initialize
  dsimp only
  rw [if_neg (by decide), if_neg hne, if_neg (by rw [ha]; decide)]
  split_ifs <;> simp only [List.mem_append] <;> simp [hopen]

/-- C18, as the code has it. For a number of streams below 2, `CmpFiles_CompareFiles` returns
`false` and the session is unchanged: no stream is read, no verdict, buffer or byte count is
changed; on an absent session it returns `false`. `CmpFiles_Initialize` asks nothing from the
host for a number of files of 0, and never reads from a source; for one file whose path is not
"stdin" it does open the source, once the session and the stream array are allocated. -/
theorem CmpFiles_below_two_sources (w : Nat) (host : Host) :
    (∀ fuel (h : FilesToCompare), h._number_of_filestreams < 2 →
        CmpFiles_CompareFiles fuel (some h) = some (false, some h))
      ∧ (∀ fuel, CmpFiles_CompareFiles fuel none = some (false, none))
      ∧ (∀ filepaths compare_buffer_size,
          CmpFiles_Initialize w host filepaths 0 compare_buffer_size = (none, []))
      ∧ (∀ filepaths number_of_files compare_buffer_size,
          NoRead (CmpFiles_Initialize w host filepaths number_of_files compare_buffer_size).2)
      ∧ (∀ path compare_buffer_size, 0 < compare_buffer_size → path ≠ STDIN_FILEPATH_MARK →
          host.allocates Allocation.session = true →
          host.allocates Allocation.filestreams = true →
          Effect.fopen path
            ∈ (CmpFiles_Initialize w host (some [path]) 1 compare_buffer_size).2) := by
  refine ⟨?_, fun _ => rfl, ?_, NoRead_CmpFiles_Initialize w host, ?_⟩
  · intro fuel h hlt
    simp only [CmpFiles_CompareFiles, hlt, if_true]
  · intro filepaths cap
    unfold CmpFiles_Initialize
    cases filepaths with
    | none => rfl
    | some paths => simp
  · intro path cap hc hp ha hb
    exact Initialize_opens_single w host path cap hc hp ha hb

theorem verdictAt_setMatchState (g : FilesToCompare) (k : Nat) (v : MatchState)
    (hk : k < (g._combinations_handler._match_states.getD []).length) :
    (g.setMatchState k v).verdictAt k = v := by
  simp only [FilesToCompare.verdictAt, CompareCombinations.verdictAt,
    FilesToCompare.setMatchState, readAt_writeAt]
  rw [if_pos ⟨trivial, hk⟩]

theorem judge_table (a b : FILE) (na nb : Nat) (ba bb : List Byte)
    (ha : ferror a = false) (hb : ferror b = false) :
    judge MatchState.UNKNOWN a b na nb ba bb
      = if feof a ≠ feof b then MatchState.NOT_MATCHED
        else if na ≠ nb then MatchState.NOT_MATCHED
        else if 0 < na ∧ ba.take na ≠ bb.take nb then MatchState.NOT_MATCHED
        else if na = 0 ∧ ¬ (feof a = true ∧ feof b = true) then MatchState.NOT_MATCHED
        else if na = 0 then MatchState.MATCHED
        else MatchState.UNKNOWN := by
  simp only [judge, ha, hb, memcmpDiffers]
  by_cases h1 : feof a = feof b
  · by_cases h2 : na = nb
    · subst h2
      by_cases h3 : 0 < na
      · by_cases h4 : ba.take na = bb.take na
        · simp [h1, h3, h4, Nat.pos_iff_ne_zero.mp h3]
        · simp [h1, h3, h4]
      · have h0 : na = 0 := by omega
        subst h0
        by_cases h5 : feof b = true <;> simp [h1, h5]
    · simp [h1, h2]
  · simp [h1]

theorem advance_eof_of_chunk (cap : Nat) (s : FILE) (hpos : 0 < (s.chunk cap).length)
    (he : (s.advance cap).err = false) :
    (s.advance cap).eof = decide ((s.chunk cap).length < cap) := by
  unfold FILE.chunk at hpos ⊢
  unfold FILE.advance at he ⊢
  by_cases h : s.eof = true
  · simp [h] at hpos
  · simp only [h, if_false, Bool.false_eq_true] at hpos he ⊢
    cases hf : s.faulty <;> simp_all

theorem readAll_block (h : FilesToCompare) (hw : h.WF) (i : Nat)
    (hi : i < h._number_of_filestreams) :
    h.readAll.count i = ((h.stream i).chunk h._compare_buffer_size).length
      ∧ h.readAll.block i = (h.stream i).chunk h._compare_buffer_size := by
  have hc := readAll_count h hw i hi
  have hb := readAll_buffer h hw i hi
  refine ⟨hc, ?_⟩
  unfold FilesToCompare.block FilesToCompare.count
  rw [hc, hb, List.take_left']
  rfl

theorem compare_table (s : RoundState) (k a b : Nat)
    (hk : k < (s.handler._combinations_handler._match_states.getD []).length)
    (hp : s.handler.pairAt k = (a, b))
    (hu : s.handler.verdictAt k = MatchState.UNKNOWN)
    (ha : ferror (s.handler.stream a) = false) (hb : ferror (s.handler.stream b) = false) :
    (CmpFiles_CompareFiles.compare k s).handler.verdictAt k
      = if feof (s.handler.stream a) ≠ feof (s.handler.stream b) then MatchState.NOT_MATCHED
        else if s.handler.count a ≠ s.handler.count b then MatchState.NOT_MATCHED
        else if 0 < s.handler.count a ∧ s.handler.block a ≠ s.handler.block b then
          MatchState.NOT_MATCHED
        else if s.handler.count a = 0
            ∧ ¬ (feof (s.handler.stream a) = true ∧ feof (s.handler.stream b) = true) then
          MatchState.NOT_MATCHED
        else if s.handler.count a = 0 then MatchState.MATCHED
        else MatchState.UNKNOWN := by
  rw [compare_eq]
  simp only
  rw [verdictAt_setMatchState _ _ _ hk]
  unfold FilesToCompare.judgeAt
  rw [hu, hp]
  exact judge_table _ _ _ _ _ _ ha hb

/-- C21. One evaluation of the pair loop, for a position whose verdict is `UNKNOWN` and whose
two streams have no error indicator set, leaves the verdict that the decision table gives:
`NOT_MATCHED` if the two end-of-file indicators differ, else if the two byte counts differ, else
if the count is above 0 and the two blocks differ, else if the count is 0 and not both streams
are at end of file; else `MATCHED` if the count is 0; else `UNKNOWN`. This holds for every state
of the loop, and in a round of a well-formed session, where the evaluation sees the session
after the reads: the verdict after the round is `MATCHED` exactly when both counts are 0 and
both streams are at end of file, and `UNKNOWN` exactly when the count is above 0 and the two
blocks are equal. -/
theorem CmpFiles_CompareFiles_decision_table (h : FilesToCompare) (hw : h.WF) (k a b : Nat)
    (hk : k < h._combinations_handler._among_of_combinations)
    (hp : h.pairAt k = (a, b))
    (hu : h.verdictAt k = MatchState.UNKNOWN)
    (ha : ferror (h.readAll.stream a) = false) (hb : ferror (h.readAll.stream b) = false) :
    (∀ s : RoundState,
        k < (s.handler._combinations_handler._match_states.getD []).length →
        s.handler.pairAt k = (a, b) →
        s.handler.verdictAt k = MatchState.UNKNOWN →
        ferror (s.handler.stream a) = false → ferror (s.handler.stream b) = false →
        (CmpFiles_CompareFiles.compare k s).handler.verdictAt k
          = if feof (s.handler.stream a) ≠ feof (s.handler.stream b) then
              MatchState.NOT_MATCHED
            else if s.handler.count a ≠ s.handler.count b then MatchState.NOT_MATCHED
            else if 0 < s.handler.count a ∧ s.handler.block a ≠ s.handler.block b then
              MatchState.NOT_MATCHED
            else if s.handler.count a = 0
                ∧ ¬ (feof (s.handler.stream a) = true ∧ feof (s.handler.stream b) = true) then
              MatchState.NOT_MATCHED
            else if s.handler.count a = 0 then MatchState.MATCHED
            else MatchState.UNKNOWN)
      ∧ h.roundStep.verdictAt k
        = (if feof (h.readAll.stream a) ≠ feof (h.readAll.stream b) then MatchState.NOT_MATCHED
          else if h.readAll.count a ≠ h.readAll.count b then MatchState.NOT_MATCHED
          else if 0 < h.readAll.count a ∧ h.readAll.block a ≠ h.readAll.block b then
            MatchState.NOT_MATCHED
          else if h.readAll.count a = 0
              ∧ ¬ (feof (h.readAll.stream a) = true ∧ feof (h.readAll.stream b) = true) then
            MatchState.NOT_MATCHED
          else if h.readAll.count a = 0 then MatchState.MATCHED
          else MatchState.UNKNOWN)
      ∧ (h.roundStep.verdictAt k = MatchState.MATCHED ↔
          h.readAll.count a = 0 ∧ h.readAll.count b = 0
            ∧ feof (h.readAll.stream a) = true ∧ feof (h.readAll.stream b) = true)
      ∧ (h.roundStep.verdictAt k = MatchState.UNKNOWN ↔
          0 < h.readAll.count a ∧ h.readAll.block a = h.readAll.block b) := by
  obtain ⟨hka, hkb⟩ := hw.2.2.2.2.2.2.2 k hk
  rw [hp] at hka hkb
  simp only at hka hkb
  obtain ⟨ca, ba⟩ := readAll_block h hw a hka
  obtain ⟨cb, bb⟩ := readAll_block h hw b hkb
  have sa := readAll_stream h hw a hka
  have sb := readAll_stream h hw b hkb
  have htab : h.roundStep.verdictAt k
      = (if feof (h.readAll.stream a) ≠ feof (h.readAll.stream b) then MatchState.NOT_MATCHED
        else if h.readAll.count a ≠ h.readAll.count b then MatchState.NOT_MATCHED
        else if 0 < h.readAll.count a ∧ h.readAll.block a ≠ h.readAll.block b then
          MatchState.NOT_MATCHED
        else if h.readAll.count a = 0
            ∧ ¬ (feof (h.readAll.stream a) = true ∧ feof (h.readAll.stream b) = true) then
          MatchState.NOT_MATCHED
        else if h.readAll.count a = 0 then MatchState.MATCHED
        else MatchState.UNKNOWN) := by
    rw [(roundStep_spec h hw).2.2.2.2.2.2 k hk, ← (readAll_judgeAt h hw k hk).1]
    unfold FilesToCompare.judgeAt
    have hv : h.readAll.verdictAt k = MatchState.UNKNOWN := by
      unfold FilesToCompare.verdictAt
      rw [(readAll_fields h).2.2.2.1]
      exact hu
    have hq : h.readAll.pairAt k = (a, b) := by
      unfold FilesToCompare.pairAt
      rw [(readAll_fields h).2.2.2.1]
      exact hp
    rw [hv, hq]
    exact judge_table _ _ _ _ _ _ ha hb
  refine ⟨fun s h1 h2 h3 h4 h5 => compare_table s k a b h1 h2 h3 h4 h5, htab, ?_, ?_⟩
  · rw [htab]
    constructor
    · intro hm
      split_ifs at hm with c1 c2 c3 c4 c5
      refine ⟨c5, ?_, ?_⟩
      · rw [← not_not.mp c2]; exact c5
      · by_contra hne
        exact c4 ⟨c5, hne⟩
    · rintro ⟨z1, z2, e1, e2⟩
      simp [z1, z2, e1, e2]
  · rw [htab]
    constructor
    · intro hm
      split_ifs at hm with c1 c2 c3 c4 c5
      have hpos : 0 < h.readAll.count a := Nat.pos_of_ne_zero c5
      refine ⟨hpos, ?_⟩
      by_contra hne
      exact c3 ⟨hpos, hne⟩
    · rintro ⟨hpos, hbl⟩
      have hlen : h.readAll.count a = h.readAll.count b := by
        rw [ca, cb, ← ba, ← bb, hbl]
      have hpb : 0 < h.readAll.count b := hlen ▸ hpos
      have ea := advance_eof_of_chunk h._compare_buffer_size (h.stream a) (ca ▸ hpos)
        (by rw [← sa]; exact ha)
      have eb := advance_eof_of_chunk h._compare_buffer_size (h.stream b) (cb ▸ hpb)
        (by rw [← sb]; exact hb)
      have heof : feof (h.readAll.stream a) = feof (h.readAll.stream b) := by
        unfold feof
        rw [sa, sb, ea, eb, ← ca, ← cb, hlen]
      simp [heof, hlen, hbl, Nat.pos_iff_ne_zero.mp hpb]

theorem compare_skip (k : Nat) (s : RoundState)
    (hv : s.handler.verdictAt k = MatchState.NOT_MATCHED) :
    CmpFiles_CompareFiles.compare k s
      = { s with skipped_combinations := s.skipped_combinations + 1 } := by
  unfold FilesToCompare.verdictAt CompareCombinations.verdictAt at hv
  simp only [CmpFiles_CompareFiles.compare, hv, if_true]

/-- C22, as the code has it. A position whose verdict is `NOT_MATCHED` is skipped: its
evaluation changes nothing but the counter of skipped positions, and after a round of a
well-formed session its verdict is `NOT_MATCHED`, whatever the state of its two streams. A
position whose verdict is `MATCHED` is evaluated again in every round: after the round its
verdict is `MATCHED` when both its streams are at end of file with no error indicator set, and
`NOT_MATCHED` when the error indicator of one of its streams is set after the reads. -/
theorem CmpFiles_CompareFiles_skips_not_matched (h : FilesToCompare) (hw : h.WF) (k : Nat)
    (hk : k < h._combinations_handler._among_of_combinations) :
    (∀ s : RoundState, s.handler.verdictAt k = MatchState.NOT_MATCHED →
        CmpFiles_CompareFiles.compare k s
          = { s with skipped_combinations := s.skipped_combinations + 1 })
      ∧ (h.verdictAt k = MatchState.NOT_MATCHED →
          h.roundStep.verdictAt k = MatchState.NOT_MATCHED)
      ∧ (h.verdictAt k = MatchState.MATCHED →
          (h.stream (h.pairAt k).1).eof = true → (h.stream (h.pairAt k).2).eof = true →
          (h.stream (h.pairAt k).1).err = false → (h.stream (h.pairAt k).2).err = false →
          h.roundStep.verdictAt k = MatchState.MATCHED)
      ∧ (h.verdictAt k = MatchState.MATCHED →
          (h.roundStep.stream (h.pairAt k).1).err = true
            ∨ (h.roundStep.stream (h.pairAt k).2).err = true →
          h.roundStep.verdictAt k = MatchState.NOT_MATCHED) := by
  obtain ⟨_, _, _, _, _, hst, hv⟩ := roundStep_spec h hw
  obtain ⟨ha, hb⟩ := hw.2.2.2.2.2.2.2 k hk
  refine ⟨fun s hs => compare_skip k s hs, ?_, ?_, ?_⟩
  · intro hn
    rw [hv k hk, hn]
    exact verdictStep_NOT_MATCHED _ _ _
  · intro hm e1 e2 e3 e4
    rw [hv k hk, hm]
    exact verdictStep_MATCHED_stays _ _ _ e1 e2 e3 e4
  · intro _ he
    rw [hv k hk]
    rw [hst _ ha, hst _ hb] at he
    exact verdictStep_of_err _ _ _ _ he

theorem pair_verdict_final (h : FilesToCompare) (hw : h.WF)
    (h2 : 2 ≤ h._number_of_filestreams) (hc : 0 < h._compare_buffer_size) (k : Nat)
    (hk : k < h._combinations_handler._among_of_combinations)
    (ha : (h.stream (h.pairAt k).1).fresh) (hb : (h.stream (h.pairAt k).2).fresh)
    (hu : h.verdictAt k = MatchState.UNKNOWN) (fuel : Nat) (b : Bool) (h' : FilesToCompare)
    (hr : CmpFiles_CompareFiles fuel (some h) = some (b, some h')) :
    h'.verdictAt k
      = if (h.stream (h.pairAt k).1).pending = (h.stream (h.pairAt k).2).pending then
          MatchState.MATCHED
        else MatchState.NOT_MATCHED := by
  obtain ⟨j, _, hex, _, rfl, _⟩ := run_final h hw h2 _ b h' hr
  obtain ⟨w0, _, _, a0, _, _, _⟩ := rounds_spec h hw j
  obtain ⟨_, _, _, _, _, _, t1⟩ := rounds_spec h hw (j + 1)
  have hcorr := PairCorrect_iterate h._compare_buffer_size hc _ _ _
    (PairCorrect_initial _ _ ha hb) (j + 1)
  rw [← hu, ← t1 k hk] at hcorr
  obtain ⟨_, _, _, cM, cN⟩ := hcorr
  simp only at cM cN
  have hfin := exit_verdicts (h.rounds j) w0 hex k (by rw [a0]; exact hk)
  rw [← rounds_succ] at hfin
  by_cases hAB : (h.stream (h.pairAt k).1).pending = (h.stream (h.pairAt k).2).pending
  · rw [if_pos hAB]
    rcases hfin with ⟨_, f⟩ | ⟨_, f⟩
    · exact absurd hAB (cN f)
    · exact f
  · rw [if_neg hAB]
    rcases hfin with ⟨_, f⟩ | ⟨_, f⟩
    · exact f
    · exact absurd (cM f).1 hAB

/-- C23. Two sessions of at least two streams each, with buffer capacities above zero, hold the
pair `(a, b)` at position `k` with verdict `UNKNOWN`, and their streams at `a` and at `b` are
freshly opened error-free sources that deliver the same bytes in both sessions; nothing is
assumed about their other streams, which may hold other bytes and fail with read errors. Then
`CmpFiles_CompareFiles` returns on both sessions, and whenever it returns the verdict at
position `k` is the same in both: `MATCHED` when the bytes of `a` and `b` are the same and
`NOT_MATCHED` otherwise. -/
theorem CmpFiles_CompareFiles_pair_independent (g h : FilesToCompare) (hwg : g.WF) (hwh : h.WF)
    (hg2 : 2 ≤ g._number_of_filestreams) (hh2 : 2 ≤ h._number_of_filestreams)
    (hgc : 0 < g._compare_buffer_size) (hhc : 0 < h._compare_buffer_size) (k a b : Nat)
    (hkg : k < g._combinations_handler._among_of_combinations)
    (hkh : k < h._combinations_handler._among_of_combinations)
    (hpg : g.pairAt k = (a, b)) (hph : h.pairAt k = (a, b))
    (hug : g.verdictAt k = MatchState.UNKNOWN) (huh : h.verdictAt k = MatchState.UNKNOWN)
    (fga : (g.stream a).fresh) (fgb : (g.stream b).fresh)
    (fha : (h.stream a).fresh) (fhb : (h.stream b).fresh)
    (ea : (g.stream a).pending = (h.stream a).pending)
    (eb : (g.stream b).pending = (h.stream b).pending) :
    (∃ fuel r g', CmpFiles_CompareFiles fuel (some g) = some (r, some g'))
      ∧ (∃ fuel r h', CmpFiles_CompareFiles fuel (some h) = some (r, some h'))
      ∧ ∀ f1 r1 g' f2 r2 h', CmpFiles_CompareFiles f1 (some g) = some (r1, some g') →
          CmpFiles_CompareFiles f2 (some h) = some (r2, some h') →
          g'.verdictAt k = h'.verdictAt k
            ∧ h'.verdictAt k
              = if (h.stream a).pending = (h.stream b).pending then MatchState.MATCHED
                else MatchState.NOT_MATCHED := by
  refine ⟨⟨_, run_terminates g hwg hgc hg2⟩, ⟨_, run_terminates h hwh hhc hh2⟩, ?_⟩
  intro f1 r1 g' f2 r2 h' hr1 hr2
  have v1 := pair_verdict_final g hwg hg2 hgc k hkg (by rw [hpg]; exact fga)
    (by rw [hpg]; exact fgb) hug f1 r1 g' hr1
  have v2 := pair_verdict_final h hwh hh2 hhc k hkh (by rw [hph]; exact fha)
    (by rw [hph]; exact fhb) huh f2 r2 h' hr2
  rw [hpg] at v1
  rw [hph] at v2
  simp only at v1 v2
  rw [ea, eb] at v1
  exact ⟨v1.trans v2.symm, v2⟩

theorem foldl_fst {σ τ : Type} (F : (σ × τ) → Nat → (σ × τ)) (f : σ → Nat → σ)
    (hF : ∀ t i, (F t i).1 = f t.1 i) :
    ∀ (js : List Nat) (t : σ × τ), (js.foldl F t).1 = js.foldl f t.1 := by
  intro js
  induction js with
  | nil => intro t; rfl
  | cons j js ih =>
      intro t
      simp only [List.foldl_cons]
      rw [ih, hF]

theorem innerCalls_fold_fst (w ci : Nat) (js : List Nat) (t : SweepState × List (Nat × Bool)) :
    (js.foldl (fun acc j => CmpComb_PrepareCombinations.innerCalls w ci j acc) t).1
      = js.foldl (fun acc j => CmpComb_PrepareCombinations.inner w ci j acc) t.1 :=
  foldl_fst _ _ (fun _ _ => rfl) js t

theorem outerCalls_fst (w n ci : Nat) (t : SweepState × List (Nat × Bool)) :
    (CmpComb_PrepareCombinations.outerCalls w n ci t).1
      = CmpComb_PrepareCombinations.outer w n ci t.1 := by
  simp only [CmpComb_PrepareCombinations.outerCalls, CmpComb_PrepareCombinations.outer, forRange]
  rw [innerCalls_fold_fst]

theorem innerCalls_fold_inv (w ci : Nat)
    (J : List (Nat × Nat) → SweepState × List (Nat × Bool) → Prop)
    (hstep : ∀ ps t j, J ps t →
      J (ps ++ [(ci, j)]) (CmpComb_PrepareCombinations.innerCalls w ci j t)) :
    ∀ (js : List Nat) (ps : List (Nat × Nat)) (t : SweepState × List (Nat × Bool)), J ps t →
      J (ps ++ js.map (fun j => (ci, j)))
          (js.foldl (fun acc j => CmpComb_PrepareCombinations.innerCalls w ci j acc) t)
        ∧ (js.foldl (fun acc j => CmpComb_PrepareCombinations.innerCalls w ci j acc)
            t).1.incrementer = t.1.incrementer := by
  intro js
  induction js with
  | nil => intro ps t hJ; simpa using hJ
  | cons j js ih =>
      intro ps t hJ
      have h3 := ih (ps ++ [(ci, j)]) _ (hstep ps t j hJ)
      simp only [List.foldl_cons, List.map_cons]
      rw [List.append_assoc] at h3
      exact ⟨h3.1, h3.2⟩

theorem sweepCalls_inv (w n : Nat)
    (J : List (Nat × Nat) → SweepState × List (Nat × Bool) → Prop)
    (hstep : ∀ ci ps t j, J ps t →
      J (ps ++ [(ci, j)]) (CmpComb_PrepareCombinations.innerCalls w ci j t))
    (hupd : ∀ ps (t : SweepState × List (Nat × Bool)) k, J ps t →
      J ps ({ t.1 with incrementer := k }, t.2))
    (hn : n < 2 ^ w) (t0 : SweepState × List (Nat × Bool)) (h0 : J [] t0)
    (hinc : t0.1.incrementer = 1) :
    ∀ r, r ≤ n →
      J (sweepRows n r) (forRange 0 r (CmpComb_PrepareCombinations.outerCalls w n) t0)
        ∧ (r < n →
          (forRange 0 r (CmpComb_PrepareCombinations.outerCalls w n) t0).1.incrementer
            = r + 1) := by
  intro r
  induction r with
  | zero =>
      intro _
      rw [forRange_empty 0 0 (Nat.le_refl 0)]
      exact ⟨h0, fun _ => hinc⟩
  | succ r ih =>
      intro hr
      obtain ⟨h1, h2⟩ := ih (by omega)
      have h2 := h2 (by omega)
      rw [forRange_succ 0 r (Nat.zero_le r)]
      generalize forRange 0 r (CmpComb_PrepareCombinations.outerCalls w n) t0 = t at h1 h2
      have h3 := innerCalls_fold_inv w r J (hstep r) (List.range' (r + 1) (n - (r + 1)))
        (sweepRows n r) t h1
      simp only [CmpComb_PrepareCombinations.outerCalls, forRange, h2]
      refine ⟨hupd _ _ _ h3.1, ?_⟩
      intro _
      show (_ + 1) % 2 ^ w = r + 1 + 1
      rw [h3.2, h2]
      exact Nat.mod_eq_of_lt (by omega)


theorem PairsWF_sweep (n : Nat) (ms : Option (List MatchState)) :
    CompareCombinations.PairsWF
      { _compare_indexes := some ((sweepRows n n).map Prod.fst)
        _compare_with_indexes := some ((sweepRows n n).map Prod.snd)
        _match_states := ms
        _among_of_combinations := n * (n - 1) / 2
        _among_of_elements := n } := by
  intro k hk
  simp only at hk
  rw [← sweepRows_length_full n] at hk
  have hm := sweepRows_getD n k hk
  have hr := (sweepRows_mem n n _ _).mp hm
  simp only [CompareCombinations.pairAt, readAt, Option.getD_some]
  exact ⟨hr.2.1, hr.2.2⟩

theorem PairsWF_SetCombination (h : CompareCombinations) (p a b : Nat)
    (hi : h._compare_indexes.map List.length = some h._among_of_combinations)
    (hj : h._compare_with_indexes.map List.length = some h._among_of_combinations)
    (hwf : h.PairsWF) (hab : a < b) (hb : b < h._among_of_elements) (r : Bool)
    (h' : CompareCombinations) (hs : CmpComb_SetCombination (some h) p a b = (r, some h')) :
    h'.PairsWF := by
  rw [SetCombination_eq] at hs
  by_cases hp : p < h._among_of_combinations
  · rw [if_pos hp] at hs
    obtain ⟨xs, hx⟩ : ∃ xs, h._compare_indexes = some xs := by
      cases hc : h._compare_indexes with
      | none => rw [hc] at hi; cases hi
      | some xs => exact ⟨xs, rfl⟩
    obtain ⟨ys, hy⟩ : ∃ ys, h._compare_with_indexes = some ys := by
      cases hc : h._compare_with_indexes with
      | none => rw [hc] at hj; cases hj
      | some ys => exact ⟨ys, rfl⟩
    rw [hx] at hi
    rw [hy] at hj
    simp only [Option.map_some', Option.some.injEq] at hi hj
    obtain rfl := Option.some.inj (Prod.mk.inj hs).2
    intro k hk
    have hold := hwf k hk
    simp only [CompareCombinations.pairAt, readAt_writeAt, hx, hy, Option.getD_some, hi, hj]
      at hold ⊢
    simp only at hk
    by_cases hpk : p = k
    · rw [if_pos ⟨hpk, hk⟩, if_pos ⟨hpk, hk⟩]
      exact ⟨hab, hb⟩
    · rw [if_neg (fun hh => hpk hh.1), if_neg (fun hh => hpk hh.1)]
      exact hold
  · rw [if_neg hp] at hs
    obtain rfl := Option.some.inj (Prod.mk.inj hs).2
    exact hwf

/-- The sweep on a set whose two index arrays hold `c` entries, `c` at most `2 ^ w`: every
position below `c` that the sweep has reached holds a pair of the sweep. -/
theorem sweep_pairs (w c n : Nat) (ms : Option (List MatchState)) (xs ys : List Nat)
    (hn : n < 2 ^ w) (hc : c ≤ 2 ^ w) (hx : xs.length = c) (hy : ys.length = c) :
    ∃ xs1 ys1,
      (forRange 0 n (CmpComb_PrepareCombinations.outer w n)
          { handler := some
              { _compare_indexes := some xs
                _compare_with_indexes := some ys
                _match_states := ms
                _among_of_combinations := c
                _among_of_elements := n }
            in_position := 0
            incrementer := 1 }).handler
        = some
          { _compare_indexes := some xs1
            _compare_with_indexes := some ys1
            _match_states := ms
            _among_of_combinations := c
            _among_of_elements := n }
      ∧ xs1.length = c ∧ ys1.length = c
      ∧ ∀ p < c, p < (sweepRows n n).length → (xs1.getD p 0, ys1.getD p 0) ∈ sweepRows n n := by
  have hinv := sweepCalls_inv w n
    (fun ps t => ∃ xs1 ys1, t.1.handler = some
        { _compare_indexes := some xs1
          _compare_with_indexes := some ys1
          _match_states := ms
          _among_of_combinations := c
          _among_of_elements := n }
      ∧ xs1.length = c ∧ ys1.length = c ∧ t.1.in_position = ps.length % 2 ^ w
      ∧ ∀ p < c, p < ps.length → (xs1.getD p 0, ys1.getD p 0) ∈ ps)
    ?_ ?_ hn
    ({ handler := some
        { _compare_indexes := some xs
          _compare_with_indexes := some ys
          _match_states := ms
          _among_of_combinations := c
          _among_of_elements := n }
       in_position := 0
       incrementer := 1 }, [])
    ⟨xs, ys, rfl, hx, hy, by simp, fun p _ hp => absurd hp (Nat.not_lt_zero p)⟩ rfl n
    (Nat.le_refl n)
  · obtain ⟨⟨xs1, ys1, e, lx, ly, _, hm⟩, _⟩ := hinv
    have hfst : ∀ s0 : SweepState,
        (forRange 0 n (CmpComb_PrepareCombinations.outerCalls w n)
          (s0, ([] : List (Nat × Bool)))).1
          = forRange 0 n (CmpComb_PrepareCombinations.outer w n) s0 := by
      intro s0
      unfold forRange
      exact foldl_fst _ _ (fun t i => outerCalls_fst w _ i t) _ _
    rw [← hfst]
    exact ⟨xs1, ys1, e, lx, ly, hm⟩
  · rintro ci ps t j ⟨xs1, ys1, e, lx, ly, hq, hm⟩
    simp only [CmpComb_PrepareCombinations.innerCalls, CmpComb_PrepareCombinations.inner, e,
      SetCombination_eq, hq]
    have hpos : (ps.length % 2 ^ w + 1) % 2 ^ w = (ps ++ [(ci, j)]).length % 2 ^ w := by
      rw [List.length_append, List.length_singleton, Nat.mod_add_mod]
    have hlast : ∀ p, p < c → p < (ps ++ [(ci, j)]).length → p ≠ ps.length % 2 ^ w →
        p < ps.length := by
      intro p hp hlt hne
      rw [List.length_append, List.length_singleton] at hlt
      by_contra hge
      have hpl : p = ps.length := by omega
      apply hne
      rw [← hpl]
      exact (Nat.mod_eq_of_lt (by omega)).symm
    by_cases hlt : ps.length % 2 ^ w < c
    · rw [if_pos hlt]
      refine ⟨xs1.set (ps.length % 2 ^ w) ci, ys1.set (ps.length % 2 ^ w) j, rfl,
        by simpa using lx, by simpa using ly, hpos, ?_⟩
      intro p hp hpl
      by_cases hpq : p = ps.length % 2 ^ w
      · rw [hpq, getD_set_self _ _ _ _ (by rw [lx]; exact hlt),
          getD_set_self _ _ _ _ (by rw [ly]; exact hlt)]
        simp
      · rw [getD_set_other _ _ _ _ _ (Ne.symm hpq), getD_set_other _ _ _ _ _ (Ne.symm hpq)]
        exact List.mem_append_left _ (hm p hp (hlast p hp hpl hpq))
    · rw [if_neg hlt]
      refine ⟨xs1, ys1, rfl, lx, ly, hpos, ?_⟩
      intro p hp hpl
      have hpq : p ≠ ps.length % 2 ^ w := by
        intro hh
        rw [hh] at hp
        exact hlt hp
      exact List.mem_append_left _ (hm p hp (hlast p hp hpl hpq))
  · rintro ps t k ⟨xs1, ys1, e, lx, ly, hq, hm⟩
    exact ⟨xs1, ys1, e, lx, ly, hq, hm⟩

/-- On an allocated set of `n` elements, `n` a `size_t` value, `CmpComb_PrepareCombinations`
returns, and every stored pair of the set it returns is in range. -/
theorem Prepare_PairsWF (w n : Nat) (hw : n < 2 ^ w) (h : CompareCombinations)
    (ha : h.Allocated w) (hn : h._among_of_elements = n) :
    ∃ b h', CmpComb_PrepareCombinations w (some h) = some (b, some h') ∧ h'.PairsWF
      ∧ h'._among_of_elements = n ∧ h'._among_of_combinations = h._among_of_combinations
      ∧ (b = true ↔ 0 < h._among_of_combinations) := by
  obtain ⟨a1, a2, a3, a4⟩ := ha
  cases h with
  | mk xs ys ms c m =>
      simp only at hn a1 a2 a3 a4
      subst hn
      cases xs with
      | none => simp at a1
      | some xs =>
      cases ys with
      | none => simp at a2
      | some ys =>
      cases ms with
      | none => simp at a3
      | some zs =>
          simp only [Option.map_some', Option.some.injEq] at a1 a2 a3
          have hpow : 0 < 2 ^ w := Nat.two_pow_pos w
          have hc1 : c < 2 ^ w := by
            rw [a4, NumberOfCombinations_mod]
            exact Nat.mod_lt _ hpow
          have hc2 : c ≤ (sweepRows m m).length := by
            rw [a4, NumberOfCombinations_mod, sweepRows_length_full]
            exact Nat.mod_le _ _
          by_cases hc0 : c = 0
          · refine ⟨false, _, ?_, ?_, rfl, rfl, by simp [hc0]⟩
            · simp [CmpComb_PrepareCombinations, hc0]
            · intro k hk
              simp only [hc0] at hk
              exact absurd hk (Nat.not_lt_zero k)
          · obtain ⟨xs1, ys1, e, lx, ly, hm⟩ :=
              sweep_pairs w c m (some zs) xs ys hw (Nat.le_of_lt hc1) a1 a2
            refine ⟨true,
              { _compare_indexes := some xs1
                _compare_with_indexes := some ys1
                _match_states :=
                  some (List.replicate (min c zs.length) MatchState.UNKNOWN ++ zs.drop c)
                _among_of_combinations := c
                _among_of_elements := m }, ?_, ?_, rfl, rfl, ?_⟩
            · simp only [CmpComb_PrepareCombinations, hc0, if_false, reduceCtorEq, or_self, e,
                reset_loop, Option.map_some']
            · intro k hk
              simp only at hk
              have hmem := hm k hk (Nat.lt_of_lt_of_le hk hc2)
              have hr := (sweepRows_mem m m _ _).mp hmem
              simp only [CompareCombinations.pairAt, readAt, Option.getD_some]
              exact ⟨hr.2.1, hr.2.2⟩
            · simp only [true_iff]
              exact Nat.pos_of_ne_zero hc0

/-- C24, as the code has it. For an element count `n` that is a `size_t` value: every stored
pair `(a, b)` of the set that `CmpComb_Initialize` returns for `n` elements satisfies
`a < b < n` when the byte sizes that it passes to `malloc`, `sizeof(size_t)` and
`sizeof(enum MatchState)` times the pair count, are representable in `size_t`; so does every
stored pair of the set that `CmpComb_PrepareCombinations` returns on a set allocated for `n`
elements; `CmpFiles_CompareFiles` returns the session with every stored pair as it found it,
both members below the number of streams. `CmpComb_SetCombination` stores at a position below
the pair count the pair it is given, whatever it is; when the pair given satisfies `a < b` and
`b` is below the element count, a set whose pairs all satisfy this keeps the property. -/
theorem CmpComb_pairs_in_range (w n : Nat) (hw : n < 2 ^ w) :
    (∀ heap h, heap.Fits w (CmpComb_NumberOfCombinations w n) →
        CmpComb_Initialize w heap n = some h → h.PairsWF ∧ h._among_of_elements = n)
      ∧ (∀ h : CompareCombinations, h.Allocated w → h._among_of_elements = n →
          ∃ b h', CmpComb_PrepareCombinations w (some h) = some (b, some h') ∧ h'.PairsWF
            ∧ h'._among_of_elements = n
            ∧ (b = true ↔ 0 < h._among_of_combinations))
      ∧ (∀ (h : CompareCombinations) (p a b : Nat),
          h._compare_indexes.map List.length = some h._among_of_combinations →
          h._compare_with_indexes.map List.length = some h._among_of_combinations →
          p < h._among_of_combinations →
          ∃ h', CmpComb_SetCombination (some h) p a b = (true, some h') ∧ h'.pairAt p = (a, b)
            ∧ h'._among_of_elements = h._among_of_elements
            ∧ h'._among_of_combinations = h._among_of_combinations)
      ∧ (∀ (h : CompareCombinations) (p a b : Nat),
          h._compare_indexes.map List.length = some h._among_of_combinations →
          h._compare_with_indexes.map List.length = some h._among_of_combinations →
          h.PairsWF → a < b → b < h._among_of_elements →
          ∀ r h', CmpComb_SetCombination (some h) p a b = (r, some h') → h'.PairsWF)
      ∧ (∀ f : FilesToCompare, f.WF → 2 ≤ f._number_of_filestreams →
          ∀ fuel r f', CmpFiles_CompareFiles fuel (some f) = some (r, some f') →
            f'.WF ∧ f'._number_of_filestreams = f._number_of_filestreams
              ∧ f'._combinations_handler._among_of_combinations
                = f._combinations_handler._among_of_combinations
              ∧ ∀ k, f'.pairAt k = f.pairAt k) := by
  refine ⟨?_, ?_, ?_, ?_, ?_⟩
  · intro heap h hf hi
    rw [Initialize_unfold] at hi
    split_ifs at hi with hcond
    obtain ⟨ha, hn⟩ := handler_Allocated w n heap hcond.2 hf
    obtain ⟨b, h', e, pw, en, _, _⟩ := Prepare_PairsWF w n hw _ ha hn
    rw [e] at hi
    obtain rfl := Option.some.inj hi
    exact ⟨pw, en⟩
  · intro h ha hn
    obtain ⟨b, h', e, pw, en, _, hb⟩ := Prepare_PairsWF w n hw h ha hn
    exact ⟨b, h', e, pw, en, hb⟩
  · intro h p a b hi hj hp
    rw [SetCombination_eq, if_pos hp]
    refine ⟨_, rfl, ?_, rfl, rfl⟩
    cases hx : h._compare_indexes with
    | none => rw [hx] at hi; cases hi
    | some xs =>
      cases hy : h._compare_with_indexes with
      | none => rw [hy] at hj; cases hj
      | some ys =>
        rw [hx] at hi
        rw [hy] at hj
        simp only [Option.map_some', Option.some.injEq] at hi hj
        simp only [CompareCombinations.pairAt, readAt_writeAt, Option.getD_some, hi, hj]
        rw [if_pos ⟨trivial, hp⟩, if_pos ⟨trivial, hp⟩]
  · intro h p a b hi hj hwf hab hb r h' hs
    exact PairsWF_SetCombination h p a b hi hj hwf hab hb r h' hs
  · intro f hwf hf2 fuel r f' hr
    obtain ⟨j, _, _, _, rfl, _⟩ := run_final f hwf hf2 _ r f' hr
    obtain ⟨w1, n1, _, c1, p1, _, _⟩ := rounds_spec f hwf (j + 1)
    exact ⟨w1, n1, c1, p1⟩

theorem innerCalls_fold_snd (w c n : Nat) (ms : Option (List MatchState)) (ci : Nat)
    (hc : c < 2 ^ w) :
    ∀ (js : List Nat) (ps : List (Nat × Nat)) (t : SweepState × List (Nat × Bool)),
      t.1.Filled c n ms ps → ps.length + js.length ≤ c →
      t.2 = (List.range ps.length).map (fun p => (p, true)) →
      (js.foldl (fun acc j => CmpComb_PrepareCombinations.innerCalls w ci j acc) t).2
        = (List.range (ps.length + js.length)).map (fun p => (p, true)) := by
  intro js
  induction js with
  | nil => intro ps t _ _ ht; simpa using ht
  | cons j js ih =>
      intro ps t hf hlen ht
      simp only [List.length_cons] at hlen
      obtain ⟨h1, _⟩ := Filled_inner w c n ms ps t.1 ci j hf (by omega) hc
      obtain ⟨xs, ys, hh, _, _, hp, _, _⟩ := hf
      have hcall : (CmpComb_PrepareCombinations.innerCalls w ci j t).2
          = (List.range (ps ++ [(ci, j)]).length).map (fun p => (p, true)) := by
        have hn : ¬ c ≤ ps.length := by omega
        simp only [CmpComb_PrepareCombinations.innerCalls, hh, hp, CmpComb_SetCombination,
          ge_iff_le, hn, if_false, ht, List.length_append, List.length_singleton,
          List.range_succ, List.map_append, List.map_cons, List.map_nil]
      have h3 := ih (ps ++ [(ci, j)]) (CmpComb_PrepareCombinations.innerCalls w ci j t) h1
        (by simp; omega) hcall
      simp only [List.foldl_cons, List.length_cons]
      rw [h3]
      simp only [List.length_append, List.length_singleton]
      congr 2
      omega

theorem sweepCalls_snd (w c n : Nat) (ms : Option (List MatchState)) (xs ys : List Nat)
    (hn : n < 2 ^ w) (hc : c < 2 ^ w) (hcn : c = (sweepRows n n).length)
    (hx : xs.length = c) (hy : ys.length = c) :
    ∀ r, r ≤ n →
      (forRange 0 r (CmpComb_PrepareCombinations.outerCalls w n)
          ({ handler := some
              { _compare_indexes := some xs
                _compare_with_indexes := some ys
                _match_states := ms
                _among_of_combinations := c
                _among_of_elements := n }
             in_position := 0
             incrementer := 1 }, [])).2
        = (List.range (sweepRows n r).length).map (fun p => (p, true)) := by
  intro r
  induction r with
  | zero =>
      intro _
      rw [forRange_empty 0 0 (Nat.le_refl 0)]
      simp [sweepRows]
  | succ r ih =>
      intro hr
      have ih := ih (by omega)
      obtain ⟨h1, h2⟩ := Filled_outer w c n ms xs ys hn hc hcn hx hy r (by omega)
      have h2 := h2 (by omega)
      rw [forRange_succ 0 r (Nat.zero_le r)]
      have hfst : (forRange 0 r (CmpComb_PrepareCombinations.outerCalls w n)
          ({ handler := some
              { _compare_indexes := some xs
                _compare_with_indexes := some ys
                _match_states := ms
                _among_of_combinations := c
                _among_of_elements := n }
             in_position := 0
             incrementer := 1 }, [])).1
          = forRange 0 r (CmpComb_PrepareCombinations.outer w n)
            { handler := some
                { _compare_indexes := some xs
                  _compare_with_indexes := some ys
                  _match_states := ms
                  _among_of_combinations := c
                  _among_of_elements := n }
              in_position := 0
              incrementer := 1 } := by
        unfold forRange
        exact foldl_fst _ _ (fun t i => outerCalls_fst w _ i t) _ _
      rw [← hfst] at h1 h2
      generalize forRange 0 r (CmpComb_PrepareCombinations.outerCalls w n) _ = t at h1 h2 ih
      have hlen : (sweepRows n r).length + (List.range' (r + 1) (n - (r + 1))).length ≤ c := by
        have := sweepRows_length_mono n (r + 1) n hr
        simp only [sweepRows, List.length_append, List.length_map] at this
        omega
      have h3 := innerCalls_fold_snd w c n ms r hc (List.range' (r + 1) (n - (r + 1)))
        (sweepRows n r) t h1 hlen ih
      simp only [CmpComb_PrepareCombinations.outerCalls, forRange, h2]
      rw [h3]
      simp [sweepRows]

theorem foldr_max_le (l : List Nat) (B : Nat) (hl : ∀ x ∈ l, x ≤ B) : l.foldr max 0 ≤ B := by
  induction l with
  | nil => exact Nat.zero_le B
  | cons x xs ih =>
      simp only [List.foldr_cons]
      exact Nat.max_le.mpr ⟨hl x (List.mem_cons_self x xs),
        ih (fun y hy => hl y (List.mem_cons_of_mem x hy))⟩

theorem need_le_of_lengths (h : FilesToCompare) (L : Nat)
    (hL : ∀ s ∈ h._filestreams, s.pending.length ≤ L) :
    h.need ≤ L / h._compare_buffer_size + 1 := by
  unfold FilesToCompare.need
  apply foldr_max_le
  intro x hx
  obtain ⟨s, hs, rfl⟩ := List.mem_map.mp hx
  unfold FILE.need
  split_ifs
  · exact Nat.zero_le _
  · exact Nat.add_le_add_right (Nat.div_le_div_right (hL s hs)) 1

theorem run_exact (h : FilesToCompare) (hw : h.WF) (h2 : 2 ≤ h._number_of_filestreams)
    (j : Nat) (hex : (h.rounds j).exits) (hmin : ∀ i < j, ¬ (h.rounds i).exits) :
    CmpFiles_CompareFiles (j + 1) (some h)
        = some ((CmpFiles_CompareFiles.round h._combinations_handler._among_of_combinations
            (h.rounds j)).skipped_combinations == 0, some (h.rounds (j + 1)))
      ∧ ∀ fuel ≤ j, CmpFiles_CompareFiles fuel (some h) = none := by
  constructor
  · obtain ⟨b2, g2, hd⟩ := doWhile_of_exits _ (j + 1) h hw rfl ⟨j, Nat.lt_succ_self j, hex⟩
    have hr := (CompareFiles_some h h2 (j + 1) (b2, some g2)).mpr ⟨b2, g2, rfl, hd⟩
    obtain ⟨i, hi, hei, _, rfl, rfl⟩ := run_final h hw h2 _ b2 g2 hr
    have hij : i = j := by
      by_contra hne
      exact hmin i (by omega) hei
    subst hij
    exact hr
  · intro fuel hf
    cases hr : CmpFiles_CompareFiles fuel (some h) with
    | none => rfl
    | some r =>
        obtain ⟨b2, g2, rfl, hd⟩ := (CompareFiles_some h h2 fuel r).mp hr
        obtain ⟨i, hi, hei, _⟩ := run_final h hw h2 _ b2 g2 hr
        exact absurd hei (hmin i (by omega))

/-- C27. On a well-formed session of at least two streams with a buffer capacity `c` above
zero, whose streams have at most `L` bytes still to deliver each: `CmpFiles_CompareFiles`
returns after `r` rounds for some `r` between 1 and `L / c + 2` (with fuel `r` it returns the
session after `r` rounds, with less fuel it does not return). And when the loop has not been
left before round `r` and every verdict is `NOT_MATCHED` after round `r`, the call returns after
round `r + 1`, with `false` when there is at least one pair, and each stream has then been read
`r + 1` times, however many bytes it has still to deliver. -/
theorem CmpFiles_CompareFiles_round_bound (h : FilesToCompare) (hw : h.WF)
    (h2 : 2 ≤ h._number_of_filestreams) (hc : 0 < h._compare_buffer_size) (L : Nat)
    (hL : ∀ s ∈ h._filestreams, s.pending.length ≤ L) :
    (∃ r b, 1 ≤ r ∧ r ≤ L / h._compare_buffer_size + 2
        ∧ CmpFiles_CompareFiles r (some h) = some (b, some (h.rounds r))
        ∧ ∀ fuel < r, CmpFiles_CompareFiles fuel (some h) = none)
      ∧ ∀ r, (∀ i < r, ¬ (h.rounds i).exits) →
          (∀ k < h._combinations_handler._among_of_combinations,
            (h.rounds r).verdictAt k = MatchState.NOT_MATCHED) →
          (∃ b, CmpFiles_CompareFiles (r + 1) (some h) = some (b, some (h.rounds (r + 1)))
              ∧ (0 < h._combinations_handler._among_of_combinations → b = false))
            ∧ (∀ fuel ≤ r, CmpFiles_CompareFiles fuel (some h) = none)
            ∧ ∀ i < h._number_of_filestreams,
                (h.rounds (r + 1)).stream i
                  = (FILE.advance h._compare_buffer_size)^[r + 1] (h.stream i) := by
  constructor
  · obtain ⟨b, h', hr⟩ := run_terminates h hw hc h2
    obtain ⟨j, hj, hex, hmin, _, _⟩ := run_final h hw h2 _ b h' hr
    obtain ⟨e1, e2⟩ := run_exact h hw h2 j hex hmin
    have hn := need_le_of_lengths h L hL
    refine ⟨j + 1, _, by omega, ?_, e1, fun fuel hf => e2 fuel (by omega)⟩
    have hq : max h.need 1 ≤ L / h._compare_buffer_size + 1 :=
      Nat.max_le.mpr ⟨hn, Nat.le_add_left 1 _⟩
    exact Nat.le_trans (Nat.succ_le_of_lt hj) (Nat.add_le_add_right hq 1)
  · intro r hmin hall
    obtain ⟨w0, _, _, a0, _, _, _⟩ := rounds_spec h hw r
    have hex : (h.rounds r).exits := by
      rw [exits_iff _ w0]
      intro k hk
      rw [a0] at hk
      exact Or.inl (hall k hk)
    obtain ⟨e1, e2⟩ := run_exact h hw h2 r hex hmin
    refine ⟨⟨_, e1, ?_⟩, e2, (rounds_spec h hw (r + 1)).2.2.2.2.2.1⟩
    intro hpos
    have hz := skipped_zero_iff (h.rounds r) w0
    rw [a0] at hz
    have hne : (CmpFiles_CompareFiles.round h._combinations_handler._among_of_combinations
        (h.rounds r)).skipped_combinations ≠ 0 := by
      intro h0
      exact (hz.mp h0) 0 hpos (hall 0 hpos)
    simpa using hne

/-! ### Allocations whose byte size wraps -/

/-- When its allocations succeed `CmpComb_Initialize` returns a set, with the pair count of the
element count and with arrays of as many entries as fit into the bytes requested. -/
theorem Initialize_shape (w n : Nat) (heap : CombinationsHeap) (hn : n ≠ 0)
    (hs : heap.Succeeds) :
    ∃ h, CmpComb_Initialize w heap n = some h
      ∧ h._among_of_combinations = CmpComb_NumberOfCombinations w n
      ∧ h._among_of_elements = n
      ∧ h._compare_indexes.map List.length
        = some (heap.sizeof_size_t * CmpComb_NumberOfCombinations w n % 2 ^ w
            / heap.sizeof_size_t)
      ∧ h._compare_with_indexes.map List.length
        = some (heap.sizeof_size_t * CmpComb_NumberOfCombinations w n % 2 ^ w
            / heap.sizeof_size_t)
      ∧ h._match_states.map List.length
        = some (heap.sizeof_MatchState * CmpComb_NumberOfCombinations w n % 2 ^ w
            / heap.sizeof_MatchState) := by
  rw [Initialize_unfold, if_pos ⟨hn, hs⟩]
  obtain ⟨_, a, b, c⟩ := hs
  obtain ⟨ga, ea⟩ := Option.isSome_iff_exists.mp a
  obtain ⟨gb, eb⟩ := Option.isSome_iff_exists.mp b
  obtain ⟨gc, ec⟩ := Option.isSome_iff_exists.mp c
  simp only [CmpComb_Initialize.handler, ea, eb, ec, mallocArray, Option.map_some']
  obtain ⟨r, xs1, ys1, zs1, e, lx, ly, lz, _⟩ := Prepare_shape w
    ((List.range (heap.sizeof_size_t * CmpComb_NumberOfCombinations w n % 2 ^ w
      / heap.sizeof_size_t)).map ga)
    ((List.range (heap.sizeof_size_t * CmpComb_NumberOfCombinations w n % 2 ^ w
      / heap.sizeof_size_t)).map gb)
    ((List.range (heap.sizeof_MatchState * CmpComb_NumberOfCombinations w n % 2 ^ w
      / heap.sizeof_MatchState)).map gc)
    (CmpComb_NumberOfCombinations w n) n
  rw [e]
  simp only [List.length_map, List.length_range] at lx ly lz
  exact ⟨_, rfl, rfl, rfl, by simp [lx], by simp [ly], by simp [lz]⟩

/-- With a `size_t` of 32 bits and four bytes, 46342 elements have 1073767311 pairs, which is
representable, and the byte size of an array of as many entries wraps to 101948: the blocks
that `CmpComb_Initialize` gets hold 25487 entries. -/
theorem Initialize_of_32_bits :
    ∃ h, CmpComb_Initialize 32 heapOf32Bits 46342 = some h
      ∧ h._among_of_combinations = 1073767311
      ∧ h._among_of_elements = 46342
      ∧ h._compare_indexes.map List.length = some 25487
      ∧ h._compare_with_indexes.map List.length = some 25487
      ∧ h._match_states.map List.length = some 25487 := by
  have hc : CmpComb_NumberOfCombinations 32 46342 = 1073767311 := by
    rw [NumberOfCombinations_mod]
    norm_num
  obtain ⟨h, e, c1, c2, l1, l2, l3⟩ :=
    Initialize_shape 32 46342 heapOf32Bits (by decide) (by decide)
  rw [hc] at c1 l1 l2 l3
  have hb : heapOf32Bits.sizeof_size_t * 1073767311 % 2 ^ 32 / heapOf32Bits.sizeof_size_t
      = 25487 := by
    show 4 * 1073767311 % 2 ^ 32 / 4 = 25487
    norm_num
  have hm : heapOf32Bits.sizeof_MatchState * 1073767311 % 2 ^ 32
      / heapOf32Bits.sizeof_MatchState = 25487 := by
    show 4 * 1073767311 % 2 ^ 32 / 4 = 25487
    norm_num
  rw [hb] at l1 l2
  rw [hm] at l3
  exact ⟨h, e, c1, c2, l1, l2, l3⟩

set_option maxRecDepth 100000

theorem scenarioB_WF : scenarioB.WF := by
  refine ⟨rfl, rfl, rfl, ?_, rfl, rfl, rfl, by decide⟩
  intro b hb
  simp only [scenarioB, List.mem_cons, List.mem_singleton, List.not_mem_nil, or_false,
    or_self] at hb
  rw [hb]
  exact List.length_replicate _ _

/-- The sets of the scenarios are the sets that `CmpComb_Initialize` returns for two and for
three elements with a 64-bit `size_t`. -/
theorem scenario_sets_initialized :
    CmpComb_Initialize 64 heapOfScenarios 3 = some scenarioA._combinations_handler
      ∧ CmpComb_Initialize 64 heapOfScenarios 2 = some scenarioB._combinations_handler
      ∧ scenarioC._combinations_handler = scenarioA._combinations_handler
      ∧ scenarioShorter._combinations_handler = scenarioB._combinations_handler
      ∧ scenarioFailing._combinations_handler = scenarioA._combinations_handler := by
  decide

/-- Scenario A: the sources "aaa", "aaa", "aab" with buffers of one byte. The call returns
`false` after four rounds, with the verdicts `MATCHED`, `NOT_MATCHED`, `NOT_MATCHED`. -/
theorem scenarioA_run :
    (CmpFiles_CompareFiles 3 (some scenarioA)) = none
      ∧ (CmpFiles_CompareFiles 4 (some scenarioA)).map
          (fun r => (r.1, r.2.map (fun g => g._combinations_handler._match_states)))
        = some (false, some (some
            [MatchState.MATCHED, MatchState.NOT_MATCHED, MatchState.NOT_MATCHED])) := by
  decide

/-- Scenario B: the sources "x", "x" with buffers of 65536 bytes. The call returns `true` after
two rounds, with the verdict `MATCHED`. -/
theorem scenarioB_run :
    (CmpFiles_CompareFiles 1 (some scenarioB)) = none
      ∧ (CmpFiles_CompareFiles 2 (some scenarioB)).map
          (fun r => (r.1, r.2.map (fun g => g._combinations_handler._match_states)))
        = some (true, some (some [MatchState.MATCHED])) := by
  decide

/-- Scenario C: three empty sources. The call returns `true` after one round, with three
verdicts `MATCHED`. -/
theorem scenarioC_run :
    (CmpFiles_CompareFiles 1 (some scenarioC)).map
        (fun r => (r.1, r.2.map (fun g => g._combinations_handler._match_states)))
      = some (true, some (some
          [MatchState.MATCHED, MatchState.MATCHED, MatchState.MATCHED])) := by
  decide

/-- A source that fails with a read error: the call returns `false` after three rounds, the two
pairs of the failing source are `NOT_MATCHED`, the pair of the two other sources is
`MATCHED`. -/
theorem scenarioFailing_run :
    (CmpFiles_CompareFiles 3 (some scenarioFailing)).map
        (fun r => (r.1, r.2.map (fun g => g._combinations_handler._match_states)))
      = some (false, some (some
          [MatchState.NOT_MATCHED, MatchState.NOT_MATCHED, MatchState.MATCHED])) := by
  decide

/-- C1 on scenario A. -/
theorem CmpFiles_CompareFiles_verdicts_witness :
    ∃ fuel b h', CmpFiles_CompareFiles fuel (some scenarioA) = some (b, some h')
      ∧ (∀ fuel2 r, CmpFiles_CompareFiles fuel2 (some scenarioA) = some r → r = (b, some h'))
      ∧ ∀ k < scenarioA._combinations_handler._among_of_combinations,
          h'.pairAt k = scenarioA.pairAt k
            ∧ h'.verdictAt k
              = if (scenarioA.stream (scenarioA.pairAt k).1).pending
                    = (scenarioA.stream (scenarioA.pairAt k).2).pending then
                  MatchState.MATCHED
                else MatchState.NOT_MATCHED :=
  CmpFiles_CompareFiles_verdicts scenarioA (by decide) (by decide) (by decide) (by decide)
    (by decide)

/-- C2 on scenario B, the sources "x", "x" with buffers of 65536 bytes. -/
theorem CmpFiles_CompareFiles_returns_all_matched_witness :
    (∀ fuel b h', CmpFiles_CompareFiles fuel (some scenarioB) = some (b, some h') →
        (b = true ↔ ∀ k < scenarioB._combinations_handler._among_of_combinations,
          h'.verdictAt k = MatchState.MATCHED)
        ∧ (b = false ↔ ∃ k, k < scenarioB._combinations_handler._among_of_combinations
          ∧ h'.verdictAt k = MatchState.NOT_MATCHED))
      ∧ ∃ fuel b h', CmpFiles_CompareFiles fuel (some scenarioB) = some (b, some h') :=
  ⟨(CmpFiles_CompareFiles_returns_all_matched scenarioB scenarioB_WF (by decide)).1,
    (CmpFiles_CompareFiles_returns_all_matched scenarioB scenarioB_WF (by decide)).2
      (by decide)⟩

/-- C5 on scenario A. -/
theorem CmpFiles_CompareFiles_monotonic_witness :
    (∀ j k, k < scenarioA._combinations_handler._among_of_combinations →
        (scenarioA.rounds j).verdictAt k ≠ MatchState.UNKNOWN →
        ∀ n, j ≤ n → (scenarioA.rounds n).verdictAt k = (scenarioA.rounds j).verdictAt k)
      ∧ (∀ j, (scenarioA.rounds j).MatchedAtEnd)
      ∧ (∀ fuel b h', 2 ≤ scenarioA._number_of_filestreams →
          CmpFiles_CompareFiles fuel (some scenarioA) = some (b, some h') →
          ∃ n, h' = scenarioA.rounds n) :=
  CmpFiles_CompareFiles_monotonic scenarioA (by decide) (by decide)

/-- C6 on scenario C, three empty sources. -/
theorem CmpFiles_CompareFiles_terminates_witness :
    (∃ fuel b h', CmpFiles_CompareFiles fuel (some scenarioC) = some (b, some h'))
      ∧ ∀ fuel b h', CmpFiles_CompareFiles fuel (some scenarioC) = some (b, some h') →
          ∃ j, h' = scenarioC.rounds (j + 1)
            ∧ (∀ i < scenarioC._number_of_filestreams,
                ((scenarioC.rounds j).stream i).chunk scenarioC._compare_buffer_size = []
                  ∧ (h'.stream i).eof = true)
            ∧ ∀ j2 < j, ∀ i < scenarioC._number_of_filestreams,
                ((scenarioC.rounds j2).stream i).chunk scenarioC._compare_buffer_size ≠ [] :=
  ⟨(CmpFiles_CompareFiles_terminates scenarioC (by decide) (by decide) (by decide)).1,
    (CmpFiles_CompareFiles_terminates scenarioC (by decide) (by decide) (by decide)).2
      (by decide) (by decide) (by decide) (by decide)⟩

/-- C7 on scenario A. -/
theorem CmpFiles_CompareFiles_all_terminal_witness :
    (∀ fuel b h', CmpFiles_CompareFiles fuel (some scenarioA) = some (b, some h') →
        ∀ k < scenarioA._combinations_handler._among_of_combinations,
          h'.verdictAt k ≠ MatchState.UNKNOWN
            ∧ (h'.verdictAt k = MatchState.MATCHED ∨ h'.verdictAt k = MatchState.NOT_MATCHED))
      ∧ ∃ fuel b h', CmpFiles_CompareFiles fuel (some scenarioA) = some (b, some h') :=
  ⟨(CmpFiles_CompareFiles_all_terminal scenarioA (by decide) (by decide)).1,
    (CmpFiles_CompareFiles_all_terminal scenarioA (by decide) (by decide)).2 (by decide)⟩

/-- C8 on a source of two bytes and a source that continues them with a third byte. -/
theorem CmpFiles_CompareFiles_length_sensitive_witness :
    (∀ j, (scenarioShorter.rounds j).verdictAt 0 = MatchState.NOT_MATCHED
        ↔ ((scenarioShorter.rounds j).stream 0).eof = true)
      ∧ (∃ fuel r h', CmpFiles_CompareFiles fuel (some scenarioShorter) = some (r, some h'))
      ∧ ∀ fuel r h', CmpFiles_CompareFiles fuel (some scenarioShorter) = some (r, some h') →
          h'.verdictAt 0 = MatchState.NOT_MATCHED ∧ (h'.stream 0).eof = true :=
  CmpFiles_CompareFiles_length_sensitive scenarioShorter (by decide) (by decide) (by decide)
    0 0 1 (by decide) (Or.inl (by decide)) (by decide) (by decide) (by decide) [3] (by decide)
    (by decide)

/-- C10 on the set of scenario A: position 1 holds the pair (0, 2), position 3 is refused. -/
theorem CmpComb_GetCombination_spec_witness :
    CmpComb_GetCombination (some scenarioA._combinations_handler) 1 (some 5) (some 5)
        = (true, some scenarioA._combinations_handler, some 0, some 2)
      ∧ ((CmpComb_GetCombination (some scenarioA._combinations_handler) 3 (some 5) (some 5)).1
          = false) :=
  ⟨(CmpComb_GetCombination_spec (some scenarioA._combinations_handler) 1 (some 5) (some 5)).2.1
      scenarioA._combinations_handler 5 5 rfl (by decide) rfl rfl,
    (CmpComb_GetCombination_spec (some scenarioA._combinations_handler) 3 (some 5) (some 5)).1.mpr
      (Or.inr (Or.inl ⟨scenarioA._combinations_handler, rfl, by decide⟩))⟩

/-- C4, at five elements with a 64-bit `size_t`. -/
theorem CmpComb_NumberOfCombinations_triangular_witness :
    CmpComb_NumberOfCombinations 64 5 = (5 * (5 - 1) / 2) % 2 ^ 64 :=
  (CmpComb_NumberOfCombinations_triangular 64 5).1

/-- C11 on the set of scenario A: the pair (5, 6) written at position 1 is read back, and
position 3 is refused by both accessors. -/
theorem CmpComb_set_get_round_trip_witness :
    (∃ h', CmpComb_SetCombination (some scenarioA._combinations_handler) 1 5 6
          = (true, some h')
        ∧ CmpComb_GetCombination (some h') 1 (some 0) (some 0) = (true, some h', some 5, some 6))
      ∧ (CmpComb_SetCombination (some scenarioA._combinations_handler) 3 5 6
          = (false, some scenarioA._combinations_handler)
        ∧ CmpComb_GetCombination (some scenarioA._combinations_handler) 3 (some 0) (some 0)
          = (false, some scenarioA._combinations_handler, some 0, some 0)) :=
  ⟨(CmpComb_set_get_round_trip scenarioA._combinations_handler 1 5 6 0 0 (by decide)
      (by decide)).1 (by decide),
    (CmpComb_set_get_round_trip scenarioA._combinations_handler 3 5 6 0 0 (by decide)
      (by decide)).2 (by decide)⟩

/-- C12, as the code has it, on a set of three elements whose pairs and verdicts have been
overwritten, with a 64-bit `size_t`: the rebuild gives the set of scenario A. -/
theorem CmpComb_PrepareCombinations_rebuild_witness :
    CmpComb_PrepareCombinations 64 (some overwrittenSet)
        = some (true, some scenarioA._combinations_handler)
      ∧ ∃ h', CmpComb_PrepareCombinations 64 (some overwrittenSet) = some (true, some h')
        ∧ h'.IsSweep 3
        ∧ h'._match_states
          = some (List.replicate overwrittenSet._among_of_combinations MatchState.UNKNOWN)
        ∧ (∀ k < h'._among_of_combinations, h'.verdictAt k = MatchState.UNKNOWN)
        ∧ h'._among_of_combinations = overwrittenSet._among_of_combinations
        ∧ h'._among_of_elements = 3
        ∧ (∀ g : CompareCombinations, g.Allocated 64 → g._among_of_elements = 3 →
            CmpComb_PrepareCombinations 64 (some g) = some (true, some h'))
        ∧ CmpComb_PrepareCombinations 64 (some h') = some (true, some h')
        ∧ (∀ heap g, heap.Fits 64 (3 * (3 - 1) / 2) → CmpComb_Initialize 64 heap 3 = some g →
            g._match_states
                = some (List.replicate g._among_of_combinations MatchState.UNKNOWN)
              ∧ g._among_of_combinations = 3 * (3 - 1) / 2
              ∧ ∀ k < g._among_of_combinations, g.verdictAt k = MatchState.UNKNOWN) :=
  ⟨by decide,
    CmpComb_PrepareCombinations_rebuild 64 3 (by decide) (by decide) overwrittenSet (by decide)
      rfl (by decide)⟩

/-- C12: a set allocated for 363 elements with a `size_t` of 16 bits has 167 pairs, since the
pair count 65703 of 363 elements is not representable; `CmpComb_PrepareCombinations` returns on
it, and the set it leaves has index arrays of 167 entries, not the sweep of 363 elements. With
a `size_t` of 3 bits the set allocated for 5 elements has 2 pairs, and the rebuild leaves the
pairs (2, 4) and (3, 4) in it. -/
theorem CmpComb_PrepareCombinations_wrapped_count :
    (setOf16Bits.Allocated 16 ∧ 0 < setOf16Bits._among_of_combinations
        ∧ setOf16Bits._among_of_elements = 363
        ∧ ∃ b h', CmpComb_PrepareCombinations 16 (some setOf16Bits) = some (b, some h')
          ∧ h'._compare_indexes.map List.length = some 167
          ∧ ¬ h'.IsSweep 363)
      ∧ setOf3Bits.Allocated 3 ∧ 0 < setOf3Bits._among_of_combinations
      ∧ CmpComb_PrepareCombinations 3 (some setOf3Bits)
        = some (true, some
          { _compare_indexes := some [2, 3]
            _compare_with_indexes := some [4, 4]
            _match_states := some [MatchState.UNKNOWN, MatchState.UNKNOWN]
            _among_of_combinations := 2
            _among_of_elements := 5 })
      ∧ ¬ CompareCombinations.IsSweep 5
          { _compare_indexes := some [2, 3]
            _compare_with_indexes := some [4, 4]
            _match_states := some [MatchState.UNKNOWN, MatchState.UNKNOWN]
            _among_of_combinations := 2
            _among_of_elements := 5 } := by
  refine ⟨⟨?_, by decide, rfl, ?_⟩, by decide, by decide, by decide, ?_⟩
  · refine ⟨by simp [setOf16Bits], by simp [setOf16Bits], by simp [setOf16Bits], ?_⟩
    rw [NumberOfCombinations_mod]
    simp [setOf16Bits]
  · obtain ⟨b, xs1, ys1, zs1, e, lx, _, _, _⟩ := Prepare_shape 16 (List.replicate 167 0)
      (List.replicate 167 0) (List.replicate 167 MatchState.UNKNOWN) 167 363
    refine ⟨b, _, e, by simp [lx], ?_⟩
    intro hs
    have h1 := hs.1
    simp only [Option.map_some', lx, List.length_replicate, Option.some.injEq] at h1
    norm_num at h1
  · intro hs
    have h1 := hs.1
    simp at h1

/-- C13: the set of one element, with its two index arrays present, is a set that holds at
least one element and has its pair storage present, and `CmpComb_PrepareCombinations` returns
failure on it; it is the set that `CmpComb_Initialize` returns for one element. -/
theorem CmpComb_PrepareCombinations_one_element :
    CmpComb_Initialize 64 heapOfScenarios 1 = some setOfOneElement
      ∧ 1 ≤ setOfOneElement._among_of_elements
      ∧ setOfOneElement._compare_indexes ≠ none
      ∧ setOfOneElement._compare_with_indexes ≠ none
      ∧ setOfOneElement._match_states ≠ none
      ∧ CmpComb_PrepareCombinations 64 (some setOfOneElement)
        = some (false, some setOfOneElement) := by
  decide

/-- C13, as the code has it, on the set of scenario A, which has three pairs and its three
arrays. -/
theorem CmpComb_PrepareCombinations_failure_iff_witness :
    CmpComb_PrepareCombinations 64 none = some (false, none)
      ∧ ∃ b h', CmpComb_PrepareCombinations 64 (some scenarioA._combinations_handler)
          = some (b, some h')
        ∧ (b = false ↔ (scenarioA._combinations_handler._among_of_combinations = 0
            ∨ scenarioA._combinations_handler._compare_indexes = none
            ∨ scenarioA._combinations_handler._compare_with_indexes = none))
        ∧ (b = true ↔ (0 < scenarioA._combinations_handler._among_of_combinations
            ∧ scenarioA._combinations_handler._compare_indexes ≠ none
            ∧ scenarioA._combinations_handler._compare_with_indexes ≠ none))
        ∧ (b = false → h' = scenarioA._combinations_handler) :=
  CmpComb_PrepareCombinations_failure_iff 64 scenarioA._combinations_handler (by decide)

/-- C14 at five elements and at one element with a 64-bit `size_t`. -/
theorem CmpComb_NumberOfCombinations_zero_iff_witness :
    (CmpComb_NumberOfCombinations 64 5 = 0 ↔ 5 ≤ 1)
      ∧ (CmpComb_NumberOfCombinations 64 1 = 0 ↔ 1 ≤ 1) :=
  ⟨CmpComb_NumberOfCombinations_zero_iff 64 5 (by decide),
    CmpComb_NumberOfCombinations_zero_iff 64 1 (by decide)⟩

/-- C15 on scenario A. -/
theorem CmpFiles_CompareFiles_idempotent_witness :
    (∀ fuel b h', CmpFiles_CompareFiles fuel (some scenarioA) = some (b, some h') →
        ∃ h'', CmpFiles_CompareFiles 1 (some h') = some (b, some h'')
          ∧ (∀ fuel2 b2 g2, CmpFiles_CompareFiles fuel2 (some h') = some (b2, some g2) →
              b2 = b ∧ g2 = h'')
          ∧ ∀ k < scenarioA._combinations_handler._among_of_combinations,
              h''.pairAt k = h'.pairAt k ∧ h''.verdictAt k = h'.verdictAt k)
      ∧ ∃ fuel b h', CmpFiles_CompareFiles fuel (some scenarioA) = some (b, some h') :=
  ⟨(CmpFiles_CompareFiles_idempotent scenarioA (by decide) (by decide)).1,
    (CmpFiles_CompareFiles_idempotent scenarioA (by decide) (by decide)).2 (by decide)⟩

/-- Scenario A, called twice: the second call returns `false` after one round, with the
verdicts of the first call. -/
theorem scenarioA_second_run :
    ((CmpFiles_CompareFiles 4 (some scenarioA)).bind
        (fun r => CmpFiles_CompareFiles 1 r.2)).map
        (fun r => (r.1, r.2.map (fun g => g._combinations_handler._match_states)))
      = some (false, some (some
          [MatchState.MATCHED, MatchState.NOT_MATCHED, MatchState.NOT_MATCHED])) := by
  decide

/-- C16 on the paths "stdin", "first", "stdin" (refused) and "first", "stdin" (a session whose
second stream is the stream `stdin` of the host). -/
theorem CmpFiles_Initialize_exclusive_stdin_witness :
    ((OpenFilestreams hostOfScenarios ["stdin", "first", "stdin"] 3).1 = none
        ∧ (CmpFiles_Initialize 64 hostOfScenarios (some ["stdin", "first", "stdin"]) 3 4).1
          = none)
      ∧ NoRead (CmpFiles_Initialize 64 hostOfScenarios (some ["stdin", "first", "stdin"]) 3 4).2
      ∧ ∃ h, (CmpFiles_Initialize 64 hostOfScenarios (some ["first", "stdin"]) 2 4).1 = some h
        ∧ h.stream 1 = hostOfScenarios.stdin :=
  ⟨(CmpFiles_Initialize_exclusive_stdin 64 hostOfScenarios ["stdin", "first", "stdin"] 4).1
      (by decide),
    (CmpFiles_Initialize_exclusive_stdin 64 hostOfScenarios ["stdin", "first", "stdin"]
      4).2.2.1,
    match hr : (CmpFiles_Initialize 64 hostOfScenarios (some ["first", "stdin"]) 2 4).1 with
    | some h =>
        ⟨h, rfl,
          (CmpFiles_Initialize_exclusive_stdin 64 hostOfScenarios ["first", "stdin"] 4).2.2.2.2.1
            h hr 1 (by decide) (by decide)⟩
    | none => absurd hr (by decide)⟩

/-- C17 on two paths with a buffer capacity of 0, on no file, and on an absent list. -/
theorem CmpFiles_Initialize_rejects_witness :
    CmpFiles_Initialize 64 hostOfScenarios (some ["first", "second"]) 2 0 = (none, [])
      ∧ CmpFiles_Initialize 64 hostOfScenarios (some []) 0 4 = (none, [])
      ∧ CmpFiles_Initialize 64 hostOfScenarios none 2 4 = (none, []) :=
  ⟨CmpFiles_Initialize_rejects 64 hostOfScenarios _ 2 0 (Or.inr (Or.inr rfl)),
    CmpFiles_Initialize_rejects 64 hostOfScenarios _ 0 4 (Or.inr (Or.inl rfl)),
    CmpFiles_Initialize_rejects 64 hostOfScenarios none 2 4 (Or.inl rfl)⟩

/-- C18: with one source, `CmpFiles_Initialize` opens the source and returns a session. -/
theorem CmpFiles_Initialize_opens_one_source :
    Effect.fopen "first" ∈ (CmpFiles_Initialize 64 hostOfScenarios (some ["first"]) 1 4).2
      ∧ (CmpFiles_Initialize 64 hostOfScenarios (some ["first"]) 1 4).1.isSome = true
      ∧ ¬ (∀ e ∈ (CmpFiles_Initialize 64 hostOfScenarios (some ["first"]) 1 4).2,
          e.isOpen = false) := by
  decide

/-- C18, as the code has it, on the host of the scenarios: the session of one source is
returned unchanged by `CmpFiles_CompareFiles`, and `CmpFiles_Initialize` opens the source
"first". -/
theorem CmpFiles_below_two_sources_witness :
    (∀ fuel (h : FilesToCompare), h._number_of_filestreams < 2 →
        CmpFiles_CompareFiles fuel (some h) = some (false, some h))
      ∧ Effect.fopen "first"
        ∈ (CmpFiles_Initialize 64 hostOfScenarios (some ["first"]) 1 4).2 :=
  ⟨(CmpFiles_below_two_sources 64 hostOfScenarios).1,
    (CmpFiles_below_two_sources 64 hostOfScenarios).2.2.2.2 "first" 4 (by decide) (by decide)
      (by decide) (by decide)⟩

/-- C19 on the set of scenario A, for position 1 and for position 3. -/
theorem CmpComb_SetCombination_frame_witness :
    (∃ h', CmpComb_SetCombination (some scenarioA._combinations_handler) 1 5 6
          = (true, some h')
        ∧ h'._match_states = scenarioA._combinations_handler._match_states
        ∧ h'._among_of_elements = scenarioA._combinations_handler._among_of_elements
        ∧ h'._among_of_combinations = scenarioA._combinations_handler._among_of_combinations
        ∧ (∀ k, k ≠ 1 → h'.pairAt k = scenarioA._combinations_handler.pairAt k
            ∧ h'.verdictAt k = scenarioA._combinations_handler.verdictAt k)
        ∧ h'.verdictAt 1 = scenarioA._combinations_handler.verdictAt 1)
      ∧ CmpComb_SetCombination (some scenarioA._combinations_handler) 3 5 6
        = (false, some scenarioA._combinations_handler) :=
  ⟨(CmpComb_SetCombination_frame scenarioA._combinations_handler 1 5 6).1 (by decide),
    (CmpComb_SetCombination_frame scenarioA._combinations_handler 3 5 6).2.1 (by decide)⟩

/-- C20. The help text of `main` names the long option "--compare-files", but the argument loop
tests "--check-files": "--compare-files" is taken as a file path. With "-cf" (and with
"--check-files") the arguments "first", "second" are selected, the range 2 to 4; with
"--compare-files" in its place the range is 1 to 4 and the option itself is the first of three
files. After "-om", "-cf" is accepted and "--compare-files" is refused. -/
theorem main_compare_files_option :
    "-cf --compare-files" ∈ main.help_options
      ∧ main.arguments 64 strtoulOfScenarios ["comparefiles", "-h"]
        = Parsed.help main.help_options
      ∧ main.arguments 64 strtoulOfScenarios ["comparefiles", "-cf", "first", "second"]
        = Parsed.compare
            { files_start_index := 2, files_end_index := 4, buffer_size := 16384,
              output_level := OutputLevel.SHOW_ALL, argument_was_provided := false } 2
      ∧ main.arguments 64 strtoulOfScenarios
          ["comparefiles", "--check-files", "first", "second"]
        = Parsed.compare
            { files_start_index := 2, files_end_index := 4, buffer_size := 16384,
              output_level := OutputLevel.SHOW_ALL, argument_was_provided := false } 2
      ∧ main.arguments 64 strtoulOfScenarios
          ["comparefiles", "--compare-files", "first", "second"]
        = Parsed.compare
            { files_start_index := 1, files_end_index := 4, buffer_size := 16384,
              output_level := OutputLevel.SHOW_ALL, argument_was_provided := false } 3
      ∧ main.arguments 64 strtoulOfScenarios
          ["comparefiles", "-om", "-cf", "first", "second"]
        = Parsed.compare
            { files_start_index := 3, files_end_index := 5, buffer_size := 16384,
              output_level := OutputLevel.SHOW_ONLY_MATCHED, argument_was_provided := false } 2
      ∧ main.arguments 64 strtoulOfScenarios
          ["comparefiles", "-om", "--compare-files", "first", "second"]
        = Parsed.error none none
            "Cannot process any more filenames, after one or several arguments!" := by
  decide

/-- One evaluation with each outcome of the decision table: equal blocks of one byte leave
`UNKNOWN`; two empty sources give `MATCHED`; different blocks give `NOT_MATCHED`; a source at
end of file beside one that delivers a byte gives `NOT_MATCHED`. -/
theorem decision_table_outcomes :
    scenarioA.roundStep.verdictAt 0 = MatchState.UNKNOWN
      ∧ scenarioC.roundStep.verdictAt 0 = MatchState.MATCHED
      ∧ scenarioSettled.roundStep.verdictAt 1 = MatchState.NOT_MATCHED
      ∧ (scenarioShorter.rounds 1).verdictAt 0 = MatchState.UNKNOWN
      ∧ (scenarioShorter.rounds 2).verdictAt 0 = MatchState.NOT_MATCHED := by
  decide

/-- C21 on the first pair of scenario A in the first round: both counts are 1 and the blocks
are equal. -/
theorem CmpFiles_CompareFiles_decision_table_witness :
    (scenarioA.roundStep.verdictAt 0 = MatchState.MATCHED ↔
        scenarioA.readAll.count 0 = 0 ∧ scenarioA.readAll.count 1 = 0
          ∧ feof (scenarioA.readAll.stream 0) = true
          ∧ feof (scenarioA.readAll.stream 1) = true)
      ∧ (scenarioA.roundStep.verdictAt 0 = MatchState.UNKNOWN ↔
          0 < scenarioA.readAll.count 0 ∧ scenarioA.readAll.block 0 = scenarioA.readAll.block 1) :=
  (CmpFiles_CompareFiles_decision_table scenarioA (by decide) 0 0 1 (by decide) (by decide)
    (by decide) (by decide) (by decide)).2.2

/-- C22: the verdict of the session is `MATCHED` and the error indicator of its first stream is
set; after one round the verdict is `NOT_MATCHED`, and so it is when `CmpFiles_CompareFiles`
returns. -/
theorem CmpFiles_CompareFiles_matched_is_evaluated :
    scenarioMatchedError.WF
      ∧ scenarioMatchedError.verdictAt 0 = MatchState.MATCHED
      ∧ scenarioMatchedError.roundStep.verdictAt 0 = MatchState.NOT_MATCHED
      ∧ (CmpFiles_CompareFiles.compare 0
          { handler := scenarioMatchedError.readAll
            skipped_combinations := 0
            finished_combinations := 0 }).handler.verdictAt 0 = MatchState.NOT_MATCHED
      ∧ (CmpFiles_CompareFiles 2 (some scenarioMatchedError)).map
          (fun r => (r.1, r.2.map (fun g => g._combinations_handler._match_states)))
        = some (false, some (some [MatchState.NOT_MATCHED])) := by
  decide

/-- C22, as the code has it: the `MATCHED` verdict beside a stream in error becomes
`NOT_MATCHED`; the `NOT_MATCHED` verdict of the second pair of the sources "aaa", "aaa", "bbb"
after the first round stays in the second round. -/
theorem CmpFiles_CompareFiles_skips_not_matched_witness :
    scenarioMatchedError.roundStep.verdictAt 0 = MatchState.NOT_MATCHED
      ∧ (scenarioSettled.rounds 1).roundStep.verdictAt 1 = MatchState.NOT_MATCHED :=
  ⟨(CmpFiles_CompareFiles_skips_not_matched scenarioMatchedError (by decide) 0
      (by decide)).2.2.2 (by decide) (Or.inl (by decide)),
    (CmpFiles_CompareFiles_skips_not_matched (scenarioSettled.rounds 1) (by decide) 1
      (by decide)).2.1 (by decide)⟩

/-- C23 on the pair of the second and third source, which are the same in the session whose
first source fails with a read error and in the session whose first source holds one byte. -/
theorem CmpFiles_CompareFiles_pair_independent_witness :
    (∃ fuel r g', CmpFiles_CompareFiles fuel (some scenarioFailing) = some (r, some g'))
      ∧ (∃ fuel r h', CmpFiles_CompareFiles fuel (some scenarioOther) = some (r, some h'))
      ∧ ∀ f1 r1 g' f2 r2 h',
          CmpFiles_CompareFiles f1 (some scenarioFailing) = some (r1, some g') →
          CmpFiles_CompareFiles f2 (some scenarioOther) = some (r2, some h') →
          g'.verdictAt 2 = h'.verdictAt 2
            ∧ h'.verdictAt 2
              = if (scenarioOther.stream 1).pending = (scenarioOther.stream 2).pending then
                  MatchState.MATCHED
                else MatchState.NOT_MATCHED :=
  CmpFiles_CompareFiles_pair_independent scenarioFailing scenarioOther (by decide) (by decide)
    (by decide) (by decide) (by decide) (by decide) 2 1 2 (by decide) (by decide) (by decide)
    (by decide) (by decide) (by decide) (by decide) (by decide) (by decide) (by decide)
    (by decide) (by decide)

/-- The session whose first source holds one byte: the call returns `false` after three rounds,
the pair of the second and third source is `MATCHED` as in `scenarioFailing_run`. -/
theorem scenarioOther_run :
    (CmpFiles_CompareFiles 3 (some scenarioOther)).map
        (fun r => (r.1, r.2.map (fun g => g._combinations_handler._match_states)))
      = some (false, some (some
          [MatchState.NOT_MATCHED, MatchState.NOT_MATCHED, MatchState.MATCHED])) := by
  decide

/-- C24: the set of scenario A is the set that `CmpComb_Initialize` returns for three
elements, and its pairs are in range; `CmpComb_SetCombination` stores the pair (5, 5) at
position 0 and returns `true`; the pairs of the set are then not all in range, and the session
of scenario A with this set indexes outside of its three streams. And with a `size_t` of 32
bits and four bytes, the set that `CmpComb_Initialize` returns for 46342 elements has
1073767311 pairs and index arrays of 25487 entries: its position 25487 holds no pair. -/
theorem CmpComb_SetCombination_stores_any_pair :
    (CmpComb_Initialize 64 heapOfScenarios 3 = some scenarioA._combinations_handler
        ∧ scenarioA._combinations_handler.PairsWF
        ∧ ∃ h', CmpComb_SetCombination (some scenarioA._combinations_handler) 0 5 5
            = (true, some h')
          ∧ h'.pairAt 0 = (5, 5)
          ∧ ¬ h'.PairsWF
          ∧ ¬ ({ scenarioA with _combinations_handler := h' } : FilesToCompare).WF)
      ∧ ∃ h, CmpComb_Initialize 32 heapOf32Bits 46342 = some h
        ∧ h._among_of_combinations = 1073767311
        ∧ h._compare_indexes.map List.length = some 25487
        ∧ ¬ h.PairsWF := by
  refine ⟨⟨by decide, by decide,
    { _compare_indexes := some [5, 0, 1]
      _compare_with_indexes := some [5, 2, 2]
      _match_states := some [MatchState.UNKNOWN, MatchState.UNKNOWN, MatchState.UNKNOWN]
      _among_of_combinations := 3
      _among_of_elements := 3 },
    by decide, by decide, by decide, by decide⟩, ?_⟩
  obtain ⟨h, e, c1, _, l1, l2, _⟩ := Initialize_of_32_bits
  refine ⟨h, e, c1, l1, ?_⟩
  intro hp
  have hk := (hp 25487 (by rw [c1]; norm_num)).1
  cases hx : h._compare_indexes with
  | none => rw [hx] at l1; cases l1
  | some xs =>
    cases hy : h._compare_with_indexes with
    | none => rw [hy] at l2; cases l2
    | some ys =>
      rw [hx] at l1
      rw [hy] at l2
      simp only [Option.map_some', Option.some.injEq] at l1 l2
      simp only [CompareCombinations.pairAt, readAt, hx, hy, Option.getD_some] at hk
      rw [List.getD_eq_default _ _ (Nat.le_of_eq l1), List.getD_eq_default _ _ (Nat.le_of_eq l2)]
        at hk
      exact absurd hk (Nat.lt_irrefl 0)

/-- C24, as the code has it, for three elements with a `size_t` of 64 bits and eight bytes:
the pairs of the set that `CmpComb_Initialize` returns are in range, and writing the pair
(0, 2) at position 0 keeps them in range. -/
theorem CmpComb_pairs_in_range_witness :
    (scenarioA._combinations_handler.PairsWF
        ∧ scenarioA._combinations_handler._among_of_elements = 3)
      ∧ ∀ r h', CmpComb_SetCombination (some scenarioA._combinations_handler) 0 0 2
          = (r, some h') → h'.PairsWF :=
  ⟨(CmpComb_pairs_in_range 64 3 (by decide)).1 heapOfScenarios _ (by decide) (by decide),
    (CmpComb_pairs_in_range 64 3 (by decide)).2.2.2.1
      scenarioA._combinations_handler 0 0 2 (by decide) (by decide) (by decide) (by decide)
      (by decide)⟩

/-- C25. The sources "aaa", "aaa", "bbb" with buffers of one byte. After the first round the
two pairs of the third source, at positions 1 and 2, hold `NOT_MATCHED`, and the pair of the
first two sources holds `UNKNOWN`, so the loop goes on. The second and the third round read from
the third source again: its stream has two bytes to deliver after the first round, one after
the second, none after the third, and its byte count and buffer are written by each read. -/
theorem CmpFiles_CompareFiles_reads_settled_source :
    (scenarioSettled.rounds 1)._combinations_handler._match_states
        = some [MatchState.UNKNOWN, MatchState.NOT_MATCHED, MatchState.NOT_MATCHED]
      ∧ scenarioSettled.pairAt 1 = (0, 2) ∧ scenarioSettled.pairAt 2 = (1, 2)
      ∧ scenarioSettled.pairAt 0 = (0, 1)
      ∧ ¬ scenarioSettled.exits ∧ ¬ (scenarioSettled.rounds 1).exits
      ∧ ¬ (scenarioSettled.rounds 2).exits
      ∧ ((scenarioSettled.rounds 1).stream 2).pending = [98, 98]
      ∧ ((scenarioSettled.rounds 2).stream 2).pending = [98]
      ∧ ((scenarioSettled.rounds 3).stream 2).pending = []
      ∧ (scenarioSettled.rounds 1).readAll.stream 2 ≠ (scenarioSettled.rounds 1).stream 2
      ∧ ((scenarioSettled.rounds 3).stream 2).eof = false
      ∧ ((scenarioSettled.rounds 4).stream 2).eof = true
      ∧ CmpFiles_CompareFiles 3 (some scenarioSettled) = none
      ∧ (CmpFiles_CompareFiles 4 (some scenarioSettled)).map
          (fun r => (r.1, r.2.map (fun g => g._combinations_handler._match_states)))
        = some (false, some (some
            [MatchState.MATCHED, MatchState.NOT_MATCHED, MatchState.NOT_MATCHED]))
      ∧ (CmpFiles_CompareFiles 4 (some scenarioSettled)).map
          (fun r => r.2.map (fun g => g._filestreams.map FILE.pending))
        = some (some [[], [], []]) := by
  decide

/-- The calls of the sweep for three elements: positions 0, 1, 2, each returning `true`. -/
theorem calls_of_three :
    CmpComb_PrepareCombinations.calls 64 (some overwrittenSet)
      = [(0, true), (1, true), (2, true)]
      ∧ CmpComb_PrepareCombinations.calls 64 (some setOfOneElement) = [] := by
  decide

/-- The sources "abbb" and "cbbb" with buffers of one byte: the call does not return after one
round and returns `false` after two; each source has then delivered two of its four bytes. -/
theorem scenarioDistinct_run :
    CmpFiles_CompareFiles 1 (some scenarioDistinct) = none
      ∧ (CmpFiles_CompareFiles 2 (some scenarioDistinct)).map
          (fun r => (r.1, r.2.map (fun g => g._combinations_handler._match_states)))
        = some (false, some (some [MatchState.NOT_MATCHED]))
      ∧ (CmpFiles_CompareFiles 2 (some scenarioDistinct)).map
          (fun r => r.2.map (fun g => g._filestreams.map FILE.pending))
        = some (some [[98, 98], [98, 98]]) := by
  decide

/-- C27 on the sources "abbb" and "cbbb" with buffers of one byte: at most 4 / 1 + 2 rounds,
and the return after the second round, the verdict being `NOT_MATCHED` after the first. -/
theorem CmpFiles_CompareFiles_round_bound_witness :
    (∃ r b, 1 ≤ r ∧ r ≤ 4 / scenarioDistinct._compare_buffer_size + 2
        ∧ CmpFiles_CompareFiles r (some scenarioDistinct)
          = some (b, some (scenarioDistinct.rounds r))
        ∧ ∀ fuel < r, CmpFiles_CompareFiles fuel (some scenarioDistinct) = none)
      ∧ (∃ b, CmpFiles_CompareFiles (1 + 1) (some scenarioDistinct)
            = some (b, some (scenarioDistinct.rounds (1 + 1)))
          ∧ (0 < scenarioDistinct._combinations_handler._among_of_combinations → b = false))
      ∧ (∀ fuel ≤ 1, CmpFiles_CompareFiles fuel (some scenarioDistinct) = none) :=
  ⟨(CmpFiles_CompareFiles_round_bound scenarioDistinct (by decide) (by decide) (by decide) 4
      (by decide)).1,
    ((CmpFiles_CompareFiles_round_bound scenarioDistinct (by decide) (by decide) (by decide) 4
      (by decide)).2 1 (by decide) (by decide)).1,
    ((CmpFiles_CompareFiles_round_bound scenarioDistinct (by decide) (by decide) (by decide) 4
      (by decide)).2 1 (by decide) (by decide)).2.1⟩

end CompareFiles
